import Mathlib

/-!
# Radio settings of oFono: legacy RAT mapping, settings state, query pipeline

A shallow embedding of `ofono/src/radio-settings.c` (the core radio-settings atom)
and of `ofono/drivers/ril/ril_radio_settings.c` (the RIL driver adapter), followed by
theorems about the legacy-RAT table, the property handlers, the commit/rollback
callbacks and the query pipeline.

Conventions of the embedding:
* a C `int` / `enum` value is an `Int`; a `guint` is a `Nat` taken modulo `2 ^ 32`;
* a zero-terminated array of modes is the `List Int` of its entries before the terminator,
  a `NULL` pointer is `none`;
* every function that talks to the outside world (D-Bus replies, signals, storage,
  driver operations) returns the list of `Event`s it emitted, in program order.
-/

namespace RadioSettings

/-! ## Constants of `include/ofono/radio-settings.h` -/

/-- Modelled from the spec: the header declaring `enum ofono_radio_access_mode` is not among
the sources; the spec fixes `ANY` as the zero value. -/
def OFONO_RADIO_ACCESS_MODE_ANY : Int := 0

/-- Modelled from the spec: the GSM bit is `1` (the header is not among the sources). -/
def OFONO_RADIO_ACCESS_MODE_GSM : Int := 1

/-- Modelled from the spec: the UMTS bit is `2` (the header is not among the sources). -/
def OFONO_RADIO_ACCESS_MODE_UMTS : Int := 2

/-- Modelled from the spec: the LTE bit is `4` (the header is not among the sources). -/
def OFONO_RADIO_ACCESS_MODE_LTE : Int := 4

/-- Modelled from the spec: the mask of all technology bits, `GSM | UMTS | LTE`; the source
indexes an eight-entry string table with `m & OFONO_RADIO_ACCESS_MODE_ALL`. -/
def OFONO_RADIO_ACCESS_MODE_ALL : Nat := 7

/-! ## Machine integers -/

/-- The modulus of a 32-bit `guint`. -/
def GUINT_MOD : Nat := 4294967296

/-- Conversion of a C `int` to `guint` (the two's complement bit pattern). -/
def int_to_guint (m : Int) : Nat := (m % 4294967296).toNat

/-- Conversion of a `guint` back to `int` (`GPOINTER_TO_INT` of a stored `guint`). -/
def guint_to_int (u : Nat) : Int :=
  if u % GUINT_MOD < 2147483648 then (u % GUINT_MOD : Nat) else ((u % GUINT_MOD : Nat) : Int) - 4294967296

/-- The value range of a C `int`. -/
def is_c_int (m : Int) : Prop := -2147483648 ≤ m ∧ m ≤ 2147483647

instance (m : Int) : Decidable (is_c_int m) := by
  unfold is_c_int
  infer_instance

/-! ## RIL driver: the legacy access mode map (`ril_radio_settings_probe`) -/

/-- The bit pattern of `const int off = ~((r << 1) - 1)` for a `guint r`. -/
def probe_off (r : Nat) : Nat :=
  (GUINT_MOD - 1) - (((r <<< 1) % GUINT_MOD + (GUINT_MOD - 1)) % GUINT_MOD)

/-- The test `!(m & off)` of the inner loop, on the bit patterns. -/
def probe_bits_off (r : Nat) (m : Int) : Bool :=
  (int_to_guint m &&& probe_off r) == 0

/-- One iteration of the inner loop: `if (!(m & off) && m > max) max = m;`
where `max` is a `guint`, so the comparison and the assignment convert `m` to `guint`. -/
def probe_step (r : Nat) (max : Nat) (m : Int) : Nat :=
  if probe_bits_off r m && decide (int_to_guint m > max) then int_to_guint m else max

/-- The inner loop `for (i = 0; i < n; i++)` over the supported modes, starting at `max = 0`. -/
def probe_max (r : Nat) (val : List Int) : Nat :=
  val.foldl (probe_step r) 0

/-- The hash table `legacy_rat_map` (direct keys): an association list. -/
abbrev LegacyRatMap := List (Int × Nat)

/-- Insertion `g_hash_table_insert`: an existing key gets the new value. -/
def g_hash_table_insert (t : LegacyRatMap) (k : Int) (v : Nat) : LegacyRatMap :=
  (k, v) :: t.filter (fun e => e.1 != k)

/-- Lookup `g_hash_table_lookup`: `none` stands for the `NULL` of a missing key. -/
def g_hash_table_lookup (t : LegacyRatMap) (k : Int) : Option Nat :=
  (t.find? (fun e => e.1 == k)).map (fun e => e.2)

/-- The outer loop `for (r = 1; r & OFONO_RADIO_ACCESS_MODE_ALL; r <<= 1)`; the first argument
bounds the number of iterations (a `guint` has 32 bits, the loop leaves at `r = 8`). -/
def probe_fill : Nat → Nat → List Int → LegacyRatMap → LegacyRatMap
  | 0, _, _, t => t
  | fuel + 1, r, val, t =>
    if r &&& OFONO_RADIO_ACCESS_MODE_ALL != 0 then
      let max := probe_max r val
      let t1 := if max != 0 then g_hash_table_insert t (r : Int) max else t
      probe_fill fuel ((r <<< 1) % GUINT_MOD) val t1
    else t

/-- The legacy access mode map built by `ril_radio_settings_probe` from the supported modes. -/
def ril_radio_settings_probe (val : List Int) : LegacyRatMap :=
  probe_fill 32 1 val []

/-- The driver operation `ril_radio_settings_map_legacy_rat_mode`: the table lookup, `0` when the
key is missing. -/
def ril_radio_settings_map_legacy_rat_mode (legacy_rat_map : LegacyRatMap) (rat : Int) : Int :=
  match g_hash_table_lookup legacy_rat_map rat with
  | some mapped => guint_to_int mapped
  | none => 0

/-- The spec's words for a table entry: `v` is a supported value, positive, with no bit at or
above the next tier, and numerically the largest such supported value. -/
def is_largest_candidate (val : List Int) (r : Nat) (v : Int) : Prop :=
  v ∈ val ∧ 0 < v ∧ probe_bits_off r v = true ∧
    ∀ m ∈ val, 0 < m → probe_bits_off r m = true → m ≤ v

/-- The RIL driver keeps the supported modes and the map built from them at probe time. -/
structure ril_radio_settings where
  supported_modes : List Int
  legacy_rat_map : LegacyRatMap
deriving DecidableEq, Repr

/-- The driver data set up by `ril_radio_settings_probe`. -/
def ril_radio_settings_new (modes : List Int) : ril_radio_settings :=
  { supported_modes := modes, legacy_rat_map := ril_radio_settings_probe modes }

/-! ## Core: the driver capability set and the settings state -/

/-- Modelled from the spec: `struct ofono_radio_settings_driver` is declared in a header that is
not among the sources. Each optional operation is recorded by its presence (a `NULL` function
pointer is `false`); `map_legacy_rat_mode` is synchronous and pure, so it is kept as a function. -/
structure ofono_radio_settings_driver where
  query_rat_mode : Bool
  set_rat_mode : Bool
  query_band : Bool
  set_band : Bool
  query_fast_dormancy : Bool
  set_fast_dormancy : Bool
  query_available_rats : Bool
  query_available_rat_modes : Bool
  map_legacy_rat_mode : Option (Int → Int)

/-- The operation table `ril_radio_settings_driver` of the RIL driver. -/
def ril_radio_settings_driver (rsd : ril_radio_settings) : ofono_radio_settings_driver :=
  { query_rat_mode := true
    set_rat_mode := true
    query_band := false
    set_band := false
    query_fast_dormancy := false
    set_fast_dormancy := false
    query_available_rats := true
    query_available_rat_modes := true
    map_legacy_rat_mode := some (ril_radio_settings_map_legacy_rat_mode rsd.legacy_rat_map) }

/-- The group `Settings` of the key file `radiosetting`. A band entry is `none` when the key is
missing or its value is not an integer (`g_key_file_get_integer` sets its error). -/
structure GKeyFile where
  GsmBand : Option Int
  UmtsBand : Option Int
  TechnologyPreference : Option String
deriving DecidableEq, Repr

/-- The record `struct ofono_radio_settings` without the queue `q`, the atom and the driver
pointer: the driver is constant over the lifetime of the atom and is passed to every function. -/
structure ofono_radio_settings where
  flags : Nat
  mode : Int
  band_gsm : Int
  band_umts : Int
  fast_dormancy : Bool
  pending_mode : Int
  pending_band_gsm : Int
  pending_band_umts : Int
  fast_dormancy_pending : Bool
  available_modes : Option (List Int)
  settings : Option GKeyFile
  imsi : Option String
deriving DecidableEq, Repr

/-- The flag `RADIO_SETTINGS_FLAG_CACHED`. -/
def RADIO_SETTINGS_FLAG_CACHED : Nat := 1

/-- Modelled from the spec: the band enumerations are declared in a header that is not among the
sources; the values are numbered in the order of the `switch` statements of the source. -/
def OFONO_RADIO_BAND_GSM_ANY : Int := 0

/-- Modelled from the spec: see `OFONO_RADIO_BAND_GSM_ANY`. -/
def OFONO_RADIO_BAND_GSM_850 : Int := 1

/-- Modelled from the spec: see `OFONO_RADIO_BAND_GSM_ANY`. -/
def OFONO_RADIO_BAND_GSM_900P : Int := 2

/-- Modelled from the spec: see `OFONO_RADIO_BAND_GSM_ANY`. -/
def OFONO_RADIO_BAND_GSM_900E : Int := 3

/-- Modelled from the spec: see `OFONO_RADIO_BAND_GSM_ANY`. -/
def OFONO_RADIO_BAND_GSM_1800 : Int := 4

/-- Modelled from the spec: see `OFONO_RADIO_BAND_GSM_ANY`. -/
def OFONO_RADIO_BAND_GSM_1900 : Int := 5

/-- Modelled from the spec: see `OFONO_RADIO_BAND_GSM_ANY`. -/
def OFONO_RADIO_BAND_UMTS_ANY : Int := 0

/-- Modelled from the spec: see `OFONO_RADIO_BAND_GSM_ANY`. -/
def OFONO_RADIO_BAND_UMTS_850 : Int := 1

/-- Modelled from the spec: see `OFONO_RADIO_BAND_GSM_ANY`. -/
def OFONO_RADIO_BAND_UMTS_900 : Int := 2

/-- Modelled from the spec: see `OFONO_RADIO_BAND_GSM_ANY`. -/
def OFONO_RADIO_BAND_UMTS_1700AWS : Int := 3

/-- Modelled from the spec: see `OFONO_RADIO_BAND_GSM_ANY`. -/
def OFONO_RADIO_BAND_UMTS_1900 : Int := 4

/-- Modelled from the spec: see `OFONO_RADIO_BAND_GSM_ANY`. -/
def OFONO_RADIO_BAND_UMTS_2100 : Int := 5

/-! ## Core: the outside world -/

/-- The D-Bus errors the handlers answer with. -/
inductive DBusError where
  | invalid_args
  | not_implemented
  | not_supported
  | access_denied
  | failed
deriving DecidableEq, Repr

/-- A property value on D-Bus; a string is `none` when the source passes a `NULL` pointer. -/
inductive PropertyValue where
  | string (s : Option String)
  | boolean (b : Bool)
  | string_array (l : List (Option String))
deriving DecidableEq, Repr

/-- The reply to a method call. -/
inductive DBusReply where
  | method_return
  | properties (dict : List (String × PropertyValue))
  | error (e : DBusError)
deriving DecidableEq, Repr

/-- The asynchronous operations of the driver as the core invokes them. -/
inductive DriverCall where
  | query_rat_mode
  | set_rat_mode (mode : Int)
  | query_band
  | set_band (band_gsm : Int) (band_umts : Int)
  | query_fast_dormancy
  | set_fast_dormancy (enable : Bool)
  | query_available_rats
  | query_available_rat_modes
deriving DecidableEq, Repr

/-- What a function of the core does to the outside world, in program order:
`queue_reply` is `__ofono_dbus_queue_reply_ok` / `__ofono_dbus_queue_reply_failed` (the request at
the head of the queue is answered), `queue_reply_all` is `__ofono_dbus_queue_reply_all_fn_param`,
`property_changed` is `ofono_dbus_signal_property_changed`, `storage_sync` is `storage_sync`. -/
inductive Event where
  | driver (c : DriverCall)
  | queue_reply (r : DBusReply)
  | queue_reply_all (r : DBusReply)
  | property_changed (name : String) (value : PropertyValue)
  | storage_sync (imsi : Option String) (settings : GKeyFile)
deriving DecidableEq, Repr

/-- An argument of a D-Bus message. -/
inductive DBusArg where
  | string (s : String)
  | boolean (b : Bool)
  | variant (v : DBusArg)
  | other
deriving DecidableEq, Repr

/-- A `SetProperty` method call: its arguments and the outcome of
`__ofono_dbus_access_method_allowed` for its sender. -/
structure DBusMessage where
  args : List DBusArg
  access_allowed : Bool
deriving DecidableEq, Repr

/-- The well-formed call `SetProperty(name, value)` of a sender that is allowed to make it. -/
def set_property_message (name : String) (value : DBusArg) : DBusMessage :=
  { args := [DBusArg.string name, DBusArg.variant value], access_allowed := true }

/-! ## Core: strings -/

/-- The function `radio_legacy_mode_to_string`. -/
def radio_legacy_mode_to_string (m : Int) : Option String :=
  if m = OFONO_RADIO_ACCESS_MODE_ANY then some "any"
  else if m = OFONO_RADIO_ACCESS_MODE_GSM then some "gsm"
  else if m = OFONO_RADIO_ACCESS_MODE_UMTS then some "umts"
  else if m = OFONO_RADIO_ACCESS_MODE_LTE then some "lte"
  else none

/-- The table `mode_string` of `radio_access_modes_to_string`. -/
def mode_string : List String :=
  ["any", "+gsm", "+umts", "+umts+gsm", "+lte", "+lte+gsm", "+lte+umts", "+lte+umts+gsm"]

/-- The function `radio_access_modes_to_string`: `mode_string[m & OFONO_RADIO_ACCESS_MODE_ALL]`. -/
def radio_access_modes_to_string (m : Int) : Option String :=
  mode_string[int_to_guint m &&& OFONO_RADIO_ACCESS_MODE_ALL]?

/-- The function `radio_access_mode_to_string`. -/
def radio_access_mode_to_string (m : Int) : Option String :=
  if m < 0 then radio_legacy_mode_to_string (-m) else radio_access_modes_to_string m

/-- The function `radio_legacy_mode_from_string`; `none` is the result `FALSE`. -/
def radio_legacy_mode_from_string (str : String) : Option Int :=
  if str = "any" then some OFONO_RADIO_ACCESS_MODE_ANY
  else if str = "gsm" then some OFONO_RADIO_ACCESS_MODE_GSM
  else if str = "umts" then some OFONO_RADIO_ACCESS_MODE_UMTS
  else if str = "lte" then some OFONO_RADIO_ACCESS_MODE_LTE
  else none

/-- Splitting at a one-character delimiter, the accumulator holds the current token reversed. -/
def g_strsplit_aux (delim : Char) : List Char → List Char → List String
  | [], cur => [String.mk cur.reverse]
  | c :: cs, cur =>
    if c = delim then String.mk cur.reverse :: g_strsplit_aux delim cs []
    else g_strsplit_aux delim cs (c :: cur)

/-- The library function `g_strsplit (s, delim, -1)` for a one-character delimiter: the empty
string has no tokens, every other string has one token more than it has delimiters. -/
def g_strsplit (s : List Char) (delim : Char) : List String :=
  if s = [] then [] else g_strsplit_aux delim s []

/-- The loop of `radio_access_modes_from_string` over the tokens, carrying `any` and `*mask`;
`none` is `ok = FALSE`, which ends the loop. -/
def radio_access_modes_loop : List String → Bool → Nat → Option (Bool × Nat)
  | [], any, mask => some (any, mask)
  | s :: rest, any, mask =>
    match radio_legacy_mode_from_string s with
    | some m =>
      if m = OFONO_RADIO_ACCESS_MODE_ANY then radio_access_modes_loop rest true mask
      else radio_access_modes_loop rest any (mask ||| m.toNat)
    | none => none

/-- The function `radio_access_modes_from_string`; `none` is the result `FALSE`. -/
def radio_access_modes_from_string (str : String) : Option Int :=
  match str.toList with
  | '+' :: rest =>
    match radio_access_modes_loop (g_strsplit rest '+') false 0 with
    | some (any, mask) => if any then some OFONO_RADIO_ACCESS_MODE_ANY else some (mask : Int)
    | none => none
  | _ => none

/-- The function `radio_band_gsm_to_string`. -/
def radio_band_gsm_to_string (band : Int) : Option String :=
  if band = OFONO_RADIO_BAND_GSM_ANY then some "any"
  else if band = OFONO_RADIO_BAND_GSM_850 then some "850"
  else if band = OFONO_RADIO_BAND_GSM_900P then some "900P"
  else if band = OFONO_RADIO_BAND_GSM_900E then some "900E"
  else if band = OFONO_RADIO_BAND_GSM_1800 then some "1800"
  else if band = OFONO_RADIO_BAND_GSM_1900 then some "1900"
  else none

/-- The function `radio_band_gsm_from_string`; `none` is the result `FALSE`. -/
def radio_band_gsm_from_string (str : String) : Option Int :=
  if str = "any" then some OFONO_RADIO_BAND_GSM_ANY
  else if str = "850" then some OFONO_RADIO_BAND_GSM_850
  else if str = "900P" then some OFONO_RADIO_BAND_GSM_900P
  else if str = "900E" then some OFONO_RADIO_BAND_GSM_900E
  else if str = "1800" then some OFONO_RADIO_BAND_GSM_1800
  else if str = "1900" then some OFONO_RADIO_BAND_GSM_1900
  else none

/-- The function `radio_band_umts_to_string`. -/
def radio_band_umts_to_string (band : Int) : Option String :=
  if band = OFONO_RADIO_BAND_UMTS_ANY then some "any"
  else if band = OFONO_RADIO_BAND_UMTS_850 then some "850"
  else if band = OFONO_RADIO_BAND_UMTS_900 then some "900"
  else if band = OFONO_RADIO_BAND_UMTS_1700AWS then some "1700AWS"
  else if band = OFONO_RADIO_BAND_UMTS_1900 then some "1900"
  else if band = OFONO_RADIO_BAND_UMTS_2100 then some "2100"
  else none

/-- The function `radio_band_umts_from_string`; `none` is the result `FALSE`. -/
def radio_band_umts_from_string (str : String) : Option Int :=
  if str = "any" then some OFONO_RADIO_BAND_UMTS_ANY
  else if str = "850" then some OFONO_RADIO_BAND_UMTS_850
  else if str = "900" then some OFONO_RADIO_BAND_UMTS_900
  else if str = "1700AWS" then some OFONO_RADIO_BAND_UMTS_1700AWS
  else if str = "1900" then some OFONO_RADIO_BAND_UMTS_1900
  else if str = "2100" then some OFONO_RADIO_BAND_UMTS_2100
  else none

/-! ## Core: supported modes and the legacy mapping -/

/-- The function `radio_access_mode_is_supported`. -/
def radio_access_mode_is_supported (rs : ofono_radio_settings) (mode : Int) : Bool :=
  if mode = OFONO_RADIO_ACCESS_MODE_ANY then true
  else
    match rs.available_modes with
    | some m => m.contains mode
    | none => true

/-- The function `radio_legacy_rat_driver`. -/
def radio_legacy_rat_driver (drv : ofono_radio_settings_driver) : Bool :=
  !drv.query_available_rat_modes

/-- The function `radio_map_legacy_rat`; the fallback `(rat | (rat - 1)) & ALL` is computed on
the bit patterns. -/
def radio_map_legacy_rat (drv : ofono_radio_settings_driver) (rat : Int) : Int :=
  if rat = OFONO_RADIO_ACCESS_MODE_ANY || radio_legacy_rat_driver drv then rat
  else
    match drv.map_legacy_rat_mode with
    | some f => f rat
    | none =>
      (((int_to_guint rat ||| int_to_guint (rat - 1)) &&& OFONO_RADIO_ACCESS_MODE_ALL : Nat) : Int)

/-! ## Core: the reply of `GetProperties` -/

/-- The array `legacy_modes`. -/
def legacy_modes : List Int :=
  [OFONO_RADIO_ACCESS_MODE_GSM, OFONO_RADIO_ACCESS_MODE_UMTS, OFONO_RADIO_ACCESS_MODE_LTE]

/-- The strings of `AvailableTechnologies` that `radio_get_properties_reply` collects in
`dbus_rats` from the available modes `m`. -/
def radio_available_technologies (drv : ofono_radio_settings_driver) (m : List Int) :
    List (Option String) :=
  if radio_legacy_rat_driver drv then m.map radio_legacy_mode_to_string
  else
    ((legacy_modes.filter (fun l => radio_map_legacy_rat drv l != 0)).map
        radio_legacy_mode_to_string) ++ m.map radio_access_modes_to_string

/-- The dictionary built by `radio_get_properties_reply`. -/
def radio_get_properties_dict (drv : ofono_radio_settings_driver) (rs : ofono_radio_settings) :
    List (String × PropertyValue) :=
  [("TechnologyPreference", PropertyValue.string (radio_access_mode_to_string rs.mode))]
  ++ (if drv.query_band then
        [("GsmBand", PropertyValue.string (radio_band_gsm_to_string rs.band_gsm)),
         ("UmtsBand", PropertyValue.string (radio_band_umts_to_string rs.band_umts))]
      else [])
  ++ (if drv.query_fast_dormancy then
        [("FastDormancy", PropertyValue.boolean rs.fast_dormancy)]
      else [])
  ++ (match rs.available_modes with
      | some m =>
        [("AvailableTechnologies",
          PropertyValue.string_array (radio_available_technologies drv m))]
      | none => [])

/-- The function `radio_get_properties_reply`. -/
def radio_get_properties_reply (drv : ofono_radio_settings_driver) (rs : ofono_radio_settings) :
    DBusReply :=
  DBusReply.properties (radio_get_properties_dict drv rs)

/-! ## Core: commit of a value and the completions of the set operations -/

/-- The library call `g_key_file_set_string` on the key `TechnologyPreference`; with a `NULL`
string the library returns at once and the entry keeps its value. -/
def g_key_file_set_string (kf : GKeyFile) (value : Option String) : GKeyFile :=
  match value with
  | some s => { kf with TechnologyPreference := some s }
  | none => kf

/-- The function `radio_set_fast_dormancy`. -/
def radio_set_fast_dormancy (rs : ofono_radio_settings) (enable : Bool) :
    ofono_radio_settings × List Event :=
  if rs.fast_dormancy = enable then (rs, [])
  else
    ({ rs with fast_dormancy := enable },
      [Event.property_changed "FastDormancy" (PropertyValue.boolean enable)])

/-- The function `radio_fast_dormancy_set_callback`; `error` is
`error->type != OFONO_ERROR_TYPE_NO_ERROR`. -/
def radio_fast_dormancy_set_callback (error : Bool) (rs : ofono_radio_settings) :
    ofono_radio_settings × List Event :=
  if error then
    ({ rs with fast_dormancy_pending := rs.fast_dormancy },
      [Event.queue_reply (DBusReply.error DBusError.failed)])
  else
    let r := radio_set_fast_dormancy rs rs.fast_dormancy_pending
    (r.1, Event.queue_reply DBusReply.method_return :: r.2)

/-- The first half of `radio_set_band`: the GSM band. -/
def radio_set_band_gsm (rs : ofono_radio_settings) : ofono_radio_settings × List Event :=
  if rs.band_gsm != rs.pending_band_gsm then
    let rs1 := { rs with band_gsm := rs.pending_band_gsm }
    let sig := Event.property_changed "GsmBand"
      (PropertyValue.string (radio_band_gsm_to_string rs1.band_gsm))
    match rs1.settings with
    | some kf =>
      let kf1 := { kf with GsmBand := some rs1.band_gsm }
      ({ rs1 with settings := some kf1 }, [sig, Event.storage_sync rs1.imsi kf1])
    | none => (rs1, [sig])
  else (rs, [])

/-- The second half of `radio_set_band`: the UMTS band. -/
def radio_set_band_umts (rs : ofono_radio_settings) : ofono_radio_settings × List Event :=
  if rs.band_umts != rs.pending_band_umts then
    let rs1 := { rs with band_umts := rs.pending_band_umts }
    let sig := Event.property_changed "UmtsBand"
      (PropertyValue.string (radio_band_umts_to_string rs1.band_umts))
    match rs1.settings with
    | some kf =>
      let kf1 := { kf with UmtsBand := some rs1.band_umts }
      ({ rs1 with settings := some kf1 }, [sig, Event.storage_sync rs1.imsi kf1])
    | none => (rs1, [sig])
  else (rs, [])

/-- The function `radio_set_band`. -/
def radio_set_band (rs : ofono_radio_settings) : ofono_radio_settings × List Event :=
  let g := radio_set_band_gsm rs
  let u := radio_set_band_umts g.1
  (u.1, g.2 ++ u.2)

/-- The function `radio_band_set_callback`. -/
def radio_band_set_callback (error : Bool) (rs : ofono_radio_settings) :
    ofono_radio_settings × List Event :=
  if error then
    ({ rs with pending_band_gsm := rs.band_gsm, pending_band_umts := rs.band_umts },
      [Event.queue_reply (DBusReply.error DBusError.failed)])
  else
    let r := radio_set_band rs
    (r.1, Event.queue_reply DBusReply.method_return :: r.2)

/-- The function `radio_set_rat_mode`. -/
def radio_set_rat_mode (rs : ofono_radio_settings) (mode : Int) :
    ofono_radio_settings × List Event :=
  if rs.mode = mode then (rs, [])
  else
    let rs1 := { rs with mode := mode }
    let str_mode := radio_access_mode_to_string rs1.mode
    let sig := Event.property_changed "TechnologyPreference" (PropertyValue.string str_mode)
    match rs1.settings with
    | some kf =>
      let kf1 := g_key_file_set_string kf str_mode
      ({ rs1 with settings := some kf1 }, [sig, Event.storage_sync rs1.imsi kf1])
    | none => (rs1, [sig])

/-- The function `radio_mode_set_callback`. -/
def radio_mode_set_callback (error : Bool) (rs : ofono_radio_settings) :
    ofono_radio_settings × List Event :=
  if error then
    ({ rs with pending_mode := rs.mode },
      [Event.queue_reply (DBusReply.error DBusError.failed)])
  else
    let r := radio_set_rat_mode rs rs.pending_mode
    (r.1, Event.queue_reply DBusReply.method_return :: r.2)

/-! ## Core: the query pipeline -/

/-- The function `radio_send_properties_reply`. -/
def radio_send_properties_reply (drv : ofono_radio_settings_driver) (rs : ofono_radio_settings) :
    ofono_radio_settings × List Event :=
  let rs1 := { rs with flags := rs.flags ||| RADIO_SETTINGS_FLAG_CACHED }
  (rs1, [Event.queue_reply_all (radio_get_properties_reply drv rs1)])

/-- The second loop of `radio_available_rats_query_callback`: the set bits of the `guint m`
from the least significant one, `m & ~(m - 1)` then `m &= m - 1`; the first argument bounds the
number of iterations by the number of bits. -/
def radio_extract_bits : Nat → Nat → List Int
  | 0, _ => []
  | fuel + 1, m =>
    if m = 0 then []
    else
      ((m &&& ((GUINT_MOD - 1) - (m - 1)) : Nat) : Int) :: radio_extract_bits fuel (m &&& (m - 1))

/-- The function `radio_available_rats_query_callback`. -/
def radio_available_rats_query_callback (drv : ofono_radio_settings_driver) (error : Bool)
    (available_rats : Nat) (rs : ofono_radio_settings) : ofono_radio_settings × List Event :=
  if !error then
    let rats := (available_rats % GUINT_MOD) &&& OFONO_RADIO_ACCESS_MODE_ALL
    radio_send_properties_reply drv
      { rs with available_modes := some (radio_extract_bits 32 rats) }
  else radio_send_properties_reply drv rs

/-- The function `radio_available_modes_query_callback`; `modes` is the array handed over by the
driver, read up to its first zero. -/
def radio_available_modes_query_callback (drv : ofono_radio_settings_driver) (error : Bool)
    (modes : List Int) (rs : ofono_radio_settings) : ofono_radio_settings × List Event :=
  if !error then
    radio_send_properties_reply drv
      { rs with available_modes := some (modes.takeWhile (fun m => m != 0)) }
  else radio_send_properties_reply drv rs

/-- The function `radio_query_available_rats`. -/
def radio_query_available_rats (drv : ofono_radio_settings_driver) (rs : ofono_radio_settings) :
    ofono_radio_settings × List Event :=
  if rs.available_modes.isSome ||
      (!drv.query_available_rats && !drv.query_available_rat_modes) then
    radio_send_properties_reply drv rs
  else if drv.query_available_rat_modes then
    (rs, [Event.driver DriverCall.query_available_rat_modes])
  else (rs, [Event.driver DriverCall.query_available_rats])

/-- The function `radio_fast_dormancy_query_callback`. -/
def radio_fast_dormancy_query_callback (drv : ofono_radio_settings_driver) (error : Bool)
    (enable : Bool) (rs : ofono_radio_settings) : ofono_radio_settings × List Event :=
  if error then (rs, [Event.queue_reply (DBusReply.error DBusError.failed)])
  else
    let s := radio_set_fast_dormancy rs enable
    let q := radio_query_available_rats drv s.1
    (q.1, s.2 ++ q.2)

/-- The function `radio_query_fast_dormancy`. -/
def radio_query_fast_dormancy (drv : ofono_radio_settings_driver) (rs : ofono_radio_settings) :
    ofono_radio_settings × List Event :=
  if !drv.query_fast_dormancy then radio_query_available_rats drv rs
  else (rs, [Event.driver DriverCall.query_fast_dormancy])

/-- The function `radio_band_query_callback`. -/
def radio_band_query_callback (drv : ofono_radio_settings_driver) (error : Bool)
    (band_gsm : Int) (band_umts : Int) (rs : ofono_radio_settings) :
    ofono_radio_settings × List Event :=
  if error then (rs, [Event.queue_reply (DBusReply.error DBusError.failed)])
  else
    let s := radio_set_band { rs with pending_band_gsm := band_gsm, pending_band_umts := band_umts }
    let q := radio_query_fast_dormancy drv s.1
    (q.1, s.2 ++ q.2)

/-- The function `radio_query_band`. -/
def radio_query_band (drv : ofono_radio_settings_driver) (rs : ofono_radio_settings) :
    ofono_radio_settings × List Event :=
  if !drv.query_band then radio_query_fast_dormancy drv rs
  else (rs, [Event.driver DriverCall.query_band])

/-- The function `radio_rat_mode_query_callback`. -/
def radio_rat_mode_query_callback (drv : ofono_radio_settings_driver) (error : Bool)
    (rat : Int) (rs : ofono_radio_settings) : ofono_radio_settings × List Event :=
  if error then (rs, [Event.queue_reply (DBusReply.error DBusError.failed)])
  else
    let mode : Int :=
      if radio_legacy_rat_driver drv then -rat
      else if rs.mode < 0 && radio_map_legacy_rat drv (-rs.mode) == rat then rs.mode
      else rat
    let s := radio_set_rat_mode rs mode
    let q := radio_query_band drv s.1
    (q.1, s.2 ++ q.2)

/-! ## Core: the request handlers -/

/-- What a handler returns: the state, the reply (`none` is the `NULL` of a request that waits
for the driver) and the events, here the driver operation it invoked. -/
structure HandlerResult where
  rs : ofono_radio_settings
  reply : Option DBusReply
  events : List Event
deriving DecidableEq, Repr

/-- The function `radio_get_properties_handler`. -/
def radio_get_properties_handler (drv : ofono_radio_settings_driver)
    (rs : ofono_radio_settings) : HandlerResult :=
  if rs.flags &&& RADIO_SETTINGS_FLAG_CACHED != 0 then
    { rs := rs, reply := some (radio_get_properties_reply drv rs), events := [] }
  else if !drv.query_rat_mode then
    { rs := rs, reply := some (DBusReply.error DBusError.not_implemented), events := [] }
  else { rs := rs, reply := none, events := [Event.driver DriverCall.query_rat_mode] }

/-- An immediate reply of a handler that leaves the state alone. -/
def handler_reply (rs : ofono_radio_settings) (r : DBusReply) : HandlerResult :=
  { rs := rs, reply := some r, events := [] }

/-- The branch `TechnologyPreference` of `radio_set_property_handler`. -/
def radio_set_technology_preference (drv : ofono_radio_settings_driver)
    (rs : ofono_radio_settings) (var : DBusArg) : HandlerResult :=
  if !drv.set_rat_mode then handler_reply rs (DBusReply.error DBusError.not_implemented)
  else
    match var with
    | DBusArg.string value =>
      let finish (mode : Int) (am : Int) : HandlerResult :=
        if rs.mode = mode then handler_reply rs DBusReply.method_return
        else
          { rs := { rs with pending_mode := mode }, reply := none,
            events := [Event.driver (DriverCall.set_rat_mode am)] }
      match radio_legacy_mode_from_string value with
      | some am =>
        let mode : Int := -am
        if radio_legacy_rat_driver drv then
          if !radio_access_mode_is_supported rs am then
            handler_reply rs (DBusReply.error DBusError.not_supported)
          else finish mode am
        else if mode != OFONO_RADIO_ACCESS_MODE_ANY then
          let am1 := radio_map_legacy_rat drv am
          if am1 = 0 then handler_reply rs (DBusReply.error DBusError.not_supported)
          else finish mode am1
        else finish mode am
      | none =>
        match radio_access_modes_from_string value with
        | some am =>
          if radio_legacy_rat_driver drv || !radio_access_mode_is_supported rs am then
            handler_reply rs (DBusReply.error DBusError.not_supported)
          else finish am am
        | none => handler_reply rs (DBusReply.error DBusError.invalid_args)
    | _ => handler_reply rs (DBusReply.error DBusError.invalid_args)

/-- The branch `GsmBand` of `radio_set_property_handler`. -/
def radio_set_gsm_band (drv : ofono_radio_settings_driver)
    (rs : ofono_radio_settings) (var : DBusArg) : HandlerResult :=
  if !drv.set_band then handler_reply rs (DBusReply.error DBusError.not_implemented)
  else
    match var with
    | DBusArg.string value =>
      match radio_band_gsm_from_string value with
      | none => handler_reply rs (DBusReply.error DBusError.invalid_args)
      | some band =>
        if rs.band_gsm = band then handler_reply rs DBusReply.method_return
        else
          { rs := { rs with pending_band_gsm := band }, reply := none,
            events := [Event.driver (DriverCall.set_band band rs.band_umts)] }
    | _ => handler_reply rs (DBusReply.error DBusError.invalid_args)

/-- The branch `UmtsBand` of `radio_set_property_handler`. -/
def radio_set_umts_band (drv : ofono_radio_settings_driver)
    (rs : ofono_radio_settings) (var : DBusArg) : HandlerResult :=
  if !drv.set_band then handler_reply rs (DBusReply.error DBusError.not_implemented)
  else
    match var with
    | DBusArg.string value =>
      match radio_band_umts_from_string value with
      | none => handler_reply rs (DBusReply.error DBusError.invalid_args)
      | some band =>
        if rs.band_umts = band then handler_reply rs DBusReply.method_return
        else
          { rs := { rs with pending_band_umts := band }, reply := none,
            events := [Event.driver (DriverCall.set_band rs.band_gsm band)] }
    | _ => handler_reply rs (DBusReply.error DBusError.invalid_args)

/-- The branch `FastDormancy` of `radio_set_property_handler`. -/
def radio_set_fast_dormancy_property (drv : ofono_radio_settings_driver)
    (rs : ofono_radio_settings) (var : DBusArg) : HandlerResult :=
  if !drv.set_fast_dormancy then handler_reply rs (DBusReply.error DBusError.not_implemented)
  else
    match var with
    | DBusArg.boolean target =>
      if rs.fast_dormancy_pending = target then handler_reply rs DBusReply.method_return
      else
        { rs := { rs with fast_dormancy_pending := target }, reply := none,
          events := [Event.driver (DriverCall.set_fast_dormancy target)] }
    | _ => handler_reply rs (DBusReply.error DBusError.invalid_args)

/-- The function `radio_set_property_handler`. -/
def radio_set_property_handler (drv : ofono_radio_settings_driver)
    (rs : ofono_radio_settings) (msg : DBusMessage) : HandlerResult :=
  match msg.args with
  | DBusArg.string property :: rest =>
    if !msg.access_allowed then handler_reply rs (DBusReply.error DBusError.access_denied)
    else
      match rest with
      | DBusArg.variant var :: _ =>
        if property = "TechnologyPreference" then radio_set_technology_preference drv rs var
        else if property = "GsmBand" then radio_set_gsm_band drv rs var
        else if property = "UmtsBand" then radio_set_umts_band drv rs var
        else if property = "FastDormancy" then radio_set_fast_dormancy_property drv rs var
        else handler_reply rs (DBusReply.error DBusError.invalid_args)
      | _ => handler_reply rs (DBusReply.error DBusError.invalid_args)
  | _ => handler_reply rs (DBusReply.error DBusError.invalid_args)

/-! ## Core: creation, stored settings and registration -/

/-- The state after `ofono_radio_settings_create`: the record is zero-filled. -/
def ofono_radio_settings_create : ofono_radio_settings :=
  { flags := 0, mode := 0, band_gsm := 0, band_umts := 0, fast_dormancy := false,
    pending_mode := 0, pending_band_gsm := 0, pending_band_umts := 0,
    fast_dormancy_pending := false, available_modes := none, settings := none, imsi := none }

/-- The white space that `atoi` skips. -/
def c_isspace (c : Char) : Bool :=
  c.toNat = 32 || (9 ≤ c.toNat && c.toNat ≤ 13)

/-- The digits read by `atoi`, most significant first. -/
def atoi_digits : List Char → Int → Int
  | [], acc => acc
  | c :: cs, acc =>
    if 48 ≤ c.toNat && c.toNat ≤ 57 then atoi_digits cs (acc * 10 + ((c.toNat - 48 : Nat) : Int))
    else acc

/-- The library function `atoi`: white space, an optional sign, decimal digits; a value outside
the range of `int` is reduced to 32 bits. -/
def atoi (str : String) : Int :=
  let v : Int :=
    match str.toList.dropWhile c_isspace with
    | '-' :: r => -atoi_digits r 0
    | '+' :: r => atoi_digits r 0
    | r => atoi_digits r 0
  guint_to_int (int_to_guint v)

/-- The function `radio_load_settings`; `store` is what `storage_open` returns, `none` for `NULL`. -/
def radio_load_settings (drv : ofono_radio_settings_driver) (rs : ofono_radio_settings)
    (store : Option GKeyFile) (imsi : String) : ofono_radio_settings :=
  match store with
  | none =>
    { rs with settings := none, mode := OFONO_RADIO_ACCESS_MODE_ANY,
              band_gsm := OFONO_RADIO_BAND_GSM_ANY, band_umts := OFONO_RADIO_BAND_UMTS_ANY }
  | some kf =>
    let gsm_ok : Bool :=
      match kf.GsmBand with
      | some b => (radio_band_gsm_to_string b).isSome
      | none => false
    let band_gsm : Int := if gsm_ok then kf.GsmBand.getD 0 else OFONO_RADIO_BAND_GSM_ANY
    let kf1 : GKeyFile := if gsm_ok then kf else { kf with GsmBand := some band_gsm }
    let umts_ok : Bool :=
      match kf1.UmtsBand with
      | some b => (radio_band_umts_to_string b).isSome
      | none => false
    let band_umts : Int := if umts_ok then kf1.UmtsBand.getD 0 else OFONO_RADIO_BAND_UMTS_ANY
    let kf2 : GKeyFile := if umts_ok then kf1 else { kf1 with UmtsBand := some band_umts }
    let loaded : Int × Bool :=
      match kf2.TechnologyPreference with
      | some str =>
        match radio_legacy_mode_from_string str with
        | some am =>
          if radio_legacy_rat_driver drv || radio_map_legacy_rat drv am != 0 then (-am, false)
          else (0, false)
        | none =>
          match radio_access_modes_from_string str with
          | some am => (am, false)
          | none => (guint_to_int (int_to_guint (-atoi str)), true)
      | none => (0, false)
    let kf3 : GKeyFile :=
      if loaded.2 then g_key_file_set_string kf2 (radio_access_mode_to_string loaded.1) else kf2
    { rs with settings := some kf3, imsi := some imsi,
              band_gsm := band_gsm, pending_band_gsm := band_gsm,
              band_umts := band_umts, pending_band_umts := band_umts,
              mode := loaded.1 }

/-- The function `ofono_radio_settings_register`: `imsi` is `none` when the modem has no SIM
atom; the two driver operations are invoked with the registration-time callbacks, which leave
the record alone. -/
def ofono_radio_settings_register (drv : ofono_radio_settings_driver)
    (rs : ofono_radio_settings) (imsi : Option String) (store : Option GKeyFile) :
    ofono_radio_settings × List Event :=
  match imsi with
  | none => (rs, [])
  | some i =>
    let rs1 := radio_load_settings drv rs store i
    (rs1,
      (if drv.set_band then [Event.driver (DriverCall.set_band rs1.band_gsm rs1.band_umts)]
       else []) ++
      (if drv.set_rat_mode then
        [Event.driver (DriverCall.set_rat_mode
          (if rs1.mode < 0 then radio_map_legacy_rat drv (-rs1.mode) else rs1.mode))]
       else []))

/-! ## Example configurations -/

/-- A legacy-only driver: every operation except `query_available_rat_modes` and
`map_legacy_rat_mode`. -/
def example_legacy_driver : ofono_radio_settings_driver :=
  { query_rat_mode := true, set_rat_mode := true, query_band := true, set_band := true,
    query_fast_dormancy := true, set_fast_dormancy := true, query_available_rats := true,
    query_available_rat_modes := false, map_legacy_rat_mode := none }

/-- A stored key file whose technology preference is the combination `"+umts+gsm"`. -/
def example_store_umts_gsm : GKeyFile :=
  { GsmBand := none, UmtsBand := none, TechnologyPreference := some "+umts+gsm" }

/-- The state of `example_legacy_driver` right after registration with `example_store_umts_gsm`. -/
def example_state_registered : ofono_radio_settings :=
  (ofono_radio_settings_register example_legacy_driver ofono_radio_settings_create
    (some "imsi") (some example_store_umts_gsm)).1

/-- The state of `example_legacy_driver` after a complete query pipeline on the created record:
RAT mode ANY, bands ANY, fast dormancy reported enabled, all three technologies available. -/
def example_state_fast_dormancy : ofono_radio_settings :=
  (radio_available_rats_query_callback example_legacy_driver false 7
    (radio_fast_dormancy_query_callback example_legacy_driver false true
      (radio_band_query_callback example_legacy_driver false 0 0
        (radio_rat_mode_query_callback example_legacy_driver false 0
          ofono_radio_settings_create).1).1).1).1

/-! ## Observations on the events -/

/-- The values announced for the property `name` by `PropertyChanged` signals, in order. -/
def notified (name : String) : List Event → List PropertyValue
  | [] => []
  | Event.property_changed n v :: es =>
    if n = name then v :: notified name es else notified name es
  | _ :: es => notified name es

/-- The key files written to the storage, in order. -/
def persisted : List Event → List GKeyFile
  | [] => []
  | Event.storage_sync _ kf :: es => kf :: persisted es
  | _ :: es => persisted es

/-- The driver operations invoked, in order. -/
def driver_calls : List Event → List DriverCall
  | [] => []
  | Event.driver c :: es => c :: driver_calls es
  | _ :: es => driver_calls es

/-- The replies sent through the queue, in order. -/
def queue_replies : List Event → List DBusReply
  | [] => []
  | Event.queue_reply r :: es => r :: queue_replies es
  | Event.queue_reply_all r :: es => r :: queue_replies es
  | _ :: es => queue_replies es

/-- The mode that `SetProperty` and the settings loader read from a technology string: a legacy
tag is tried first and stored negated, a `+`-joined combination second. -/
def requested_mode (value : String) : Option Int :=
  match radio_legacy_mode_from_string value with
  | some am => some (-am)
  | none => radio_access_modes_from_string value

/-! ## Completions of the driver operations -/

/-- What the driver hands to a completion callback: the error indicator and the payloads of the
query operations (a callback reads the payload of its own operation only). -/
structure DriverResult where
  error : Bool
  rat : Int
  band_gsm : Int
  band_umts : Int
  enable : Bool
  available_rats : Nat
  modes : List Int
deriving DecidableEq, Repr

/-- A failed completion. -/
def driver_failure : DriverResult :=
  { error := true, rat := 0, band_gsm := 0, band_umts := 0, enable := false,
    available_rats := 0, modes := [] }

/-- A successful completion of a set operation. -/
def driver_success : DriverResult :=
  { error := false, rat := 0, band_gsm := 0, band_umts := 0, enable := false,
    available_rats := 0, modes := [] }

/-- The callback the core registered with each driver operation, applied to the driver's result:
`query_rat_mode` completes in `radio_rat_mode_query_callback`, `set_rat_mode` in
`radio_mode_set_callback`, and so on. -/
def driver_completion (drv : ofono_radio_settings_driver) (c : DriverCall) (res : DriverResult)
    (rs : ofono_radio_settings) : ofono_radio_settings × List Event :=
  match c with
  | DriverCall.query_rat_mode => radio_rat_mode_query_callback drv res.error res.rat rs
  | DriverCall.set_rat_mode _ => radio_mode_set_callback res.error rs
  | DriverCall.query_band =>
    radio_band_query_callback drv res.error res.band_gsm res.band_umts rs
  | DriverCall.set_band _ _ => radio_band_set_callback res.error rs
  | DriverCall.query_fast_dormancy =>
    radio_fast_dormancy_query_callback drv res.error res.enable rs
  | DriverCall.set_fast_dormancy _ => radio_fast_dormancy_set_callback res.error rs
  | DriverCall.query_available_rats =>
    radio_available_rats_query_callback drv res.error res.available_rats rs
  | DriverCall.query_available_rat_modes =>
    radio_available_modes_query_callback drv res.error res.modes rs

/-- The completion of the driver operation that a waiting handler invoked: the callback
registered with that operation runs on the state the handler left. -/
def complete_handler (drv : ofono_radio_settings_driver) (h : HandlerResult)
    (res : DriverResult) : ofono_radio_settings × List Event :=
  match driver_calls h.events with
  | c :: _ => driver_completion drv c res h.rs
  | [] => (h.rs, [])

/-! ## The request queue and the life of one settings-state instance -/

/-- A queued D-Bus request: `GetProperties` is handled by `radio_get_properties_handler`,
`SetProperty` by `radio_set_property_handler`. -/
inductive Request where
  | get_properties
  | set_property (msg : DBusMessage)
deriving DecidableEq, Repr

/-- What an instance does that the outside can see: a reply to a request, or an event (a driver
operation, a signal, a storage write). -/
inductive Output where
  | replied (req : Request) (r : DBusReply)
  | emitted (e : Event)
deriving DecidableEq, Repr

/-- One settings-state instance: the record, the queue `rs->q` (its head is the request being
served), the driver operation whose completion is awaited, and what it has done so far. -/
structure Instance where
  rs : ofono_radio_settings
  queue : List Request
  waiting : Option DriverCall
  log : List Output
deriving DecidableEq, Repr

/-- The handler of a request. -/
def run_handler (drv : ofono_radio_settings_driver) (rs : ofono_radio_settings) :
    Request → HandlerResult
  | Request.get_properties => radio_get_properties_handler drv rs
  | Request.set_property msg => radio_set_property_handler drv rs msg

/-- Modelled from the spec: `dbus-queue.c` is not among the sources. Requests are served strictly
one at a time in arrival order: the handler of the head runs; a handler that replies at once
leaves the queue and the next request is served, a handler that returns no reply stays at the
head until its completion continuation has fired. -/
def queue_serve (drv : ofono_radio_settings_driver) :
    List Request → ofono_radio_settings → List Output → Instance
  | [], rs, log => { rs := rs, queue := [], waiting := none, log := log }
  | req :: rest, rs, log =>
    let h := run_handler drv rs req
    match h.reply with
    | some r =>
      queue_serve drv rest h.rs (log ++ h.events.map Output.emitted ++ [Output.replied req r])
    | none =>
      { rs := h.rs, queue := req :: rest, waiting := (driver_calls h.events).head?,
        log := log ++ h.events.map Output.emitted }

/-- Modelled from the spec: `__ofono_dbus_queue_request` of `dbus-queue.c` (not among the
sources): a request joins the end of the queue and is served at once when the queue was empty. -/
def queue_request (drv : ofono_radio_settings_driver) (s : Instance) (req : Request) : Instance :=
  if s.queue.isEmpty then queue_serve drv [req] s.rs s.log
  else { s with queue := s.queue ++ [req] }

/-- Modelled from the spec: the effect of one event of a completion callback on the queue.
`__ofono_dbus_queue_reply_ok` and `__ofono_dbus_queue_reply_failed` answer the request at the
head and take it off the queue; `__ofono_dbus_queue_reply_all_fn_param` answers the head and
flushes all queued `GetProperties` requests with the same reply. -/
def queue_event (q : List Request) (log : List Output) : Event → List Request × List Output
  | Event.queue_reply r =>
    match q with
    | [] => ([], log)
    | req :: rest => (rest, log ++ [Output.replied req r])
  | Event.queue_reply_all r =>
    match q with
    | [] => ([], log)
    | req :: rest =>
      (rest.filter (fun x => x != Request.get_properties),
        log ++ [Output.replied req r] ++
          (rest.filter (fun x => x == Request.get_properties)).map
            (fun x => Output.replied x r))
  | e => (q, log ++ [Output.emitted e])

/-- The events of a completion callback applied to the queue in program order. -/
def queue_events (q : List Request) (log : List Output) : List Event → List Request × List Output
  | [] => (q, log)
  | e :: es => queue_events (queue_event q log e).1 (queue_event q log e).2 es

/-- The completion of the awaited driver operation: its callback runs, its events reach the
queue, and only then (the spec: request N+1 is never issued before the completion of request N
has been fully processed) the next queued requests are served. A completion that nothing waits
for is ignored. -/
def driver_completes (drv : ofono_radio_settings_driver) (s : Instance) (res : DriverResult) :
    Instance :=
  match s.waiting with
  | none => s
  | some c =>
    let r := driver_completion drv c res s.rs
    let q := queue_events s.queue s.log r.2
    if (queue_replies r.2).isEmpty then
      { rs := r.1, queue := q.1, waiting := (driver_calls r.2).head?, log := q.2 }
    else queue_serve drv q.1 r.1 q.2

/-- What happens to an instance: a request arrives or the driver completes an operation. -/
inductive Input where
  | request (req : Request)
  | completion (res : DriverResult)
deriving DecidableEq, Repr

/-- One step of an instance. -/
def instance_step (drv : ofono_radio_settings_driver) (s : Instance) : Input → Instance
  | Input.request req => queue_request drv s req
  | Input.completion res => driver_completes drv s res

/-- The instance after a sequence of inputs. -/
def instance_run (drv : ofono_radio_settings_driver) (s : Instance) (inputs : List Input) :
    Instance :=
  inputs.foldl (instance_step drv) s

/-- A fresh instance around a record. -/
def instance_new (rs : ofono_radio_settings) : Instance :=
  { rs := rs, queue := [], waiting := none, log := [] }

/-- How often the driver operation `c` was invoked. -/
def call_count (c : DriverCall) (log : List Output) : Nat :=
  (log.filter (fun o => o == Output.emitted (Event.driver c))).length

/-- The cached flag of a record. -/
def is_cached (rs : ofono_radio_settings) : Bool :=
  rs.flags &&& RADIO_SETTINGS_FLAG_CACHED != 0

/-! ## The stages of the query pipeline -/

/-- The position of a driver query in the pipeline; `0` for the set operations. -/
def pipeline_stage : DriverCall → Nat
  | DriverCall.query_rat_mode => 1
  | DriverCall.query_band => 2
  | DriverCall.query_fast_dormancy => 3
  | DriverCall.query_available_rats => 4
  | DriverCall.query_available_rat_modes => 4
  | _ => 0

/-- A completion that reports an error for the RAT-mode, band or fast-dormancy query. -/
def early_failure (waiting : Option DriverCall) (res : DriverResult) : Bool :=
  res.error && (waiting == some DriverCall.query_rat_mode ||
    waiting == some DriverCall.query_band || waiting == some DriverCall.query_fast_dormancy)

/-- The inputs are `GetProperties` requests and driver completions, and no completion is an
`early_failure` for the operation that is awaited when it arrives. -/
def pipeline_inputs (drv : ofono_radio_settings_driver) : Instance → List Input → Bool
  | _, [] => true
  | s, Input.request Request.get_properties :: rest =>
    pipeline_inputs drv (instance_step drv s (Input.request Request.get_properties)) rest
  | _, Input.request (Request.set_property _) :: _ => false
  | s, Input.completion res :: rest =>
    !early_failure s.waiting res &&
      pipeline_inputs drv (instance_step drv s (Input.completion res)) rest

/-- The end of a pipeline step from stage `k` on the record `rs`: either one later driver query
is invoked and the record is left alone, or the cached flag is set and the queued `GetProperties`
requests are answered. -/
def pipeline_tail (k : Nat) (rs : ofono_radio_settings)
    (r : ofono_radio_settings × List Event) : Prop :=
  (∃ c, r = (rs, [Event.driver c]) ∧ k < pipeline_stage c) ∨
  (∃ rep, r = ({ rs with flags := rs.flags ||| RADIO_SETTINGS_FLAG_CACHED },
                [Event.queue_reply_all rep]))

/-- Events that neither invoke the driver nor answer a request. -/
def quiet_events (es : List Event) : Prop :=
  driver_calls es = [] ∧ queue_replies es = []

/-- The invariant of an instance that has seen `pipeline_inputs` only: every queued request is a
`GetProperties`, every pipeline query was invoked at most once (the two available-technology
queries together at most once), and either nothing is awaited, the queue is empty and the record
is cached or no query was invoked yet, or a pipeline query is awaited on a record that is not
cached, that query was invoked once and no query of the same or a later stage was. -/
def pipeline_invariant (s : Instance) : Prop :=
  (∀ req ∈ s.queue, req = Request.get_properties) ∧
  (∀ c, 0 < pipeline_stage c → call_count c s.log ≤ 1) ∧
  (call_count DriverCall.query_available_rats s.log +
    call_count DriverCall.query_available_rat_modes s.log ≤ 1) ∧
  (match s.waiting with
   | none => s.queue = [] ∧ (is_cached s.rs = true ∨ ∀ c, call_count c s.log = 0)
   | some w =>
     s.queue ≠ [] ∧ is_cached s.rs = false ∧ 0 < pipeline_stage w ∧ call_count w s.log = 1 ∧
       ∀ c, c ≠ w → pipeline_stage w ≤ pipeline_stage c → call_count c s.log = 0)

/-! ## Reference descriptions used in the statements -/

/-- The spec's words for the answer of the legacy available-RATs query: the individual bits
GSM, UMTS, LTE that are set in `x`, in increasing order. -/
def available_bits_spec (x : Nat) : List Int :=
  ([1, 2, 4].filter (fun r => x &&& r != 0)).map (fun r => (r : Int))

/-- The population count of the three technology bits of `x`. -/
def popcount3 (x : Nat) : Nat :=
  (if x &&& 1 != 0 then 1 else 0) + (if x &&& 2 != 0 then 1 else 0) +
    (if x &&& 4 != 0 then 1 else 0)

/-- The spec's words for the `AvailableTechnologies` list: on a bitmask-capable driver the legacy
tags gsm, umts, lte whose legacy-to-modern mapping is non-zero, then the rendering of every
available mode in its order; on a legacy-only driver the legacy tag of every available mode. -/
def available_technologies_spec (drv : ofono_radio_settings_driver) (m : List Int) :
    List (Option String) :=
  if drv.query_available_rat_modes then
    (if radio_map_legacy_rat drv 1 ≠ 0 then [some "gsm"] else []) ++
    (if radio_map_legacy_rat drv 2 ≠ 0 then [some "umts"] else []) ++
    (if radio_map_legacy_rat drv 4 ≠ 0 then [some "lte"] else []) ++
    m.map radio_access_modes_to_string
  else m.map radio_legacy_mode_to_string

/-- The `+`-joined rendering of a combination of technologies: LTE, UMTS, GSM in this order,
each present technology preceded by a plus sign. -/
def plus_joined (m : Nat) : String :=
  (if m &&& 4 != 0 then "+lte" else "") ++ (if m &&& 2 != 0 then "+umts" else "") ++
    (if m &&& 1 != 0 then "+gsm" else "")

/-- The value of an entry of a property dictionary. -/
def dict_value (name : String) (dict : List (String × PropertyValue)) : Option PropertyValue :=
  (dict.find? (fun e => e.1 == name)).map (fun e => e.2)

/-- The four technology names a token of a combination may be. -/
def technology_token (s : String) : Bool :=
  s = "any" || s = "gsm" || s = "umts" || s = "lte"

/-- The bits of the technologies named in a list of tokens: the bitwise OR of the bit of every
token, whatever the order and however often a token occurs. -/
def token_bits (tokens : List String) : Nat :=
  (if "gsm" ∈ tokens then 1 else 0) ||| (if "umts" ∈ tokens then 2 else 0) |||
    (if "lte" ∈ tokens then 4 else 0)

/-- The spec's words for the value of an accepted combination: ANY when some token is `"any"`,
otherwise the bitwise OR of the bits of the tokens. -/
def combination_value (tokens : List String) : Int :=
  if "any" ∈ tokens then OFONO_RADIO_ACCESS_MODE_ANY else (token_bits tokens : Int)

/-! ## RIL driver: operations and deferred completions -/

/-- The tags `enum ril_radio_settings_cb_tag` of the deferred completions. -/
inductive ril_radio_settings_cb_tag where
  | RADIO_SETTINGS_QUERY_AVAILABLE_RATS
  | RADIO_SETTINGS_QUERY_AVAILABLE_MODES
  | RADIO_SETTINGS_QUERY_RAT_MODE
  | RADIO_SETTINGS_SET_RAT_MODE
deriving DecidableEq, Repr

/-- The idle functions that `ril_radio_settings_later` queues. -/
inductive ril_idle_func where
  | ril_radio_settings_set_rat_mode_cb
  | ril_radio_settings_set_rat_mode_error_cb
  | ril_radio_settings_query_rat_mode_cb
  | ril_radio_settings_query_available_rats_cb
  | ril_radio_settings_query_available_modes_cb
deriving DecidableEq, Repr

/-- An item of the idle queue `rsd->iq`: its tag and its function. -/
structure ril_idle_item where
  tag : ril_radio_settings_cb_tag
  fn : ril_idle_func
deriving DecidableEq, Repr

/-- The RIL driver at run time: the data set up at probe time, the preferred mode and the
technologies of the SIM settings object (`rsd->settings->pref_mode`, `rsd->settings->techs`) and
the idle queue `rsd->iq`, oldest item first. -/
structure ril_driver_state where
  rsd : ril_radio_settings
  pref_mode : Int
  techs : Nat
  iq : List ril_idle_item
deriving DecidableEq, Repr

/-- Modelled from the spec: `ril_sim_settings_set_pref_mode` is defined in a file that is not
among the sources; it records the mode as the preferred mode. -/
def ril_sim_settings_set_pref_mode (d : ril_driver_state) (mode : Int) : ril_driver_state :=
  { d with pref_mode := mode }

/-- The function `ril_radio_settings_later`: a pending item with the same tag is cancelled and
the new item joins the end of the idle queue; nothing is invoked. -/
def ril_radio_settings_later (d : ril_driver_state) (tag : ril_radio_settings_cb_tag)
    (fn : ril_idle_func) : ril_driver_state :=
  { d with iq := d.iq.filter (fun i => i.tag != tag) ++ [{ tag := tag, fn := fn }] }

/-- The function `ril_radio_settings_set_rat_mode`. -/
def ril_radio_settings_set_rat_mode (d : ril_driver_state) (mode : Int) : ril_driver_state :=
  if mode = OFONO_RADIO_ACCESS_MODE_ANY || d.rsd.supported_modes.contains mode then
    ril_radio_settings_later (ril_sim_settings_set_pref_mode d mode)
      ril_radio_settings_cb_tag.RADIO_SETTINGS_SET_RAT_MODE
      ril_idle_func.ril_radio_settings_set_rat_mode_cb
  else
    ril_radio_settings_later d ril_radio_settings_cb_tag.RADIO_SETTINGS_SET_RAT_MODE
      ril_idle_func.ril_radio_settings_set_rat_mode_error_cb

/-- The function `ril_radio_settings_query_rat_mode`. -/
def ril_radio_settings_query_rat_mode (d : ril_driver_state) : ril_driver_state :=
  ril_radio_settings_later d ril_radio_settings_cb_tag.RADIO_SETTINGS_QUERY_RAT_MODE
    ril_idle_func.ril_radio_settings_query_rat_mode_cb

/-- The function `ril_radio_settings_query_available_rats`. -/
def ril_radio_settings_query_available_rats (d : ril_driver_state) : ril_driver_state :=
  ril_radio_settings_later d ril_radio_settings_cb_tag.RADIO_SETTINGS_QUERY_AVAILABLE_RATS
    ril_idle_func.ril_radio_settings_query_available_rats_cb

/-- The function `ril_radio_settings_query_available_modes`. -/
def ril_radio_settings_query_available_modes (d : ril_driver_state) : ril_driver_state :=
  ril_radio_settings_later d ril_radio_settings_cb_tag.RADIO_SETTINGS_QUERY_AVAILABLE_MODES
    ril_idle_func.ril_radio_settings_query_available_modes_cb

/-- What an idle function hands to the callback of the core when the idle queue runs it:
`ril_radio_settings_set_rat_mode_cb` reports success, `ril_radio_settings_set_rat_mode_error_cb`
failure, the query functions report success with the preferred mode, the technologies and the
supported modes. -/
def ril_idle_invoke (d : ril_driver_state) : ril_idle_func → DriverResult
  | ril_idle_func.ril_radio_settings_set_rat_mode_cb => driver_success
  | ril_idle_func.ril_radio_settings_set_rat_mode_error_cb => driver_failure
  | ril_idle_func.ril_radio_settings_query_rat_mode_cb =>
    { driver_success with rat := d.pref_mode }
  | ril_idle_func.ril_radio_settings_query_available_rats_cb =>
    { driver_success with available_rats := d.techs }
  | ril_idle_func.ril_radio_settings_query_available_modes_cb =>
    { driver_success with modes := d.rsd.supported_modes }

/-- One turn of the idle queue: the oldest item leaves the queue and its function runs. -/
def ril_idle_run (d : ril_driver_state) : Option (ril_driver_state × DriverResult) :=
  match d.iq with
  | [] => none
  | i :: rest => some ({ d with iq := rest }, ril_idle_invoke d i.fn)

/-- The RIL driver after `ril_radio_settings_probe`: nothing is queued yet (the registration
item apart, which completes no request). -/
def ril_driver_new (modes : List Int) (pref_mode : Int) (techs : Nat) : ril_driver_state :=
  { rsd := ril_radio_settings_new modes, pref_mode := pref_mode, techs := techs, iq := [] }

/-! ## Settled states and the bookkeeping of driver operations -/

/-- Both pending bands equal the confirmed bands. -/
def bands_settled (rs : ofono_radio_settings) : Prop :=
  rs.pending_band_gsm = rs.band_gsm ∧ rs.pending_band_umts = rs.band_umts

/-- The awaited driver operation is `set_band`. -/
def is_set_band : Option DriverCall → Bool
  | some (DriverCall.set_band _ _) => true
  | _ => false

/-- The awaited completion and the queue agree: an operation is awaited exactly when a request
is at the head of the queue. -/
def instance_wf (s : Instance) : Prop :=
  (s.waiting = none → s.queue = []) ∧ (s.waiting ≠ none → s.queue ≠ [])

/-- The number of driver operations invoked so far. -/
def calls_issued (log : List Output) : Nat :=
  (log.filter (fun o =>
    match o with
    | Output.emitted (Event.driver _) => true
    | _ => false)).length

/-- The number of completions the instance has taken: a completion that arrives while a driver
operation is awaited. -/
def completions_delivered (drv : ofono_radio_settings_driver) : Instance → List Input → Nat
  | _, [] => 0
  | s, Input.request req :: rest =>
    completions_delivered drv (instance_step drv s (Input.request req)) rest
  | s, Input.completion res :: rest =>
    (if s.waiting.isSome then 1 else 0) +
      completions_delivered drv (instance_step drv s (Input.completion res)) rest

/-- The number of driver operations in flight: `1` when a completion is awaited. -/
def in_flight (s : Instance) : Nat :=
  if s.waiting.isSome then 1 else 0

/-- The requests among the inputs, in arrival order. -/
def arrivals : List Input → List Request
  | [] => []
  | Input.request req :: rest => req :: arrivals rest
  | Input.completion _ :: rest => arrivals rest

/-- A request that passed the validation is answered with success at once or reaches the
driver. -/
def technology_request_accepted (rs : ofono_radio_settings) (h : HandlerResult) : Prop :=
  h = handler_reply rs DBusReply.method_return ∨
  ∃ mode am, h = { rs := { rs with pending_mode := mode }, reply := none,
                   events := [Event.driver (DriverCall.set_rat_mode am)] }

/-- The spec's words "the validation that precedes the comparison rejects the value", for a
confirmed mode: a legacy tag (a negative mode) is rejected on a legacy-only driver when the
available modes are set and do not hold the tag, and on a bitmask-capable driver when the
mapping of the tag is zero; ANY is never rejected; a combination is rejected on a legacy-only
driver, and when the available modes are set and do not hold it. -/
def validation_rejects (drv : ofono_radio_settings_driver) (rs : ofono_radio_settings)
    (mode : Int) : Bool :=
  let listed (am : Int) : Bool :=
    match rs.available_modes with
    | some m => m.contains am
    | none => true
  if mode < 0 then
    if drv.query_available_rat_modes then radio_map_legacy_rat drv (-mode) == 0
    else !listed (-mode)
  else if mode = 0 then false
  else !drv.query_available_rat_modes || !listed mode

/-! # Theorems -/

theorem int_to_guint_lt (m : Int) : int_to_guint m < 4294967296 := by
  unfold int_to_guint
  omega

theorem int_to_guint_of_nonneg (m : Int) (h0 : 0 ≤ m) (h1 : m ≤ 2147483647) :
    (int_to_guint m : Int) = m := by
  unfold int_to_guint
  omega

theorem int_to_guint_of_neg (m : Int) (h0 : m < 0) (h1 : -2147483648 ≤ m) :
    2147483648 ≤ int_to_guint m := by
  unfold int_to_guint
  omega

theorem land_high_mask (x k : Nat) (mask : Nat) (hx : x < 2 ^ 32)
    (hmask : ∀ i, i < 32 → k ≤ i → mask.testBit i = true)
    (hlow : ∀ y, y < 2 ^ k → y &&& mask = 0) :
    x &&& mask = 0 ↔ x < 2 ^ k := by
  constructor
  · intro h
    apply Nat.lt_pow_two_of_testBit
    intro i hi
    by_cases h32 : i < 32
    · have h1 : (x &&& mask).testBit i = false := by rw [h]; exact Nat.zero_testBit i
      rw [Nat.testBit_and, hmask i h32 hi] at h1
      simpa using h1
    · apply Nat.testBit_lt_two_pow
      calc x < 2 ^ 32 := hx
        _ ≤ 2 ^ i := Nat.pow_le_pow_right (by decide) (by omega)
  · intro h
    exact hlow x h

theorem probe_bits_off_iff (r : Nat) (hr : r = 1 ∨ r = 2 ∨ r = 4) (m : Int) (hm : is_c_int m) :
    probe_bits_off r m = true ↔ 0 ≤ m ∧ m < 2 * (r : Int) := by
  have hx := int_to_guint_lt m
  obtain ⟨hlo, hhi⟩ := hm
  have key : ∀ k mask : Nat, k ≤ 3 → probe_off r = mask → (2 : Int) * r = ((2 ^ k : Nat) : Int) →
      (∀ i, i < 32 → k ≤ i → mask.testBit i = true) → (∀ y, y < 2 ^ k → y &&& mask = 0) →
      (probe_bits_off r m = true ↔ 0 ≤ m ∧ m < 2 * (r : Int)) := by
    intro k mask hk hoff h2r hmask hlow
    unfold probe_bits_off
    rw [hoff, beq_iff_eq, land_high_mask (int_to_guint m) k mask (by simpa using hx) hmask hlow, h2r]
    constructor
    · intro h
      by_cases hneg : m < 0
      · have := int_to_guint_of_neg m hneg hlo
        have h8 : 2 ^ k ≤ 2 ^ 3 := Nat.pow_le_pow_right (by decide) hk
        omega
      · have := int_to_guint_of_nonneg m (by omega) hhi
        constructor
        · omega
        · rw [← this]; exact_mod_cast h
    · rintro ⟨h0, h1⟩
      have := int_to_guint_of_nonneg m h0 hhi
      rw [← this] at h1
      exact_mod_cast h1
  rcases hr with rfl | rfl | rfl
  · refine key 1 4294967294 (by decide) (by decide) (by decide) ?_ ?_
    · intro i hi hk; interval_cases i <;> decide
    · intro y hy; simp at hy; interval_cases y <;> decide
  · refine key 2 4294967292 (by decide) (by decide) (by decide) ?_ ?_
    · intro i hi hk; interval_cases i <;> decide
    · intro y hy; simp at hy; interval_cases y <;> decide
  · refine key 3 4294967288 (by decide) (by decide) (by decide) ?_ ?_
    · intro i hi hk; interval_cases i <;> decide
    · intro y hy; simp at hy; interval_cases y <;> decide

theorem probe_fold_ge (r : Nat) (val : List Int) (acc : Nat) :
    acc ≤ val.foldl (probe_step r) acc := by
  induction val generalizing acc with
  | nil => simp
  | cons m ms ih =>
    simp only [List.foldl_cons]
    refine le_trans ?_ (ih _)
    unfold probe_step
    split
    · rename_i h
      simp only [Bool.and_eq_true, decide_eq_true_eq] at h
      omega
    · exact le_refl _

theorem probe_fold_upper (r : Nat) (val : List Int) (acc : Nat) :
    ∀ m ∈ val, probe_bits_off r m = true → int_to_guint m ≤ val.foldl (probe_step r) acc := by
  induction val generalizing acc with
  | nil => simp
  | cons x xs ih =>
    intro m hm hoff
    simp only [List.foldl_cons]
    rcases List.mem_cons.mp hm with rfl | hm
    · refine le_trans ?_ (probe_fold_ge r xs _)
      unfold probe_step
      split
      · exact le_refl _
      · rename_i h
        simp only [Bool.and_eq_true, decide_eq_true_eq, not_and, hoff, true_implies] at h
        omega
    · exact ih _ m hm hoff

theorem probe_fold_mem (r : Nat) (val : List Int) (acc : Nat) :
    val.foldl (probe_step r) acc = acc ∨
      ∃ m ∈ val, probe_bits_off r m = true ∧ int_to_guint m = val.foldl (probe_step r) acc := by
  induction val generalizing acc with
  | nil => simp
  | cons x xs ih =>
    simp only [List.foldl_cons]
    rcases ih (probe_step r acc x) with h | ⟨m, hm, hoff, hv⟩
    · rw [h]
      unfold probe_step
      split
      · rename_i hc
        simp only [Bool.and_eq_true, decide_eq_true_eq] at hc
        exact Or.inr ⟨x, List.mem_cons_self _ _, hc.1, rfl⟩
      · exact Or.inl rfl
    · exact Or.inr ⟨m, List.mem_cons_of_mem _ hm, hoff, hv⟩

theorem probe_lookup (val : List Int) (r : Nat) (hr : r = 1 ∨ r = 2 ∨ r = 4) :
    g_hash_table_lookup (ril_radio_settings_probe val) (r : Int) =
      if probe_max r val = 0 then none else some (probe_max r val) := by
  have e1 : (1 : Nat) &&& 7 = 1 := by decide
  have e2 : (2 : Nat) &&& 7 = 2 := by decide
  have e4 : (4 : Nat) &&& 7 = 4 := by decide
  have e8 : (8 : Nat) &&& 7 = 0 := by decide
  have s1 : (1 <<< 1) % 4294967296 = 2 := by decide
  have s2 : (2 <<< 1) % 4294967296 = 4 := by decide
  have s4 : (4 <<< 1) % 4294967296 = 8 := by decide
  unfold ril_radio_settings_probe
  simp only [probe_fill, OFONO_RADIO_ACCESS_MODE_ALL, GUINT_MOD, e1, e2, e4, e8, s1, s2, s4]
  rcases hr with rfl | rfl | rfl <;>
    by_cases h1 : probe_max 1 val = 0 <;> by_cases h2 : probe_max 2 val = 0 <;>
    by_cases h4 : probe_max 4 val = 0 <;>
    simp [h1, h2, h4, g_hash_table_insert, g_hash_table_lookup, List.filter, List.find?]

/-- C1: for every list of supported modes (C `int` values) and every legacy tier `r` among
GSM = 1, UMTS = 2, LTE = 4, the table built by `ril_radio_settings_probe` has an entry for `r`
exactly when some supported `m > 0` has `m & ~((r << 1) - 1) = 0`; the entry is the largest such
supported value, and it is what `ril_radio_settings_map_legacy_rat_mode` returns. For the
supported set 1..7 the table maps 1 to 1, 2 to 3 and 4 to 7. -/
theorem legacy_rat_table_entry (val : List Int) (hval : ∀ m ∈ val, is_c_int m)
    (r : Nat) (hr : r = 1 ∨ r = 2 ∨ r = 4) :
    ((∃ v, g_hash_table_lookup (ril_radio_settings_probe val) (r : Int) = some v) ↔
        ∃ m ∈ val, 0 < m ∧ probe_bits_off r m = true) ∧
    (∀ v, g_hash_table_lookup (ril_radio_settings_probe val) (r : Int) = some v →
        is_largest_candidate val r (v : Int) ∧
        ril_radio_settings_map_legacy_rat_mode (ril_radio_settings_probe val) (r : Int) = (v : Int)) ∧
    (g_hash_table_lookup (ril_radio_settings_probe [1, 2, 3, 4, 5, 6, 7]) 1 = some 1 ∧
      g_hash_table_lookup (ril_radio_settings_probe [1, 2, 3, 4, 5, 6, 7]) 2 = some 3 ∧
      g_hash_table_lookup (ril_radio_settings_probe [1, 2, 3, 4, 5, 6, 7]) 4 = some 7) := by
  have hlook := probe_lookup val r hr
  have hnat : ∀ m ∈ val, probe_bits_off r m = true → (int_to_guint m : Int) = m := by
    intro m hm hoff
    have h := (probe_bits_off_iff r hr m (hval m hm)).mp hoff
    exact int_to_guint_of_nonneg m h.1 (hval m hm).2
  have hmem := probe_fold_mem r val 0
  have hupper := probe_fold_upper r val 0
  refine ⟨⟨?_, ?_⟩, ?_, by decide⟩
  · rintro ⟨v, hv⟩
    rw [hlook] at hv
    split at hv
    · exact absurd hv (by simp)
    · rename_i hne
      rcases hmem with h0 | ⟨m, hm, hoff, hm2⟩
      · exact absurd h0 hne
      · refine ⟨m, hm, ?_, hoff⟩
        have h1 := hnat m hm hoff
        have h2 : int_to_guint m ≠ 0 := by rw [hm2]; exact hne
        omega
  · rintro ⟨m, hm, hpos, hoff⟩
    rw [hlook]
    have h1 := hnat m hm hoff
    have h2 := hupper m hm hoff
    have h3 : probe_max r val ≠ 0 := by
      unfold probe_max
      omega
    simp [h3]
  · intro v hv
    rw [hlook] at hv
    split at hv
    · exact absurd hv (by simp)
    · rename_i hne
      have hv2 : probe_max r val = v := by simpa using hv
      rcases hmem with h0 | ⟨m, hm, hoff, hm2⟩
      · exact absurd h0 hne
      · have hmv : int_to_guint m = v := by rw [hm2]; exact hv2
        have h1 := hnat m hm hoff
        have hvm : (v : Int) = m := by rw [← hmv]; exact h1
        have hv8 : v < 8 := by
          have := (probe_bits_off_iff r hr m (hval m hm)).mp hoff
          rcases hr with rfl | rfl | rfl <;> omega
        refine ⟨⟨?_, ?_, ?_, ?_⟩, ?_⟩
        · rw [hvm]; exact hm
        · have : v ≠ 0 := by rw [← hv2]; exact hne
          omega
        · rw [hvm]; exact hoff
        · intro m2 hm2mem _ hoff2
          have h4 := hupper m2 hm2mem hoff2
          have h5 := hnat m2 hm2mem hoff2
          have h6 : val.foldl (probe_step r) 0 = v := hv2
          omega
        · unfold ril_radio_settings_map_legacy_rat_mode
          rw [hlook]
          simp only [hne, if_false]
          rw [hv2]
          unfold guint_to_int GUINT_MOD
          have : v % 4294967296 = v := by omega
          rw [this]
          simp
          omega

/-- Witness of `legacy_rat_table_entry`: supported modes `[4, -1, 6]`, tier LTE. -/
theorem legacy_rat_table_entry_witness :
    (∀ m ∈ [(4 : Int), -1, 6], is_c_int m) ∧
    (∀ v, g_hash_table_lookup (ril_radio_settings_probe [4, -1, 6]) ((4 : Nat) : Int) = some v →
        is_largest_candidate [4, -1, 6] 4 (v : Int) ∧
        ril_radio_settings_map_legacy_rat_mode (ril_radio_settings_probe [4, -1, 6]) ((4 : Nat) : Int)
          = (v : Int)) :=
  ⟨by decide, (legacy_rat_table_entry [4, -1, 6] (by decide) 4 (by decide)).2.1⟩

/-- Counterexample to C2 as stated: on the RIL driver with supported modes 1 and 2, whose
available modes are delivered by the available-modes query, `SetProperty("TechnologyPreference",
"lte")` is not rejected: the legacy tag is mapped to mode 2, staged as pending and handed to the
driver. -/
theorem unsupported_rejection_counterexample :
    ((radio_available_modes_query_callback
        (ril_radio_settings_driver (ril_radio_settings_new [1, 2])) false [1, 2]
        ofono_radio_settings_create).1.available_modes = some [1, 2]) ∧
    (radio_set_property_handler (ril_radio_settings_driver (ril_radio_settings_new [1, 2]))
        (radio_available_modes_query_callback
          (ril_radio_settings_driver (ril_radio_settings_new [1, 2])) false [1, 2]
          ofono_radio_settings_create).1
        (set_property_message "TechnologyPreference" (DBusArg.string "lte"))).reply = none ∧
    (radio_set_property_handler (ril_radio_settings_driver (ril_radio_settings_new [1, 2]))
        (radio_available_modes_query_callback
          (ril_radio_settings_driver (ril_radio_settings_new [1, 2])) false [1, 2]
          ofono_radio_settings_create).1
        (set_property_message "TechnologyPreference" (DBusArg.string "lte"))).events
      = [Event.driver (DriverCall.set_rat_mode 2)] ∧
    (radio_set_property_handler (ril_radio_settings_driver (ril_radio_settings_new [1, 2]))
        (radio_available_modes_query_callback
          (ril_radio_settings_driver (ril_radio_settings_new [1, 2])) false [1, 2]
          ofono_radio_settings_create).1
        (set_property_message "TechnologyPreference" (DBusArg.string "lte"))).rs.pending_mode
      = -4 := by
  decide

theorem legacy_from_string_lte : radio_legacy_mode_from_string "lte" = some 4 := by decide

theorem legacy_from_string_plus_lte : radio_legacy_mode_from_string "+lte" = none := by decide

theorem modes_from_string_plus_lte : radio_access_modes_from_string "+lte" = some 4 := by decide

theorem set_property_message_dispatch (drv : ofono_radio_settings_driver)
    (rs : ofono_radio_settings) (var : DBusArg) :
    radio_set_property_handler drv rs (set_property_message "TechnologyPreference" var)
      = radio_set_technology_preference drv rs var := by
  simp [radio_set_property_handler, set_property_message]

/-- C2 (amended): on a legacy-only driver that implements `set_rat_mode` and whose available
modes are `[1, 2]`, `SetProperty("TechnologyPreference", "lte")` is answered with the
not-supported error, no driver operation is invoked and the state is unchanged. On the RIL driver
with supported modes 1 and 2 the same holds for the bitmask string `"+lte"`, while the legacy tag
`"lte"` is mapped to mode 2 and accepted: success at once when the confirmed mode is already the
legacy tag LTE, otherwise pending mode `-4` and a `set_rat_mode(2)` call. -/
theorem unsupported_rejection (drv : ofono_radio_settings_driver) (rs : ofono_radio_settings)
    (hset : drv.set_rat_mode = true) (hmodes : rs.available_modes = some [1, 2]) :
    (drv.query_available_rat_modes = false →
      radio_set_property_handler drv rs
          (set_property_message "TechnologyPreference" (DBusArg.string "lte"))
        = handler_reply rs (DBusReply.error DBusError.not_supported)) ∧
    (radio_set_property_handler (ril_radio_settings_driver (ril_radio_settings_new [1, 2])) rs
          (set_property_message "TechnologyPreference" (DBusArg.string "+lte"))
        = handler_reply rs (DBusReply.error DBusError.not_supported)) ∧
    (radio_set_property_handler (ril_radio_settings_driver (ril_radio_settings_new [1, 2])) rs
          (set_property_message "TechnologyPreference" (DBusArg.string "lte"))
        = if rs.mode = -4 then handler_reply rs DBusReply.method_return
          else { rs := { rs with pending_mode := -4 }, reply := none,
                 events := [Event.driver (DriverCall.set_rat_mode 2)] }) := by
  refine ⟨?_, ?_, ?_⟩
  · intro hleg
    rw [set_property_message_dispatch]
    simp [radio_set_technology_preference, hset, legacy_from_string_lte, radio_legacy_rat_driver,
      hleg, radio_access_mode_is_supported, hmodes, OFONO_RADIO_ACCESS_MODE_ANY]
  · rw [set_property_message_dispatch]
    simp [radio_set_technology_preference, ril_radio_settings_driver, legacy_from_string_plus_lte,
      modes_from_string_plus_lte, radio_legacy_rat_driver,
      radio_access_mode_is_supported, hmodes, OFONO_RADIO_ACCESS_MODE_ANY]
  · have hmap : ril_radio_settings_map_legacy_rat_mode
        (ril_radio_settings_new [1, 2]).legacy_rat_map 4 = 2 := by decide
    rw [set_property_message_dispatch]
    simp [radio_set_technology_preference, ril_radio_settings_driver, legacy_from_string_lte,
      radio_legacy_rat_driver, radio_map_legacy_rat, hmap, OFONO_RADIO_ACCESS_MODE_ANY]

/-- Witness of `unsupported_rejection`: a legacy-only driver after its available-RATs query
answered with GSM and UMTS. -/
theorem unsupported_rejection_witness :
    radio_set_property_handler
        { query_rat_mode := true, set_rat_mode := true, query_band := false, set_band := false,
          query_fast_dormancy := false, set_fast_dormancy := false,
          query_available_rats := true, query_available_rat_modes := false,
          map_legacy_rat_mode := none }
        { ofono_radio_settings_create with available_modes := some [1, 2], flags := 1 }
        (set_property_message "TechnologyPreference" (DBusArg.string "lte"))
      = handler_reply
        { ofono_radio_settings_create with available_modes := some [1, 2], flags := 1 }
        (DBusReply.error DBusError.not_supported) :=
  (unsupported_rejection
    { query_rat_mode := true, set_rat_mode := true, query_band := false, set_band := false,
      query_fast_dormancy := false, set_fast_dormancy := false,
      query_available_rats := true, query_available_rat_modes := false,
      map_legacy_rat_mode := none }
    { ofono_radio_settings_create with available_modes := some [1, 2], flags := 1 }
    rfl rfl).1 rfl

theorem mode_string_cases (m : Int) (value : String) (hlo : -4 ≤ m) (hhi : m ≤ 7)
    (hval : radio_access_mode_to_string m = some value) :
    (m = -4 ∧ value = "lte") ∨ (m = -2 ∧ value = "umts") ∨ (m = -1 ∧ value = "gsm") ∨
    (m = 0 ∧ value = "any") ∨ (m = 1 ∧ value = "+gsm") ∨ (m = 2 ∧ value = "+umts") ∨
    (m = 3 ∧ value = "+umts+gsm") ∨ (m = 4 ∧ value = "+lte") ∨ (m = 5 ∧ value = "+lte+gsm") ∨
    (m = 6 ∧ value = "+lte+umts") ∨ (m = 7 ∧ value = "+lte+umts+gsm") := by
  interval_cases m
  · have h : radio_access_mode_to_string (-4) = some "lte" := by decide
    rw [h] at hval; simp at hval; simp [hval]
  · have h : radio_access_mode_to_string (-3) = none := by decide
    rw [h] at hval; simp at hval
  · have h : radio_access_mode_to_string (-2) = some "umts" := by decide
    rw [h] at hval; simp at hval; simp [hval]
  · have h : radio_access_mode_to_string (-1) = some "gsm" := by decide
    rw [h] at hval; simp at hval; simp [hval]
  · have h : radio_access_mode_to_string 0 = some "any" := by decide
    rw [h] at hval; simp at hval; simp [hval]
  · have h : radio_access_mode_to_string 1 = some "+gsm" := by decide
    rw [h] at hval; simp at hval; simp [hval]
  · have h : radio_access_mode_to_string 2 = some "+umts" := by decide
    rw [h] at hval; simp at hval; simp [hval]
  · have h : radio_access_mode_to_string 3 = some "+umts+gsm" := by decide
    rw [h] at hval; simp at hval; simp [hval]
  · have h : radio_access_mode_to_string 4 = some "+lte" := by decide
    rw [h] at hval; simp at hval; simp [hval]
  · have h : radio_access_mode_to_string 5 = some "+lte+gsm" := by decide
    rw [h] at hval; simp at hval; simp [hval]
  · have h : radio_access_mode_to_string 6 = some "+lte+umts" := by decide
    rw [h] at hval; simp at hval; simp [hval]
  · have h : radio_access_mode_to_string 7 = some "+lte+umts+gsm" := by decide
    rw [h] at hval; simp at hval; simp [hval]

theorem set_technology_preference_legacy_tag (drv : ofono_radio_settings_driver)
    (rs : ofono_radio_settings) (value : String) (am : Int) (hset : drv.set_rat_mode = true)
    (hparse : radio_legacy_mode_from_string value = some am) (hmode : rs.mode = -am) :
    radio_set_technology_preference drv rs (DBusArg.string value)
        = handler_reply rs DBusReply.method_return ∨
    radio_set_technology_preference drv rs (DBusArg.string value)
        = handler_reply rs (DBusReply.error DBusError.not_supported) := by
  simp only [radio_set_technology_preference, hset, hparse, hmode]
  by_cases hleg : radio_legacy_rat_driver drv = true
  · by_cases hsup : radio_access_mode_is_supported rs am = true <;> simp [hleg, hsup]
  · by_cases hany : (-am != OFONO_RADIO_ACCESS_MODE_ANY) = true
    · by_cases hmap : radio_map_legacy_rat drv am = 0 <;> simp [hleg, hany, hmap]
    · simp [hleg, hany]

theorem set_technology_preference_mask (drv : ofono_radio_settings_driver)
    (rs : ofono_radio_settings) (value : String) (am : Int) (hset : drv.set_rat_mode = true)
    (hleg : radio_legacy_mode_from_string value = none)
    (hparse : radio_access_modes_from_string value = some am) (hmode : rs.mode = am) :
    radio_set_technology_preference drv rs (DBusArg.string value)
        = handler_reply rs DBusReply.method_return ∨
    radio_set_technology_preference drv rs (DBusArg.string value)
        = handler_reply rs (DBusReply.error DBusError.not_supported) := by
  simp only [radio_set_technology_preference, hset, hparse, hmode, hleg]
  by_cases hrej : (radio_legacy_rat_driver drv || !radio_access_mode_is_supported rs am) = true
  · simp [hrej]
  · simp [hrej]

theorem set_technology_preference_same (drv : ofono_radio_settings_driver)
    (rs : ofono_radio_settings) (value : String) (hset : drv.set_rat_mode = true)
    (hlo : -4 ≤ rs.mode) (hhi : rs.mode ≤ 7)
    (hval : radio_access_mode_to_string rs.mode = some value) :
    radio_set_technology_preference drv rs (DBusArg.string value)
        = handler_reply rs DBusReply.method_return ∨
    radio_set_technology_preference drv rs (DBusArg.string value)
        = handler_reply rs (DBusReply.error DBusError.not_supported) := by
  rcases mode_string_cases rs.mode value hlo hhi hval with
    ⟨hm, rfl⟩ | ⟨hm, rfl⟩ | ⟨hm, rfl⟩ | ⟨hm, rfl⟩ | ⟨hm, rfl⟩ | ⟨hm, rfl⟩ | ⟨hm, rfl⟩ |
    ⟨hm, rfl⟩ | ⟨hm, rfl⟩ | ⟨hm, rfl⟩ | ⟨hm, rfl⟩
  · exact set_technology_preference_legacy_tag drv rs _ 4 hset (by decide) hm
  · exact set_technology_preference_legacy_tag drv rs _ 2 hset (by decide) hm
  · exact set_technology_preference_legacy_tag drv rs _ 1 hset (by decide) hm
  · exact set_technology_preference_legacy_tag drv rs _ 0 hset (by decide) hm
  · exact set_technology_preference_mask drv rs _ 1 hset (by decide) (by decide) hm
  · exact set_technology_preference_mask drv rs _ 2 hset (by decide) (by decide) hm
  · exact set_technology_preference_mask drv rs _ 3 hset (by decide) (by decide) hm
  · exact set_technology_preference_mask drv rs _ 4 hset (by decide) (by decide) hm
  · exact set_technology_preference_mask drv rs _ 5 hset (by decide) (by decide) hm
  · exact set_technology_preference_mask drv rs _ 6 hset (by decide) (by decide) hm
  · exact set_technology_preference_mask drv rs _ 7 hset (by decide) (by decide) hm

theorem band_gsm_string_roundtrip (band : Int) (value : String)
    (h : radio_band_gsm_to_string band = some value) :
    radio_band_gsm_from_string value = some band := by
  unfold radio_band_gsm_to_string at h
  repeat' split at h
  all_goals first
    | (simp at h; subst h; subst_vars; decide)
    | (simp at h)

theorem band_umts_string_roundtrip (band : Int) (value : String)
    (h : radio_band_umts_to_string band = some value) :
    radio_band_umts_from_string value = some band := by
  unfold radio_band_umts_to_string at h
  repeat' split at h
  all_goals first
    | (simp at h; subst h; subst_vars; decide)
    | (simp at h)

/-- Counterexample to C3 as stated, at two reachable states. After registration of a legacy-only
driver with the stored preference `"+umts+gsm"` the confirmed mode renders as `"+umts+gsm"`, and
setting that very string is answered not-supported (the validation precedes the comparison).
After a query pipeline that reported fast dormancy enabled the confirmed value is `true`, and
`SetProperty("FastDormancy", true)` is not answered at once: it invokes `set_fast_dormancy`. -/
theorem idempotent_set_counterexample :
    (radio_access_mode_to_string example_state_registered.mode = some "+umts+gsm" ∧
      (radio_set_property_handler example_legacy_driver example_state_registered
          (set_property_message "TechnologyPreference" (DBusArg.string "+umts+gsm"))).reply
        = some (DBusReply.error DBusError.not_supported)) ∧
    (example_state_fast_dormancy.fast_dormancy = true ∧
      (radio_set_property_handler example_legacy_driver example_state_fast_dormancy
          (set_property_message "FastDormancy" (DBusArg.boolean true))).reply = none ∧
      (radio_set_property_handler example_legacy_driver example_state_fast_dormancy
          (set_property_message "FastDormancy" (DBusArg.boolean true))).events
        = [Event.driver (DriverCall.set_fast_dormancy true)]) := by
  decide

theorem set_technology_preference_legacy_tag_exact (drv : ofono_radio_settings_driver)
    (rs : ofono_radio_settings) (value : String) (am : Int) (hset : drv.set_rat_mode = true)
    (hparse : radio_legacy_mode_from_string value = some am) (hmode : rs.mode = -am)
    (ham : 0 ≤ am) :
    radio_set_technology_preference drv rs (DBusArg.string value)
      = handler_reply rs (if validation_rejects drv rs rs.mode = true
          then DBusReply.error DBusError.not_supported else DBusReply.method_return) := by
  simp only [radio_set_technology_preference, hset, hparse, hmode, validation_rejects,
    radio_legacy_rat_driver, radio_access_mode_is_supported, OFONO_RADIO_ACCESS_MODE_ANY,
    neg_neg]
  by_cases h0 : am = 0
  · subst h0
    cases hq : drv.query_available_rat_modes <;> simp
  · have hneg : -am < 0 := by omega
    have hne : ¬ -am = 0 := by omega
    cases hq : drv.query_available_rat_modes
    · cases hav : rs.available_modes with
      | none => simp [h0, hneg]
      | some m => by_cases hc : am ∈ m <;> simp [h0, hneg, hc]
    · by_cases hmap : radio_map_legacy_rat drv am = 0 <;> simp [h0, hneg, hne, hmap]

theorem set_technology_preference_mask_exact (drv : ofono_radio_settings_driver)
    (rs : ofono_radio_settings) (value : String) (am : Int) (hset : drv.set_rat_mode = true)
    (hleg : radio_legacy_mode_from_string value = none)
    (hparse : radio_access_modes_from_string value = some am) (hmode : rs.mode = am)
    (ham : 0 < am) :
    radio_set_technology_preference drv rs (DBusArg.string value)
      = handler_reply rs (if validation_rejects drv rs rs.mode = true
          then DBusReply.error DBusError.not_supported else DBusReply.method_return) := by
  have hneg : ¬ am < 0 := by omega
  have hne : ¬ am = 0 := by omega
  simp only [radio_set_technology_preference, hset, hparse, hmode, hleg, validation_rejects,
    radio_legacy_rat_driver, radio_access_mode_is_supported, OFONO_RADIO_ACCESS_MODE_ANY]
  cases hq : drv.query_available_rat_modes
  · simp [hneg, hne]
  · cases hav : rs.available_modes with
    | none => simp [hneg, hne]
    | some m => by_cases hc : am ∈ m <;> simp [hneg, hne, hc]

theorem set_technology_preference_same_exact (drv : ofono_radio_settings_driver)
    (rs : ofono_radio_settings) (value : String) (hset : drv.set_rat_mode = true)
    (hlo : -4 ≤ rs.mode) (hhi : rs.mode ≤ 7)
    (hval : radio_access_mode_to_string rs.mode = some value) :
    radio_set_technology_preference drv rs (DBusArg.string value)
      = handler_reply rs (if validation_rejects drv rs rs.mode = true
          then DBusReply.error DBusError.not_supported else DBusReply.method_return) := by
  rcases mode_string_cases rs.mode value hlo hhi hval with
    ⟨hm, rfl⟩ | ⟨hm, rfl⟩ | ⟨hm, rfl⟩ | ⟨hm, rfl⟩ | ⟨hm, rfl⟩ | ⟨hm, rfl⟩ | ⟨hm, rfl⟩ |
    ⟨hm, rfl⟩ | ⟨hm, rfl⟩ | ⟨hm, rfl⟩ | ⟨hm, rfl⟩
  · exact set_technology_preference_legacy_tag_exact drv rs _ 4 hset (by decide) hm (by decide)
  · exact set_technology_preference_legacy_tag_exact drv rs _ 2 hset (by decide) hm (by decide)
  · exact set_technology_preference_legacy_tag_exact drv rs _ 1 hset (by decide) hm (by decide)
  · exact set_technology_preference_legacy_tag_exact drv rs _ 0 hset (by decide) hm (by decide)
  · exact set_technology_preference_mask_exact drv rs _ 1 hset (by decide) (by decide) hm
      (by decide)
  · exact set_technology_preference_mask_exact drv rs _ 2 hset (by decide) (by decide) hm
      (by decide)
  · exact set_technology_preference_mask_exact drv rs _ 3 hset (by decide) (by decide) hm
      (by decide)
  · exact set_technology_preference_mask_exact drv rs _ 4 hset (by decide) (by decide) hm
      (by decide)
  · exact set_technology_preference_mask_exact drv rs _ 5 hset (by decide) (by decide) hm
      (by decide)
  · exact set_technology_preference_mask_exact drv rs _ 6 hset (by decide) (by decide) hm
      (by decide)
  · exact set_technology_preference_mask_exact drv rs _ 7 hset (by decide) (by decide) hm
      (by decide)

/-- C3 (amended): in every state, on a driver that implements the set operation of the field,
`SetProperty` with the string of the confirmed value invokes no driver operation and changes no
state. For `GsmBand` and `UmtsBand` it is answered with success at once; for
`TechnologyPreference` (confirmed mode among -4, -2, -1, 0..7) it is answered with success at
once unless the validation that precedes the comparison rejects the value, and then it is
answered not-supported; the value ANY is never rejected. -/
theorem idempotent_set (drv : ofono_radio_settings_driver) (rs : ofono_radio_settings)
    (value : String) :
    (drv.set_rat_mode = true → -4 ≤ rs.mode → rs.mode ≤ 7 →
      radio_access_mode_to_string rs.mode = some value →
      radio_set_property_handler drv rs
          (set_property_message "TechnologyPreference" (DBusArg.string value))
        = { rs := rs,
            reply := some (if validation_rejects drv rs rs.mode = true
              then DBusReply.error DBusError.not_supported else DBusReply.method_return),
            events := [] }) ∧
    (drv.set_rat_mode = true → rs.mode = OFONO_RADIO_ACCESS_MODE_ANY →
      radio_set_property_handler drv rs
          (set_property_message "TechnologyPreference" (DBusArg.string "any"))
        = { rs := rs, reply := some DBusReply.method_return, events := [] }) ∧
    (drv.set_band = true → radio_band_gsm_to_string rs.band_gsm = some value →
      radio_set_property_handler drv rs (set_property_message "GsmBand" (DBusArg.string value))
        = { rs := rs, reply := some DBusReply.method_return, events := [] }) ∧
    (drv.set_band = true → radio_band_umts_to_string rs.band_umts = some value →
      radio_set_property_handler drv rs (set_property_message "UmtsBand" (DBusArg.string value))
        = { rs := rs, reply := some DBusReply.method_return, events := [] }) := by
  refine ⟨?_, ?_, ?_, ?_⟩
  · intro hrat hlo hhi hval
    rw [set_property_message_dispatch]
    exact set_technology_preference_same_exact drv rs value hrat hlo hhi hval
  · intro hrat hany
    have hval : radio_access_mode_to_string rs.mode = some "any" := by rw [hany]; decide
    have hlo : -4 ≤ rs.mode := by rw [hany]; decide
    have hhi : rs.mode ≤ 7 := by rw [hany]; decide
    have hrej : validation_rejects drv rs rs.mode = false := by
      rw [hany]; simp [validation_rejects, OFONO_RADIO_ACCESS_MODE_ANY]
    rw [set_property_message_dispatch,
      set_technology_preference_same_exact drv rs "any" hrat hlo hhi hval, hrej]
    rfl
  · intro hband hval
    have hparse := band_gsm_string_roundtrip rs.band_gsm value hval
    simp [radio_set_property_handler, set_property_message, radio_set_gsm_band, hband, hparse,
      handler_reply]
  · intro hband hval
    have hparse := band_umts_string_roundtrip rs.band_umts value hval
    simp [radio_set_property_handler, set_property_message, radio_set_umts_band, hband, hparse,
      handler_reply]

/-- Witness of `idempotent_set`. On the RIL driver with supported modes 1, 2, 3 (which has no
`set_band`) and the confirmed legacy tag LTE, `"lte"` is answered with success at once; on the
legacy-only example driver registered with the stored `"+umts+gsm"` the confirmed string is
rejected as not supported; on a driver with `set_band` and no `set_rat_mode`, the confirmed
bands 900P and 2100 are answered with success at once. -/
theorem idempotent_set_witness :
    radio_set_property_handler (ril_radio_settings_driver (ril_radio_settings_new [1, 2, 3]))
        { ofono_radio_settings_create with mode := -4, available_modes := some [1, 2, 3] }
        (set_property_message "TechnologyPreference" (DBusArg.string "lte"))
      = { rs := { ofono_radio_settings_create with
                    mode := -4, available_modes := some [1, 2, 3] },
          reply := some DBusReply.method_return, events := [] } ∧
    radio_set_property_handler example_legacy_driver example_state_registered
        (set_property_message "TechnologyPreference" (DBusArg.string "+umts+gsm"))
      = { rs := example_state_registered,
          reply := some (DBusReply.error DBusError.not_supported), events := [] } ∧
    radio_set_property_handler { example_legacy_driver with set_rat_mode := false }
        { ofono_radio_settings_create with band_gsm := 2, band_umts := 5 }
        (set_property_message "GsmBand" (DBusArg.string "900P"))
      = { rs := { ofono_radio_settings_create with band_gsm := 2, band_umts := 5 },
          reply := some DBusReply.method_return, events := [] } ∧
    radio_set_property_handler { example_legacy_driver with set_rat_mode := false }
        { ofono_radio_settings_create with band_gsm := 2, band_umts := 5 }
        (set_property_message "UmtsBand" (DBusArg.string "2100"))
      = { rs := { ofono_radio_settings_create with band_gsm := 2, band_umts := 5 },
          reply := some DBusReply.method_return, events := [] } :=
  ⟨((idempotent_set (ril_radio_settings_driver (ril_radio_settings_new [1, 2, 3]))
        { ofono_radio_settings_create with mode := -4, available_modes := some [1, 2, 3] }
        "lte").1 rfl (by decide) (by decide) (by decide)).trans (by decide),
    ((idempotent_set example_legacy_driver example_state_registered "+umts+gsm").1 rfl
        (by decide) (by decide) (by decide)).trans (by decide),
    (idempotent_set { example_legacy_driver with set_rat_mode := false }
        { ofono_radio_settings_create with band_gsm := 2, band_umts := 5 } "900P").2.2.1 rfl
        (by decide),
    (idempotent_set { example_legacy_driver with set_rat_mode := false }
        { ofono_radio_settings_create with band_gsm := 2, band_umts := 5 } "2100").2.2.2 rfl
        (by decide)⟩

theorem set_technology_preference_cases (drv : ofono_radio_settings_driver)
    (rs : ofono_radio_settings) (var : DBusArg) :
    (∃ r, radio_set_technology_preference drv rs var = handler_reply rs r) ∨
    (∃ value mode am, var = DBusArg.string value ∧ requested_mode value = some mode ∧
      rs.mode ≠ mode ∧ drv.set_rat_mode = true ∧
      radio_set_technology_preference drv rs var =
        { rs := { rs with pending_mode := mode }, reply := none,
          events := [Event.driver (DriverCall.set_rat_mode am)] }) := by
  unfold radio_set_technology_preference
  by_cases hset : drv.set_rat_mode = true
  swap
  · left
    rw [if_pos (by simp [hset])]
    exact ⟨_, rfl⟩
  cases var with
  | string value =>
    simp only [hset, Bool.not_true, Bool.false_eq_true, if_false]
    cases hleg : radio_legacy_mode_from_string value with
    | some am =>
      have hreq : requested_mode value = some (-am) := by simp [requested_mode, hleg]
      simp only []
      repeat' split
      all_goals first
        | exact Or.inl ⟨_, rfl⟩
        | exact Or.inr ⟨value, -am, _, rfl, hreq, ‹_›, trivial, rfl⟩
    | none =>
      cases hmask : radio_access_modes_from_string value with
      | some am =>
        have hreq : requested_mode value = some am := by simp [requested_mode, hleg, hmask]
        simp only []
        repeat' split
        all_goals first
          | exact Or.inl ⟨_, rfl⟩
          | exact Or.inr ⟨value, am, _, rfl, hreq, ‹_›, trivial, rfl⟩
      | none => exact Or.inl ⟨_, rfl⟩
  | boolean b =>
    left
    simp only [hset, Bool.not_true, Bool.false_eq_true, if_false]
    exact ⟨_, rfl⟩
  | variant v =>
    left
    simp only [hset, Bool.not_true, Bool.false_eq_true, if_false]
    exact ⟨_, rfl⟩
  | other =>
    left
    simp only [hset, Bool.not_true, Bool.false_eq_true, if_false]
    exact ⟨_, rfl⟩

theorem set_gsm_band_cases (drv : ofono_radio_settings_driver)
    (rs : ofono_radio_settings) (var : DBusArg) :
    (∃ r, radio_set_gsm_band drv rs var = handler_reply rs r) ∨
    (∃ value band, var = DBusArg.string value ∧ radio_band_gsm_from_string value = some band ∧
      rs.band_gsm ≠ band ∧ drv.set_band = true ∧
      radio_set_gsm_band drv rs var =
        { rs := { rs with pending_band_gsm := band }, reply := none,
          events := [Event.driver (DriverCall.set_band band rs.band_umts)] }) := by
  unfold radio_set_gsm_band
  by_cases hset : drv.set_band = true
  swap
  · left
    rw [if_pos (by simp [hset])]
    exact ⟨_, rfl⟩
  cases var with
  | string value =>
    simp only [hset, Bool.not_true, Bool.false_eq_true, if_false]
    cases hparse : radio_band_gsm_from_string value with
    | some band =>
      simp only []
      split
      · exact Or.inl ⟨_, rfl⟩
      · exact Or.inr ⟨value, band, rfl, hparse, ‹_›, trivial, rfl⟩
    | none => exact Or.inl ⟨_, rfl⟩
  | boolean b =>
    left
    simp only [hset, Bool.not_true, Bool.false_eq_true, if_false]
    exact ⟨_, rfl⟩
  | variant v =>
    left
    simp only [hset, Bool.not_true, Bool.false_eq_true, if_false]
    exact ⟨_, rfl⟩
  | other =>
    left
    simp only [hset, Bool.not_true, Bool.false_eq_true, if_false]
    exact ⟨_, rfl⟩

theorem set_umts_band_cases (drv : ofono_radio_settings_driver)
    (rs : ofono_radio_settings) (var : DBusArg) :
    (∃ r, radio_set_umts_band drv rs var = handler_reply rs r) ∨
    (∃ value band, var = DBusArg.string value ∧ radio_band_umts_from_string value = some band ∧
      rs.band_umts ≠ band ∧ drv.set_band = true ∧
      radio_set_umts_band drv rs var =
        { rs := { rs with pending_band_umts := band }, reply := none,
          events := [Event.driver (DriverCall.set_band rs.band_gsm band)] }) := by
  unfold radio_set_umts_band
  by_cases hset : drv.set_band = true
  swap
  · left
    rw [if_pos (by simp [hset])]
    exact ⟨_, rfl⟩
  cases var with
  | string value =>
    simp only [hset, Bool.not_true, Bool.false_eq_true, if_false]
    cases hparse : radio_band_umts_from_string value with
    | some band =>
      simp only []
      split
      · exact Or.inl ⟨_, rfl⟩
      · exact Or.inr ⟨value, band, rfl, hparse, ‹_›, trivial, rfl⟩
    | none => exact Or.inl ⟨_, rfl⟩
  | boolean b =>
    left
    simp only [hset, Bool.not_true, Bool.false_eq_true, if_false]
    exact ⟨_, rfl⟩
  | variant v =>
    left
    simp only [hset, Bool.not_true, Bool.false_eq_true, if_false]
    exact ⟨_, rfl⟩
  | other =>
    left
    simp only [hset, Bool.not_true, Bool.false_eq_true, if_false]
    exact ⟨_, rfl⟩

theorem set_fast_dormancy_property_cases (drv : ofono_radio_settings_driver)
    (rs : ofono_radio_settings) (var : DBusArg) :
    (∃ r, radio_set_fast_dormancy_property drv rs var = handler_reply rs r) ∨
    (∃ target, var = DBusArg.boolean target ∧ rs.fast_dormancy_pending ≠ target ∧
      drv.set_fast_dormancy = true ∧
      radio_set_fast_dormancy_property drv rs var =
        { rs := { rs with fast_dormancy_pending := target }, reply := none,
          events := [Event.driver (DriverCall.set_fast_dormancy target)] }) := by
  unfold radio_set_fast_dormancy_property
  by_cases hset : drv.set_fast_dormancy = true
  swap
  · left
    rw [if_pos (by simp [hset])]
    exact ⟨_, rfl⟩
  cases var with
  | boolean target =>
    simp only [hset, Bool.not_true, Bool.false_eq_true, if_false]
    split
    · exact Or.inl ⟨_, rfl⟩
    · exact Or.inr ⟨target, rfl, ‹_›, trivial, rfl⟩
  | string b =>
    left
    simp only [hset, Bool.not_true, Bool.false_eq_true, if_false]
    exact ⟨_, rfl⟩
  | variant v =>
    left
    simp only [hset, Bool.not_true, Bool.false_eq_true, if_false]
    exact ⟨_, rfl⟩
  | other =>
    left
    simp only [hset, Bool.not_true, Bool.false_eq_true, if_false]
    exact ⟨_, rfl⟩

theorem handler_reply_reply (rs : ofono_radio_settings) (r : DBusReply) :
    (handler_reply rs r).reply ≠ none := by
  simp [handler_reply]

theorem set_property_message_gsm (drv : ofono_radio_settings_driver)
    (rs : ofono_radio_settings) (var : DBusArg) :
    radio_set_property_handler drv rs (set_property_message "GsmBand" var)
      = radio_set_gsm_band drv rs var := by
  simp [radio_set_property_handler, set_property_message]

theorem set_property_message_umts (drv : ofono_radio_settings_driver)
    (rs : ofono_radio_settings) (var : DBusArg) :
    radio_set_property_handler drv rs (set_property_message "UmtsBand" var)
      = radio_set_umts_band drv rs var := by
  simp [radio_set_property_handler, set_property_message]

theorem set_property_message_fast_dormancy (drv : ofono_radio_settings_driver)
    (rs : ofono_radio_settings) (var : DBusArg) :
    radio_set_property_handler drv rs (set_property_message "FastDormancy" var)
      = radio_set_fast_dormancy_property drv rs var := by
  simp [radio_set_property_handler, set_property_message]

/-- C4: for every field, when `SetProperty` has staged a value and invoked the driver (the
handler returned no reply) and the driver's set operation completes with an error, the state is
the state before the call with the pending value of the field reset to the confirmed value (so
every confirmed value and the stored key file are as before the call), and the only event is the
failure reply to the caller: no change notification, no storage write. -/
theorem rollback_on_failure (drv : ofono_radio_settings_driver) (rs : ofono_radio_settings)
    (var : DBusArg) (res : DriverResult) (herr : res.error = true) :
    ((radio_set_property_handler drv rs
          (set_property_message "TechnologyPreference" var)).reply = none →
      complete_handler drv
          (radio_set_property_handler drv rs (set_property_message "TechnologyPreference" var))
          res
        = ({ rs with pending_mode := rs.mode },
            [Event.queue_reply (DBusReply.error DBusError.failed)])) ∧
    ((radio_set_property_handler drv rs (set_property_message "GsmBand" var)).reply = none →
      complete_handler drv
          (radio_set_property_handler drv rs (set_property_message "GsmBand" var)) res
        = ({ rs with pending_band_gsm := rs.band_gsm, pending_band_umts := rs.band_umts },
            [Event.queue_reply (DBusReply.error DBusError.failed)])) ∧
    ((radio_set_property_handler drv rs (set_property_message "UmtsBand" var)).reply = none →
      complete_handler drv
          (radio_set_property_handler drv rs (set_property_message "UmtsBand" var)) res
        = ({ rs with pending_band_gsm := rs.band_gsm, pending_band_umts := rs.band_umts },
            [Event.queue_reply (DBusReply.error DBusError.failed)])) ∧
    ((radio_set_property_handler drv rs (set_property_message "FastDormancy" var)).reply = none →
      complete_handler drv
          (radio_set_property_handler drv rs (set_property_message "FastDormancy" var)) res
        = ({ rs with fast_dormancy_pending := rs.fast_dormancy },
            [Event.queue_reply (DBusReply.error DBusError.failed)])) := by
  refine ⟨?_, ?_, ?_, ?_⟩
  · rw [set_property_message_dispatch]
    intro hwait
    rcases set_technology_preference_cases drv rs var with ⟨r, hr⟩ | ⟨v, mode, am, _, _, _, _, hst⟩
    · rw [hr] at hwait; exact absurd hwait (handler_reply_reply rs r)
    · rw [hst]
      simp [complete_handler, driver_calls, driver_completion, radio_mode_set_callback, herr]
  · rw [set_property_message_gsm]
    intro hwait
    rcases set_gsm_band_cases drv rs var with ⟨r, hr⟩ | ⟨v, band, _, _, _, _, hst⟩
    · rw [hr] at hwait; exact absurd hwait (handler_reply_reply rs r)
    · rw [hst]
      simp [complete_handler, driver_calls, driver_completion, radio_band_set_callback, herr]
  · rw [set_property_message_umts]
    intro hwait
    rcases set_umts_band_cases drv rs var with ⟨r, hr⟩ | ⟨v, band, _, _, _, _, hst⟩
    · rw [hr] at hwait; exact absurd hwait (handler_reply_reply rs r)
    · rw [hst]
      simp [complete_handler, driver_calls, driver_completion, radio_band_set_callback, herr]
  · rw [set_property_message_fast_dormancy]
    intro hwait
    rcases set_fast_dormancy_property_cases drv rs var with ⟨r, hr⟩ | ⟨t, _, _, _, hst⟩
    · rw [hr] at hwait; exact absurd hwait (handler_reply_reply rs r)
    · rw [hst]
      simp [complete_handler, driver_calls, driver_completion, radio_fast_dormancy_set_callback,
        herr]

/-- Witness of `rollback_on_failure`: on `example_legacy_driver` in the state after
registration, `SetProperty("TechnologyPreference", "gsm")` followed by a failed completion. -/
theorem rollback_on_failure_witness :
    driver_failure.error = true ∧
    (radio_set_property_handler example_legacy_driver example_state_registered
        (set_property_message "TechnologyPreference" (DBusArg.string "gsm"))).reply = none ∧
    complete_handler example_legacy_driver
        (radio_set_property_handler example_legacy_driver example_state_registered
          (set_property_message "TechnologyPreference" (DBusArg.string "gsm")))
        driver_failure
      = ({ example_state_registered with pending_mode := example_state_registered.mode },
          [Event.queue_reply (DBusReply.error DBusError.failed)]) :=
  ⟨rfl, by decide,
    (rollback_on_failure example_legacy_driver example_state_registered (DBusArg.string "gsm")
      driver_failure rfl).1 (by decide)⟩

theorem mode_set_callback_ok (rs : ofono_radio_settings) :
    (radio_mode_set_callback false rs).1.mode = rs.pending_mode ∧
    queue_replies (radio_mode_set_callback false rs).2 = [DBusReply.method_return] ∧
    notified "TechnologyPreference" (radio_mode_set_callback false rs).2 =
      (if rs.mode = rs.pending_mode then []
       else [PropertyValue.string (radio_access_mode_to_string rs.pending_mode)]) := by
  unfold radio_mode_set_callback radio_set_rat_mode
  by_cases h : rs.mode = rs.pending_mode
  · simp [h, queue_replies, notified]
  · cases hs : rs.settings <;> simp [h, hs, queue_replies, notified]

theorem set_band_gsm_frame (rs : ofono_radio_settings) :
    (radio_set_band_gsm rs).1.band_gsm = rs.pending_band_gsm ∧
    (radio_set_band_gsm rs).1.band_umts = rs.band_umts ∧
    (radio_set_band_gsm rs).1.pending_band_umts = rs.pending_band_umts ∧
    queue_replies (radio_set_band_gsm rs).2 = [] ∧
    notified "UmtsBand" (radio_set_band_gsm rs).2 = [] ∧
    notified "GsmBand" (radio_set_band_gsm rs).2 =
      (if rs.band_gsm = rs.pending_band_gsm then []
       else [PropertyValue.string (radio_band_gsm_to_string rs.pending_band_gsm)]) := by
  unfold radio_set_band_gsm
  by_cases hg : rs.band_gsm = rs.pending_band_gsm
  · simp [hg, queue_replies, notified]
  · cases hs : rs.settings <;> simp +decide [hg, hs, queue_replies, notified]

theorem set_band_umts_frame (rs : ofono_radio_settings) :
    (radio_set_band_umts rs).1.band_umts = rs.pending_band_umts ∧
    (radio_set_band_umts rs).1.band_gsm = rs.band_gsm ∧
    queue_replies (radio_set_band_umts rs).2 = [] ∧
    notified "GsmBand" (radio_set_band_umts rs).2 = [] ∧
    notified "UmtsBand" (radio_set_band_umts rs).2 =
      (if rs.band_umts = rs.pending_band_umts then []
       else [PropertyValue.string (radio_band_umts_to_string rs.pending_band_umts)]) := by
  unfold radio_set_band_umts
  by_cases hu : rs.band_umts = rs.pending_band_umts
  · simp [hu, queue_replies, notified]
  · cases hs : rs.settings <;> simp +decide [hu, hs, queue_replies, notified]

theorem notified_append (name : String) (a b : List Event) :
    notified name (a ++ b) = notified name a ++ notified name b := by
  induction a with
  | nil => rfl
  | cons e es ih =>
    cases e <;> simp [notified, ih]
    split <;> simp

theorem queue_replies_append (a b : List Event) :
    queue_replies (a ++ b) = queue_replies a ++ queue_replies b := by
  induction a with
  | nil => rfl
  | cons e es ih => cases e <;> simp [queue_replies, ih]

theorem band_set_callback_ok (rs : ofono_radio_settings) :
    (radio_band_set_callback false rs).1.band_gsm = rs.pending_band_gsm ∧
    (radio_band_set_callback false rs).1.band_umts = rs.pending_band_umts ∧
    queue_replies (radio_band_set_callback false rs).2 = [DBusReply.method_return] ∧
    notified "GsmBand" (radio_band_set_callback false rs).2 =
      (if rs.band_gsm = rs.pending_band_gsm then []
       else [PropertyValue.string (radio_band_gsm_to_string rs.pending_band_gsm)]) ∧
    notified "UmtsBand" (radio_band_set_callback false rs).2 =
      (if rs.band_umts = rs.pending_band_umts then []
       else [PropertyValue.string (radio_band_umts_to_string rs.pending_band_umts)]) := by
  obtain ⟨g1, g2, g3, g4, g5, g6⟩ := set_band_gsm_frame rs
  obtain ⟨u1, u2, u3, u4, u5⟩ := set_band_umts_frame (radio_set_band_gsm rs).1
  simp only [radio_band_set_callback, radio_set_band, Bool.false_eq_true, if_false]
  refine ⟨?_, ?_, ?_, ?_, ?_⟩
  · rw [u2, g1]
  · rw [u1, g3]
  · simp [queue_replies, queue_replies_append, g4, u3]
  · simp [notified, notified_append, g6, u4]
  · simp [notified, notified_append, g5, u5, g2, g3]

theorem fast_dormancy_set_callback_ok (rs : ofono_radio_settings) :
    (radio_fast_dormancy_set_callback false rs).1.fast_dormancy = rs.fast_dormancy_pending ∧
    queue_replies (radio_fast_dormancy_set_callback false rs).2 = [DBusReply.method_return] ∧
    notified "FastDormancy" (radio_fast_dormancy_set_callback false rs).2 =
      (if rs.fast_dormancy = rs.fast_dormancy_pending then []
       else [PropertyValue.boolean rs.fast_dormancy_pending]) := by
  unfold radio_fast_dormancy_set_callback radio_set_fast_dormancy
  by_cases h : rs.fast_dormancy = rs.fast_dormancy_pending
  · simp [h, queue_replies, notified]
  · simp [h, queue_replies, notified]

/-- C5: for every field, when `SetProperty` has staged a value and invoked the driver and the
set operation completes successfully, the confirmed value becomes the value requested by
`SetProperty`, the caller is answered with success, and the change of that field is announced
exactly once; in general the success callbacks commit the pending value and announce it once when
it differs from the previous confirmed value and not at all when it is equal. -/
theorem commit_on_success (drv : ofono_radio_settings_driver) (rs : ofono_radio_settings)
    (res : DriverResult) (hok : res.error = false) :
    (∀ value,
      (radio_set_property_handler drv rs
          (set_property_message "TechnologyPreference" (DBusArg.string value))).reply = none →
      ∃ mode, requested_mode value = some mode ∧
        (complete_handler drv (radio_set_property_handler drv rs
          (set_property_message "TechnologyPreference" (DBusArg.string value))) res).1.mode
          = mode ∧
        queue_replies (complete_handler drv (radio_set_property_handler drv rs
          (set_property_message "TechnologyPreference" (DBusArg.string value))) res).2
          = [DBusReply.method_return] ∧
        notified "TechnologyPreference" (complete_handler drv (radio_set_property_handler drv rs
          (set_property_message "TechnologyPreference" (DBusArg.string value))) res).2
          = [PropertyValue.string (radio_access_mode_to_string mode)]) ∧
    (∀ value,
      (radio_set_property_handler drv rs
          (set_property_message "GsmBand" (DBusArg.string value))).reply = none →
      ∃ band, radio_band_gsm_from_string value = some band ∧
        (complete_handler drv (radio_set_property_handler drv rs
          (set_property_message "GsmBand" (DBusArg.string value))) res).1.band_gsm = band ∧
        queue_replies (complete_handler drv (radio_set_property_handler drv rs
          (set_property_message "GsmBand" (DBusArg.string value))) res).2
          = [DBusReply.method_return] ∧
        notified "GsmBand" (complete_handler drv (radio_set_property_handler drv rs
          (set_property_message "GsmBand" (DBusArg.string value))) res).2
          = [PropertyValue.string (radio_band_gsm_to_string band)]) ∧
    (∀ value,
      (radio_set_property_handler drv rs
          (set_property_message "UmtsBand" (DBusArg.string value))).reply = none →
      ∃ band, radio_band_umts_from_string value = some band ∧
        (complete_handler drv (radio_set_property_handler drv rs
          (set_property_message "UmtsBand" (DBusArg.string value))) res).1.band_umts = band ∧
        queue_replies (complete_handler drv (radio_set_property_handler drv rs
          (set_property_message "UmtsBand" (DBusArg.string value))) res).2
          = [DBusReply.method_return] ∧
        notified "UmtsBand" (complete_handler drv (radio_set_property_handler drv rs
          (set_property_message "UmtsBand" (DBusArg.string value))) res).2
          = [PropertyValue.string (radio_band_umts_to_string band)]) ∧
    (∀ target,
      (radio_set_property_handler drv rs
          (set_property_message "FastDormancy" (DBusArg.boolean target))).reply = none →
      (complete_handler drv (radio_set_property_handler drv rs
          (set_property_message "FastDormancy" (DBusArg.boolean target))) res).1.fast_dormancy
          = target ∧
        queue_replies (complete_handler drv (radio_set_property_handler drv rs
          (set_property_message "FastDormancy" (DBusArg.boolean target))) res).2
          = [DBusReply.method_return] ∧
        notified "FastDormancy" (complete_handler drv (radio_set_property_handler drv rs
          (set_property_message "FastDormancy" (DBusArg.boolean target))) res).2
          = (if rs.fast_dormancy = target then [] else [PropertyValue.boolean target])) ∧
    (∀ s : ofono_radio_settings,
      ((radio_mode_set_callback res.error s).1.mode = s.pending_mode ∧
        notified "TechnologyPreference" (radio_mode_set_callback res.error s).2 =
          (if s.mode = s.pending_mode then []
           else [PropertyValue.string (radio_access_mode_to_string s.pending_mode)])) ∧
      ((radio_band_set_callback res.error s).1.band_gsm = s.pending_band_gsm ∧
        (radio_band_set_callback res.error s).1.band_umts = s.pending_band_umts ∧
        notified "GsmBand" (radio_band_set_callback res.error s).2 =
          (if s.band_gsm = s.pending_band_gsm then []
           else [PropertyValue.string (radio_band_gsm_to_string s.pending_band_gsm)]) ∧
        notified "UmtsBand" (radio_band_set_callback res.error s).2 =
          (if s.band_umts = s.pending_band_umts then []
           else [PropertyValue.string (radio_band_umts_to_string s.pending_band_umts)])) ∧
      ((radio_fast_dormancy_set_callback res.error s).1.fast_dormancy = s.fast_dormancy_pending ∧
        notified "FastDormancy" (radio_fast_dormancy_set_callback res.error s).2 =
          (if s.fast_dormancy = s.fast_dormancy_pending then []
           else [PropertyValue.boolean s.fast_dormancy_pending]))) := by
  rw [hok]
  refine ⟨?_, ?_, ?_, ?_, ?_⟩
  · intro value hwait
    rw [set_property_message_dispatch] at hwait ⊢
    rcases set_technology_preference_cases drv rs (DBusArg.string value) with
      ⟨r, hr⟩ | ⟨v, mode, am, hv, hreq, hne, _, hst⟩
    · rw [hr] at hwait; exact absurd hwait (handler_reply_reply rs r)
    · cases hv
      refine ⟨mode, hreq, ?_⟩
      rw [hst]
      have h := mode_set_callback_ok { rs with pending_mode := mode }
      simp only [complete_handler, driver_calls, driver_completion, hok]
      simpa [hne] using h
  · intro value hwait
    rw [set_property_message_gsm] at hwait ⊢
    rcases set_gsm_band_cases drv rs (DBusArg.string value) with
      ⟨r, hr⟩ | ⟨v, band, hv, hparse, hne, _, hst⟩
    · rw [hr] at hwait; exact absurd hwait (handler_reply_reply rs r)
    · cases hv
      refine ⟨band, hparse, ?_⟩
      rw [hst]
      have h := band_set_callback_ok { rs with pending_band_gsm := band }
      simp only [complete_handler, driver_calls, driver_completion, hok]
      exact ⟨h.1, h.2.2.1, by simpa [hne] using h.2.2.2.1⟩
  · intro value hwait
    rw [set_property_message_umts] at hwait ⊢
    rcases set_umts_band_cases drv rs (DBusArg.string value) with
      ⟨r, hr⟩ | ⟨v, band, hv, hparse, hne, _, hst⟩
    · rw [hr] at hwait; exact absurd hwait (handler_reply_reply rs r)
    · cases hv
      refine ⟨band, hparse, ?_⟩
      rw [hst]
      have h := band_set_callback_ok { rs with pending_band_umts := band }
      simp only [complete_handler, driver_calls, driver_completion, hok]
      exact ⟨h.2.1, h.2.2.1, by simpa [hne] using h.2.2.2.2⟩
  · intro target hwait
    rw [set_property_message_fast_dormancy] at hwait ⊢
    rcases set_fast_dormancy_property_cases drv rs (DBusArg.boolean target) with
      ⟨r, hr⟩ | ⟨t, hv, hne, _, hst⟩
    · rw [hr] at hwait; exact absurd hwait (handler_reply_reply rs r)
    · cases hv
      rw [hst]
      have h := fast_dormancy_set_callback_ok { rs with fast_dormancy_pending := target }
      simp only [complete_handler, driver_calls, driver_completion, hok]
      exact h
  · intro s
    have hm := mode_set_callback_ok s
    have hb := band_set_callback_ok s
    have hf := fast_dormancy_set_callback_ok s
    exact ⟨⟨hm.1, hm.2.2⟩, ⟨hb.1, hb.2.1, hb.2.2.2.1, hb.2.2.2.2⟩, ⟨hf.1, hf.2.2⟩⟩

/-- Witness of `commit_on_success`: in `example_state_fast_dormancy` (confirmed value `true`,
pending value `false`) the request `SetProperty("FastDormancy", true)` reaches the driver and its
successful completion keeps `true` without a change notification. -/
theorem commit_on_success_witness :
    driver_success.error = false ∧
    (radio_set_property_handler example_legacy_driver example_state_fast_dormancy
        (set_property_message "FastDormancy" (DBusArg.boolean true))).reply = none ∧
    (complete_handler example_legacy_driver
        (radio_set_property_handler example_legacy_driver example_state_fast_dormancy
          (set_property_message "FastDormancy" (DBusArg.boolean true)))
        driver_success).1.fast_dormancy = true ∧
    queue_replies (complete_handler example_legacy_driver
        (radio_set_property_handler example_legacy_driver example_state_fast_dormancy
          (set_property_message "FastDormancy" (DBusArg.boolean true)))
        driver_success).2 = [DBusReply.method_return] ∧
    notified "FastDormancy" (complete_handler example_legacy_driver
        (radio_set_property_handler example_legacy_driver example_state_fast_dormancy
          (set_property_message "FastDormancy" (DBusArg.boolean true)))
        driver_success).2
      = (if example_state_fast_dormancy.fast_dormancy = true then []
         else [PropertyValue.boolean true]) :=
  ⟨rfl, by decide,
    (commit_on_success example_legacy_driver example_state_fast_dormancy driver_success
      rfl).2.2.2.1 true (by decide)⟩

theorem cached_after_set (flags : Nat) :
    (flags ||| RADIO_SETTINGS_FLAG_CACHED) &&& RADIO_SETTINGS_FLAG_CACHED ≠ 0 := by
  unfold RADIO_SETTINGS_FLAG_CACHED
  have h : ((flags ||| 1) &&& 1).testBit 0 = true := by
    rw [Nat.testBit_and, Nat.testBit_or]
    simp
  intro h0
  rw [h0] at h
  simp at h

/-- Counterexample to C6 as stated: when the RAT-mode query fails on the created record, the
request is answered with the failed error, no further driver query is invoked and the record is
still not cached. -/
theorem query_failure_counterexample :
    radio_rat_mode_query_callback example_legacy_driver true 0 ofono_radio_settings_create
      = (ofono_radio_settings_create, [Event.queue_reply (DBusReply.error DBusError.failed)]) ∧
    driver_calls (radio_rat_mode_query_callback example_legacy_driver true 0
      ofono_radio_settings_create).2 = [] ∧
    (radio_rat_mode_query_callback example_legacy_driver true 0
      ofono_radio_settings_create).1.flags &&& RADIO_SETTINGS_FLAG_CACHED = 0 := by
  decide

/-- C6 (amended): when the driver reports failure for the RAT-mode, band or fast-dormancy query,
the state is left as it was (the field of the stage and the cached flag included), no further
driver query is invoked and the request at the head of the queue is answered with the failed
error. When the failure is reported for the available-technologies query (either variant), the
available modes keep their prior value, the cached flag is set and the queued `GetProperties`
requests are answered from the state. -/
theorem query_failure (drv : ofono_radio_settings_driver) (rs : ofono_radio_settings)
    (rat band_gsm band_umts : Int) (enable : Bool) (available_rats : Nat) (modes : List Int) :
    radio_rat_mode_query_callback drv true rat rs
      = (rs, [Event.queue_reply (DBusReply.error DBusError.failed)]) ∧
    radio_band_query_callback drv true band_gsm band_umts rs
      = (rs, [Event.queue_reply (DBusReply.error DBusError.failed)]) ∧
    radio_fast_dormancy_query_callback drv true enable rs
      = (rs, [Event.queue_reply (DBusReply.error DBusError.failed)]) ∧
    radio_available_rats_query_callback drv true available_rats rs
      = ({ rs with flags := rs.flags ||| RADIO_SETTINGS_FLAG_CACHED },
          [Event.queue_reply_all (radio_get_properties_reply drv
            { rs with flags := rs.flags ||| RADIO_SETTINGS_FLAG_CACHED })]) ∧
    radio_available_modes_query_callback drv true modes rs
      = ({ rs with flags := rs.flags ||| RADIO_SETTINGS_FLAG_CACHED },
          [Event.queue_reply_all (radio_get_properties_reply drv
            { rs with flags := rs.flags ||| RADIO_SETTINGS_FLAG_CACHED })]) ∧
    ({ rs with flags := rs.flags ||| RADIO_SETTINGS_FLAG_CACHED } : ofono_radio_settings).flags
      &&& RADIO_SETTINGS_FLAG_CACHED ≠ 0 := by
  refine ⟨?_, ?_, ?_, ?_, ?_, ?_⟩
  · simp [radio_rat_mode_query_callback]
  · simp [radio_band_query_callback]
  · simp [radio_fast_dormancy_query_callback]
  · simp [radio_available_rats_query_callback, radio_send_properties_reply]
  · simp [radio_available_modes_query_callback, radio_send_properties_reply]
  · exact cached_after_set rs.flags

theorem send_properties_reply_state (drv : ofono_radio_settings_driver)
    (rs : ofono_radio_settings) :
    (radio_send_properties_reply drv rs).1
      = { rs with flags := rs.flags ||| RADIO_SETTINGS_FLAG_CACHED } := rfl

theorem query_available_rats_state (drv : ofono_radio_settings_driver)
    (rs : ofono_radio_settings) :
    (radio_query_available_rats drv rs).1 = rs ∨
    (radio_query_available_rats drv rs).1
      = { rs with flags := rs.flags ||| RADIO_SETTINGS_FLAG_CACHED } := by
  unfold radio_query_available_rats
  split
  · right; rfl
  · split
    · left; rfl
    · left; rfl

theorem query_fast_dormancy_state (drv : ofono_radio_settings_driver)
    (rs : ofono_radio_settings) :
    (radio_query_fast_dormancy drv rs).1 = rs ∨
    (radio_query_fast_dormancy drv rs).1
      = { rs with flags := rs.flags ||| RADIO_SETTINGS_FLAG_CACHED } := by
  unfold radio_query_fast_dormancy
  split
  · exact query_available_rats_state drv rs
  · left; rfl

theorem query_band_state (drv : ofono_radio_settings_driver) (rs : ofono_radio_settings) :
    (radio_query_band drv rs).1 = rs ∨
    (radio_query_band drv rs).1
      = { rs with flags := rs.flags ||| RADIO_SETTINGS_FLAG_CACHED } := by
  unfold radio_query_band
  split
  · exact query_fast_dormancy_state drv rs
  · left; rfl

theorem query_band_mode (drv : ofono_radio_settings_driver) (rs : ofono_radio_settings) :
    (radio_query_band drv rs).1.mode = rs.mode := by
  rcases query_band_state drv rs with h | h <;> rw [h]

theorem set_rat_mode_mode (rs : ofono_radio_settings) (mode : Int) :
    (radio_set_rat_mode rs mode).1.mode = mode := by
  unfold radio_set_rat_mode
  split
  · assumption
  · cases rs.settings <;> rfl

/-- C7: on a bitmask-capable driver, when a RAT-mode query succeeds reporting `m` while the
confirmed mode is the legacy tag `t` (stored as `-t`), the confirmed mode stays `-t` if the
legacy-to-modern mapping of `t` equals `m` and becomes `m` otherwise. On the RIL driver with all
seven modes and confirmed legacy GSM, a report of 1 keeps `"gsm"` visible and a report of 3
switches the visible mode to `"+umts+gsm"`. -/
theorem legacy_mode_sticks (drv : ofono_radio_settings_driver) (rs : ofono_radio_settings)
    (m t : Int) (hmask : drv.query_available_rat_modes = true) (ht : 0 < t)
    (hmode : rs.mode = -t) :
    (radio_rat_mode_query_callback drv false m rs).1.mode
      = (if radio_map_legacy_rat drv t = m then -t else m) ∧
    radio_access_mode_to_string
      (radio_rat_mode_query_callback
        (ril_radio_settings_driver (ril_radio_settings_new [1, 2, 3, 4, 5, 6, 7])) false 1
        { ofono_radio_settings_create with mode := -1 }).1.mode = some "gsm" ∧
    radio_access_mode_to_string
      (radio_rat_mode_query_callback
        (ril_radio_settings_driver (ril_radio_settings_new [1, 2, 3, 4, 5, 6, 7])) false 3
        { ofono_radio_settings_create with mode := -1 }).1.mode = some "+umts+gsm" := by
  refine ⟨?_, by decide, by decide⟩
  simp only [radio_rat_mode_query_callback, Bool.false_eq_true, if_false]
  rw [query_band_mode, set_rat_mode_mode]
  have hneg : rs.mode < 0 := by omega
  have ht2 : -rs.mode = t := by omega
  simp only [radio_legacy_rat_driver, hmask, Bool.not_true, Bool.false_eq_true, if_false, ht2]
  by_cases hmap : radio_map_legacy_rat drv t = m
  · simp only [hmap, hneg, decide_True, beq_self_eq_true, Bool.and_self, if_true]
    exact hmode
  · simp [hmap, hneg]

/-- Witness of `legacy_mode_sticks`: the RIL driver with all seven modes, confirmed legacy UMTS
(which maps to 3) and a report of 3. -/
theorem legacy_mode_sticks_witness :
    (radio_rat_mode_query_callback
        (ril_radio_settings_driver (ril_radio_settings_new [1, 2, 3, 4, 5, 6, 7])) false 3
        { ofono_radio_settings_create with mode := -2 }).1.mode
      = (if radio_map_legacy_rat
            (ril_radio_settings_driver (ril_radio_settings_new [1, 2, 3, 4, 5, 6, 7])) 2 = 3
          then -2 else 3) :=
  (legacy_mode_sticks (ril_radio_settings_driver (ril_radio_settings_new [1, 2, 3, 4, 5, 6, 7]))
    { ofono_radio_settings_create with mode := -2 } 3 2 rfl (by decide) rfl).1

theorem driver_calls_append (a b : List Event) :
    driver_calls (a ++ b) = driver_calls a ++ driver_calls b := by
  induction a with
  | nil => rfl
  | cons e es ih => cases e <;> simp [driver_calls, ih]

theorem set_rat_mode_frame (rs : ofono_radio_settings) (mode : Int) :
    (radio_set_rat_mode rs mode).1.flags = rs.flags ∧
    (radio_set_rat_mode rs mode).1.available_modes = rs.available_modes ∧
    driver_calls (radio_set_rat_mode rs mode).2 = [] ∧
    queue_replies (radio_set_rat_mode rs mode).2 = [] := by
  unfold radio_set_rat_mode
  split
  · simp [driver_calls, queue_replies]
  · cases rs.settings <;> simp [driver_calls, queue_replies]

/-- C9: for a driver that implements only `query_rat_mode` and `set_rat_mode`, on a record that
is not cached and has no available modes, `GetProperties` invokes `query_rat_mode` and waits;
the successful completion of that query invokes no other driver operation, sets the cached flag,
leaves the available modes unset and answers with a dictionary that holds the
`TechnologyPreference` entry only. -/
theorem rat_mode_only_driver (drv : ofono_radio_settings_driver) (rs : ofono_radio_settings)
    (rat : Int)
    (hq : drv.query_rat_mode = true) (hband : drv.query_band = false)
    (hfd : drv.query_fast_dormancy = false) (hrats : drv.query_available_rats = false)
    (hmodes : drv.query_available_rat_modes = false)
    (hflags : rs.flags &&& RADIO_SETTINGS_FLAG_CACHED = 0)
    (havail : rs.available_modes = none) :
    radio_get_properties_handler drv rs
      = { rs := rs, reply := none, events := [Event.driver DriverCall.query_rat_mode] } ∧
    (radio_rat_mode_query_callback drv false rat rs).1.flags &&& RADIO_SETTINGS_FLAG_CACHED ≠ 0 ∧
    (radio_rat_mode_query_callback drv false rat rs).1.available_modes = none ∧
    (radio_rat_mode_query_callback drv false rat rs).1.mode = -rat ∧
    driver_calls (radio_rat_mode_query_callback drv false rat rs).2 = [] ∧
    queue_replies (radio_rat_mode_query_callback drv false rat rs).2
      = [DBusReply.properties
          [("TechnologyPreference", PropertyValue.string (radio_access_mode_to_string (-rat)))]] ∧
    radio_get_properties_handler drv (radio_rat_mode_query_callback drv false rat rs).1
      = handler_reply (radio_rat_mode_query_callback drv false rat rs).1
          (DBusReply.properties
            [("TechnologyPreference",
              PropertyValue.string (radio_access_mode_to_string (-rat)))]) := by
  obtain ⟨f1, f2, f3, f4⟩ := set_rat_mode_frame rs (-rat)
  have hm := set_rat_mode_mode rs (-rat)
  have hcb : radio_rat_mode_query_callback drv false rat rs
      = ((radio_send_properties_reply drv (radio_set_rat_mode rs (-rat)).1).1,
          (radio_set_rat_mode rs (-rat)).2 ++
            (radio_send_properties_reply drv (radio_set_rat_mode rs (-rat)).1).2) := by
    simp [radio_rat_mode_query_callback, radio_legacy_rat_driver, hmodes, radio_query_band, hband,
      radio_query_fast_dormancy, hfd, radio_query_available_rats, hrats]
  have hdict : radio_get_properties_reply drv
      (radio_send_properties_reply drv (radio_set_rat_mode rs (-rat)).1).1
      = DBusReply.properties
          [("TechnologyPreference", PropertyValue.string (radio_access_mode_to_string (-rat)))] := by
    simp [radio_get_properties_reply, radio_get_properties_dict, radio_send_properties_reply,
      hband, hfd, f2, havail, hm]
  refine ⟨?_, ?_, ?_, ?_, ?_, ?_, ?_⟩
  · simp [radio_get_properties_handler, hflags, hq]
  · rw [hcb]
    exact cached_after_set _
  · rw [hcb]
    simp [radio_send_properties_reply, f2, havail]
  · rw [hcb]
    simp [radio_send_properties_reply, hm]
  · rw [hcb]
    simp [driver_calls_append, f3, radio_send_properties_reply, driver_calls]
  · rw [hcb]
    simp only [queue_replies_append, f4, List.nil_append]
    simp only [radio_send_properties_reply, queue_replies]
    rw [← hdict]
    rfl
  · rw [hcb]
    have hc := cached_after_set (radio_set_rat_mode rs (-rat)).1.flags
    simp only [radio_get_properties_handler, handler_reply]
    rw [hdict]
    simp [radio_send_properties_reply, hc]

/-- Witness of `rat_mode_only_driver`: the created record, the driver reports GSM. -/
theorem rat_mode_only_driver_witness :
    queue_replies (radio_rat_mode_query_callback
        { query_rat_mode := true, set_rat_mode := true, query_band := false, set_band := false,
          query_fast_dormancy := false, set_fast_dormancy := false,
          query_available_rats := false, query_available_rat_modes := false,
          map_legacy_rat_mode := none }
        false 1 ofono_radio_settings_create).2
      = [DBusReply.properties
          [("TechnologyPreference", PropertyValue.string (radio_access_mode_to_string (-1)))]] :=
  (rat_mode_only_driver
    { query_rat_mode := true, set_rat_mode := true, query_band := false, set_band := false,
      query_fast_dormancy := false, set_fast_dormancy := false,
      query_available_rats := false, query_available_rat_modes := false,
      map_legacy_rat_mode := none }
    ofono_radio_settings_create 1 rfl rfl rfl rfl rfl (by decide) rfl).2.2.2.2.2.1

theorem legacy_tag_string (tag : Int) (value : String)
    (htag : tag = 1 ∨ tag = 2 ∨ tag = 4) (hval : radio_legacy_mode_to_string tag = some value) :
    radio_legacy_mode_from_string value = some tag := by
  rcases htag with rfl | rfl | rfl
  · have h : radio_legacy_mode_to_string 1 = some "gsm" := by decide
    rw [h] at hval; simp at hval; subst hval; decide
  · have h : radio_legacy_mode_to_string 2 = some "umts" := by decide
    rw [h] at hval; simp at hval; subst hval; decide
  · have h : radio_legacy_mode_to_string 4 = some "lte" := by decide
    rw [h] at hval; simp at hval; subst hval; decide

theorem pipeline_tail_mono (k j : Nat) (rs : ofono_radio_settings)
    (r : ofono_radio_settings × List Event) (hjk : j ≤ k) (h : pipeline_tail k rs r) :
    pipeline_tail j rs r := by
  rcases h with ⟨c, hc, hlt⟩ | h
  · exact Or.inl ⟨c, hc, by omega⟩
  · exact Or.inr h

theorem send_properties_reply_tail (drv : ofono_radio_settings_driver)
    (rs : ofono_radio_settings) (k : Nat) :
    pipeline_tail k rs (radio_send_properties_reply drv rs) :=
  Or.inr ⟨_, rfl⟩

theorem query_available_rats_tail (drv : ofono_radio_settings_driver)
    (rs : ofono_radio_settings) :
    pipeline_tail 3 rs (radio_query_available_rats drv rs) := by
  unfold radio_query_available_rats
  split
  · exact send_properties_reply_tail drv rs 3
  · split
    · exact Or.inl ⟨_, rfl, by decide⟩
    · exact Or.inl ⟨_, rfl, by decide⟩

theorem query_fast_dormancy_tail (drv : ofono_radio_settings_driver)
    (rs : ofono_radio_settings) :
    pipeline_tail 2 rs (radio_query_fast_dormancy drv rs) := by
  unfold radio_query_fast_dormancy
  split
  · exact pipeline_tail_mono 3 2 rs _ (by decide) (query_available_rats_tail drv rs)
  · exact Or.inl ⟨_, rfl, by decide⟩

theorem query_band_tail (drv : ofono_radio_settings_driver) (rs : ofono_radio_settings) :
    pipeline_tail 1 rs (radio_query_band drv rs) := by
  unfold radio_query_band
  split
  · exact pipeline_tail_mono 2 1 rs _ (by decide) (query_fast_dormancy_tail drv rs)
  · exact Or.inl ⟨_, rfl, by decide⟩

theorem set_fast_dormancy_quiet (rs : ofono_radio_settings) (enable : Bool) :
    quiet_events (radio_set_fast_dormancy rs enable).2 ∧
    (radio_set_fast_dormancy rs enable).1.flags = rs.flags := by
  unfold radio_set_fast_dormancy quiet_events
  split <;> simp [driver_calls, queue_replies]

theorem set_band_quiet (rs : ofono_radio_settings) :
    quiet_events (radio_set_band rs).2 ∧ (radio_set_band rs).1.flags = rs.flags := by
  have hg : quiet_events (radio_set_band_gsm rs).2 ∧ (radio_set_band_gsm rs).1.flags = rs.flags := by
    unfold radio_set_band_gsm quiet_events
    split
    · cases rs.settings <;> simp [driver_calls, queue_replies]
    · simp [driver_calls, queue_replies]
  have hu : ∀ s : ofono_radio_settings,
      quiet_events (radio_set_band_umts s).2 ∧ (radio_set_band_umts s).1.flags = s.flags := by
    intro s
    unfold radio_set_band_umts quiet_events
    split
    · cases s.settings <;> simp [driver_calls, queue_replies]
    · simp [driver_calls, queue_replies]
  unfold radio_set_band quiet_events
  have hu2 := hu (radio_set_band_gsm rs).1
  unfold quiet_events at hg hu2
  simp [driver_calls_append, queue_replies_append, hg.1.1, hg.1.2, hu2.1.1, hu2.1.2, hu2.2, hg.2]

theorem set_rat_mode_quiet (rs : ofono_radio_settings) (mode : Int) :
    quiet_events (radio_set_rat_mode rs mode).2 ∧ (radio_set_rat_mode rs mode).1.flags = rs.flags := by
  obtain ⟨f1, _, f3, f4⟩ := set_rat_mode_frame rs mode
  exact ⟨⟨f3, f4⟩, f1⟩

/-- The shape of a completion of a pipeline query that is not an early failure: quiet events
followed by the end of a pipeline step on a record with the flags of the record before. -/
theorem pipeline_completion_shape (drv : ofono_radio_settings_driver) (w : DriverCall)
    (res : DriverResult) (rs : ofono_radio_settings) (hstage : 0 < pipeline_stage w)
    (hres : early_failure (some w) res = false) :
    ∃ pre rs1 tail, quiet_events pre ∧ rs1.flags = rs.flags ∧
      pipeline_tail (pipeline_stage w) rs1 tail ∧
      driver_completion drv w res rs = (tail.1, pre ++ tail.2) := by
  cases w with
  | query_rat_mode =>
    have herr : res.error = false := by simpa [early_failure] using hres
    simp only [driver_completion, radio_rat_mode_query_callback, herr, Bool.false_eq_true,
      if_false]
    exact ⟨_, _, _, (set_rat_mode_quiet rs _).1, (set_rat_mode_quiet rs _).2,
      query_band_tail drv _, rfl⟩
  | query_band =>
    have herr : res.error = false := by simpa [early_failure] using hres
    simp only [driver_completion, radio_band_query_callback, herr, Bool.false_eq_true, if_false]
    have hq := set_band_quiet
      { rs with pending_band_gsm := res.band_gsm, pending_band_umts := res.band_umts }
    exact ⟨_, _, _, hq.1, hq.2, query_fast_dormancy_tail drv _, rfl⟩
  | query_fast_dormancy =>
    have herr : res.error = false := by simpa [early_failure] using hres
    simp only [driver_completion, radio_fast_dormancy_query_callback, herr, Bool.false_eq_true,
      if_false]
    exact ⟨_, _, _, (set_fast_dormancy_quiet rs _).1, (set_fast_dormancy_quiet rs _).2,
      query_available_rats_tail drv _, rfl⟩
  | query_available_rats =>
    simp only [driver_completion, radio_available_rats_query_callback]
    cases res.error
    · exact ⟨[], { rs with available_modes := some (radio_extract_bits 32
          ((res.available_rats % GUINT_MOD) &&& OFONO_RADIO_ACCESS_MODE_ALL)) }, _, ⟨rfl, rfl⟩,
        rfl, send_properties_reply_tail drv _ 4, rfl⟩
    · exact ⟨[], rs, _, ⟨rfl, rfl⟩, rfl, send_properties_reply_tail drv rs 4, rfl⟩
  | query_available_rat_modes =>
    simp only [driver_completion, radio_available_modes_query_callback]
    cases res.error
    · exact ⟨[], { rs with available_modes := some (res.modes.takeWhile (fun m => m != 0)) }, _,
        ⟨rfl, rfl⟩, rfl, send_properties_reply_tail drv _ 4, rfl⟩
    · exact ⟨[], rs, _, ⟨rfl, rfl⟩, rfl, send_properties_reply_tail drv rs 4, rfl⟩
  | set_rat_mode m => simp [pipeline_stage] at hstage
  | set_band g u => simp [pipeline_stage] at hstage
  | set_fast_dormancy e => simp [pipeline_stage] at hstage

theorem call_count_append (c : DriverCall) (a b : List Output) :
    call_count c (a ++ b) = call_count c a + call_count c b := by
  simp [call_count, List.filter_append]

theorem call_count_replied (c : DriverCall) (req : Request) (r : DBusReply) :
    call_count c [Output.replied req r] = 0 := by
  simp [call_count]

theorem call_count_replied_map (c : DriverCall) (l : List Request) (r : DBusReply) :
    call_count c (l.map (fun x => Output.replied x r)) = 0 := by
  induction l with
  | nil => rfl
  | cons x xs ih =>
    have h := call_count_append c [Output.replied x r] (xs.map (fun x => Output.replied x r))
    simp only [List.map_cons]
    rw [show Output.replied x r :: xs.map (fun x => Output.replied x r)
      = [Output.replied x r] ++ xs.map (fun x => Output.replied x r) from rfl, h, ih,
      call_count_replied]

theorem call_count_emitted (c : DriverCall) (e : Event) :
    call_count c [Output.emitted e] = (driver_calls [e]).count c := by
  cases e with
  | driver d =>
    by_cases h : d = c
    · subst h
      simp [call_count, driver_calls]
    · have h2 : ¬ c = d := fun e => h e.symm
      simp [call_count, driver_calls, h, h2]
  | queue_reply r => simp [call_count, driver_calls]
  | queue_reply_all r => simp [call_count, driver_calls]
  | property_changed n v => simp [call_count, driver_calls]
  | storage_sync i k => simp [call_count, driver_calls]

theorem call_count_emitted_map (c : DriverCall) (es : List Event) :
    call_count c (es.map Output.emitted) = (driver_calls es).count c := by
  induction es with
  | nil => rfl
  | cons e es ih =>
    rw [List.map_cons, show Output.emitted e :: es.map Output.emitted
      = [Output.emitted e] ++ es.map Output.emitted from rfl, call_count_append, ih,
      call_count_emitted, show e :: es = [e] ++ es from rfl, driver_calls_append,
      List.count_append]

theorem queue_event_count (c : DriverCall) (q : List Request) (log : List Output) (e : Event) :
    call_count c (queue_event q log e).2 = call_count c log + (driver_calls [e]).count c := by
  cases e with
  | driver d =>
    simp only [queue_event]
    rw [call_count_append, call_count_emitted]
  | queue_reply r =>
    cases q with
    | nil => simp [queue_event, driver_calls]
    | cons req rest =>
      simp only [queue_event]
      rw [call_count_append, call_count_replied]
      simp [driver_calls]
  | queue_reply_all r =>
    cases q with
    | nil => simp [queue_event, driver_calls]
    | cons req rest =>
      simp only [queue_event]
      rw [call_count_append, call_count_append, call_count_replied, call_count_replied_map]
      simp [driver_calls]
  | property_changed n v =>
    simp only [queue_event]
    rw [call_count_append, call_count_emitted]
  | storage_sync i k =>
    simp only [queue_event]
    rw [call_count_append, call_count_emitted]

theorem queue_events_count (c : DriverCall) (q : List Request) (log : List Output)
    (es : List Event) :
    call_count c (queue_events q log es).2 = call_count c log + (driver_calls es).count c := by
  induction es generalizing q log with
  | nil => simp [queue_events, driver_calls]
  | cons e es ih =>
    simp only [queue_events]
    rw [ih, queue_event_count, show e :: es = [e] ++ es from rfl, driver_calls_append,
      List.count_append]
    omega

theorem queue_events_no_reply (q : List Request) (log : List Output) (es : List Event)
    (h : queue_replies es = []) : (queue_events q log es).1 = q := by
  induction es generalizing q log with
  | nil => rfl
  | cons e es ih =>
    cases e with
    | driver d =>
      simp only [queue_events, queue_event]
      exact ih _ _ (by simpa [queue_replies] using h)
    | queue_reply r => simp [queue_replies] at h
    | queue_reply_all r => simp [queue_replies] at h
    | property_changed n v =>
      simp only [queue_events, queue_event]
      exact ih _ _ (by simpa [queue_replies] using h)
    | storage_sync i k =>
      simp only [queue_events, queue_event]
      exact ih _ _ (by simpa [queue_replies] using h)

theorem queue_events_nil (log : List Output) (es : List Event) :
    (queue_events [] log es).1 = [] := by
  induction es generalizing log with
  | nil => rfl
  | cons e es ih =>
    cases e <;> simp only [queue_events, queue_event] <;> exact ih _

theorem queue_events_flush (q : List Request) (log : List Output) (pre : List Event)
    (rep : DBusReply) (hq : ∀ req ∈ q, req = Request.get_properties)
    (hpre : queue_replies pre = []) :
    (queue_events q log (pre ++ [Event.queue_reply_all rep])).1 = [] := by
  induction pre generalizing q log with
  | nil =>
    cases q with
    | nil => rfl
    | cons req rest =>
      simp only [List.nil_append, queue_events, queue_event]
      rw [List.filter_eq_nil_iff]
      intro x hx
      have := hq x (List.mem_cons_of_mem _ hx)
      simp [this]
  | cons e es ih =>
    cases e with
    | driver d =>
      simp only [List.cons_append, queue_events, queue_event]
      exact ih _ _ hq (by simpa [queue_replies] using hpre)
    | queue_reply r => simp [queue_replies] at hpre
    | queue_reply_all r => simp [queue_replies] at hpre
    | property_changed n v =>
      simp only [List.cons_append, queue_events, queue_event]
      exact ih _ _ hq (by simpa [queue_replies] using hpre)
    | storage_sync i k =>
      simp only [List.cons_append, queue_events, queue_event]
      exact ih _ _ hq (by simpa [queue_replies] using hpre)

theorem queue_serve_gets_replied (drv : ofono_radio_settings_driver) (q : List Request)
    (rs : ofono_radio_settings) (log : List Output)
    (hq : ∀ req ∈ q, req = Request.get_properties)
    (h : is_cached rs = true ∨ drv.query_rat_mode = false) :
    ∃ log1, queue_serve drv q rs log = { rs := rs, queue := [], waiting := none, log := log1 } ∧
      ∀ c, call_count c log1 = call_count c log := by
  induction q generalizing log with
  | nil => exact ⟨log, rfl, fun _ => rfl⟩
  | cons req rest ih =>
    have hreq : req = Request.get_properties := hq req (List.mem_cons_self _ _)
    have hrest : ∀ r ∈ rest, r = Request.get_properties :=
      fun r hr => hq r (List.mem_cons_of_mem _ hr)
    subst hreq
    have hh : ∃ r, radio_get_properties_handler drv rs
        = { rs := rs, reply := some r, events := [] } := by
      by_cases hc : is_cached rs = true
      · unfold is_cached at hc
        exact ⟨radio_get_properties_reply drv rs, by simp [radio_get_properties_handler, hc]⟩
      · have hqr : drv.query_rat_mode = false := by
          rcases h with h | h
          · exact absurd h hc
          · exact h
        have hc2 : is_cached rs = false := by simpa using hc
        unfold is_cached at hc2
        exact ⟨DBusReply.error DBusError.not_implemented,
          by simp [radio_get_properties_handler, hc2, hqr]⟩
    obtain ⟨r, hr⟩ := hh
    simp only [queue_serve, run_handler, hr]
    obtain ⟨log1, h1, h2⟩ := ih (log ++ List.map Output.emitted [] ++
      [Output.replied Request.get_properties r]) hrest
    refine ⟨log1, h1, fun c => ?_⟩
    rw [h2 c]
    simp [call_count_append, call_count_replied, call_count]

theorem queue_serve_gets (drv : ofono_radio_settings_driver) (q : List Request)
    (rs : ofono_radio_settings) (log : List Output)
    (hq : ∀ req ∈ q, req = Request.get_properties) :
    (∃ log1, queue_serve drv q rs log = { rs := rs, queue := [], waiting := none, log := log1 } ∧
      ∀ c, call_count c log1 = call_count c log) ∨
    (is_cached rs = false ∧ q ≠ [] ∧
      queue_serve drv q rs log =
        { rs := rs, queue := q, waiting := some DriverCall.query_rat_mode,
          log := log ++ [Output.emitted (Event.driver DriverCall.query_rat_mode)] }) := by
  by_cases h : is_cached rs = true ∨ drv.query_rat_mode = false
  · exact Or.inl (queue_serve_gets_replied drv q rs log hq h)
  · have hc : is_cached rs = false := by
      by_cases hc : is_cached rs = true
      · exact absurd (Or.inl hc) h
      · simpa using hc
    have hqr : drv.query_rat_mode = true := by
      by_cases hqr : drv.query_rat_mode = true
      · exact hqr
      · exact absurd (Or.inr (by simpa using hqr)) h
    cases q with
    | nil => exact Or.inl ⟨log, rfl, fun _ => rfl⟩
    | cons req rest =>
      have hreq : req = Request.get_properties := hq req (List.mem_cons_self _ _)
      subst hreq
      right
      refine ⟨hc, by simp, ?_⟩
      have hh : radio_get_properties_handler drv rs
          = { rs := rs, reply := none, events := [Event.driver DriverCall.query_rat_mode] } := by
        unfold is_cached at hc
        simp [radio_get_properties_handler, hc, hqr]
      simp only [queue_serve, run_handler, hh]
      simp [driver_calls]

theorem pipeline_invariant_request (drv : ofono_radio_settings_driver) (s : Instance)
    (hinv : pipeline_invariant s) :
    pipeline_invariant (queue_request drv s Request.get_properties) := by
  obtain ⟨hgets, hle, hav, hw⟩ := hinv
  unfold queue_request
  by_cases hempty : s.queue.isEmpty = true
  · rw [if_pos hempty]
    have hq : s.queue = [] := by simpa using hempty
    cases hwait : s.waiting with
    | some w =>
      rw [hwait] at hw
      exact absurd hq hw.1
    | none =>
      rw [hwait] at hw
      rcases queue_serve_gets drv [Request.get_properties] s.rs s.log (by simp) with
        ⟨log1, h1, h2⟩ | ⟨hc, _, h3⟩
      · rw [h1]
        refine ⟨by simp, ?_, ?_, ?_⟩
        · intro c hc; simp only; rw [h2]; exact hle c hc
        · simp only; rw [h2, h2]; exact hav
        · simp only
          refine ⟨trivial, ?_⟩
          rcases hw.2 with h | h
          · exact Or.inl h
          · exact Or.inr (fun c => by rw [h2]; exact h c)
      · rw [h3]
        have hzero : ∀ c, call_count c s.log = 0 := by
          rcases hw.2 with h | h
          · rw [hc] at h; exact absurd h (by simp)
          · exact h
        have hnew : ∀ c, call_count c
            (s.log ++ [Output.emitted (Event.driver DriverCall.query_rat_mode)])
            = if c = DriverCall.query_rat_mode then 1 else 0 := by
          intro c
          rw [call_count_append, hzero, call_count_emitted]
          by_cases h : c = DriverCall.query_rat_mode
          · simp [h, driver_calls]
          · have h2 : ¬ DriverCall.query_rat_mode = c := fun e => h e.symm
            simp [h, h2, driver_calls]
        refine ⟨by simp, ?_, ?_, ?_⟩
        · intro c _; simp only; rw [hnew]; split <;> omega
        · simp only; rw [hnew, hnew]; simp
        · simp only
          refine ⟨by simp, hc, by decide, ?_, ?_⟩
          · rw [hnew]; simp
          · intro c hne _; rw [hnew]; simp [hne]
  · rw [if_neg hempty]
    have hq : s.queue ≠ [] := by simpa using hempty
    refine ⟨?_, hle, hav, ?_⟩
    · intro req hreq
      simp only [List.mem_append, List.mem_singleton] at hreq
      rcases hreq with h | h
      · exact hgets req h
      · exact h
    · simp only
      cases hwait : s.waiting with
      | none => rw [hwait] at hw; exact absurd hw.1 hq
      | some w =>
        rw [hwait] at hw
        simp only
        exact ⟨by simp, hw.2⟩

theorem pipeline_invariant_completion (drv : ofono_radio_settings_driver) (s : Instance)
    (res : DriverResult) (hinv : pipeline_invariant s)
    (hres : early_failure s.waiting res = false) :
    pipeline_invariant (driver_completes drv s res) := by
  have hinv0 := hinv
  obtain ⟨hgets, hle, hav, hw⟩ := hinv
  unfold driver_completes
  cases hwait : s.waiting with
  | none => simpa using hinv0
  | some w =>
    rw [hwait] at hw hres
    obtain ⟨hqne, hunc, hstage, hone, hlater⟩ := hw
    obtain ⟨pre, rs1, tail, ⟨hpre1, hpre2⟩, hflags, htail, hcomp⟩ :=
      pipeline_completion_shape drv w res s.rs hstage hres
    simp only [hcomp]
    rcases htail with ⟨c, hc, hlt⟩ | ⟨rep, hrep⟩
    · -- the next query of the pipeline is invoked
      rw [hc]
      have hcalls : driver_calls (pre ++ [Event.driver c]) = [c] := by
        rw [driver_calls_append, hpre1]; rfl
      have hrepl : queue_replies (pre ++ [Event.driver c]) = [] := by
        rw [queue_replies_append, hpre2]; rfl
      simp only [hrepl, hcalls, List.isEmpty_nil, if_true, List.head?_cons]
      have hcount : ∀ x, call_count x (queue_events s.queue s.log (pre ++ [Event.driver c])).2
          = call_count x s.log + if c = x then 1 else 0 := by
        intro x
        rw [queue_events_count, hcalls]
        by_cases h : c = x
        · simp [h]
        · have h2 : ¬ x = c := fun e => h e.symm
          simp [h, h2, List.count_cons]
      have hcw : c ≠ w := by
        intro e; rw [e] at hlt; omega
      have hc0 : call_count c s.log = 0 := hlater c hcw (by omega)
      refine ⟨?_, ?_, ?_, ?_⟩
      · simp only
        rw [queue_events_no_reply _ _ _ hrepl]
        exact hgets
      · intro x hx
        simp only
        rw [hcount]
        by_cases h : c = x
        · subst h; simp [hc0]
        · simp [h]; exact hle x hx
      · simp only
        rw [hcount, hcount]
        by_cases h1 : c = DriverCall.query_available_rats
        · subst h1
          have h2 : call_count DriverCall.query_available_rat_modes s.log = 0 :=
            hlater _ (by intro e; rw [← e] at hlt; simp [pipeline_stage] at hlt)
              (by simp [pipeline_stage] at hlt ⊢; omega)
          simp [hc0, h2]
        · by_cases h2 : c = DriverCall.query_available_rat_modes
          · subst h2
            have h3 : call_count DriverCall.query_available_rats s.log = 0 :=
              hlater _ (by intro e; rw [← e] at hlt; simp [pipeline_stage] at hlt)
                (by simp [pipeline_stage] at hlt ⊢; omega)
            simp [hc0, h3]
          · simp [h1, h2]; exact hav
      · simp only
        rw [queue_events_no_reply _ _ _ hrepl]
        refine ⟨hqne, ?_, by omega, ?_, ?_⟩
        · unfold is_cached at hunc ⊢
          rw [hflags]; exact hunc
        · rw [hcount]; simp [hc0]
        · intro x hxc hxs
          rw [hcount]
          have hxw : x ≠ w := by
            intro e; rw [e] at hxs; omega
          have : ¬ c = x := fun e => hxc e.symm
          simp [this]
          exact hlater x hxw (by omega)
    · -- the cached flag is set and the queue is flushed
      rw [hrep]
      have hcalls : driver_calls (pre ++ [Event.queue_reply_all rep]) = [] := by
        rw [driver_calls_append, hpre1]; rfl
      have hrepl : queue_replies (pre ++ [Event.queue_reply_all rep]) = [rep] := by
        rw [queue_replies_append, hpre2]; rfl
      simp only [hrepl, List.isEmpty_cons, Bool.false_eq_true, if_false]
      rw [queue_events_flush s.queue s.log pre rep hgets hpre2]
      simp only [queue_serve]
      have hcount : ∀ x, call_count x
          (queue_events s.queue s.log (pre ++ [Event.queue_reply_all rep])).2
          = call_count x s.log := by
        intro x
        rw [queue_events_count, hcalls]
        simp
      refine ⟨by simp, ?_, ?_, ?_⟩
      · intro x hx; simp only; rw [hcount]; exact hle x hx
      · simp only; rw [hcount, hcount]; exact hav
      · simp only
        refine ⟨trivial, Or.inl ?_⟩
        unfold is_cached
        simpa using cached_after_set rs1.flags

theorem set_property_handler_flags (drv : ofono_radio_settings_driver)
    (rs : ofono_radio_settings) (msg : DBusMessage) :
    (radio_set_property_handler drv rs msg).rs.flags = rs.flags := by
  unfold radio_set_property_handler
  split
  · split
    · rfl
    · split
      · split
        · rcases set_technology_preference_cases drv rs ‹_› with ⟨r, h⟩ | ⟨_, _, _, _, _, _, _, h⟩ <;>
            (rw [h]; try rfl)
        · split
          · rcases set_gsm_band_cases drv rs ‹_› with ⟨r, h⟩ | ⟨_, _, _, _, _, _, h⟩ <;>
              (rw [h]; try rfl)
          · split
            · rcases set_umts_band_cases drv rs ‹_› with ⟨r, h⟩ | ⟨_, _, _, _, _, _, h⟩ <;>
                (rw [h]; try rfl)
            · split
              · rcases set_fast_dormancy_property_cases drv rs ‹_› with
                  ⟨r, h⟩ | ⟨_, _, _, _, h⟩ <;> (rw [h]; try rfl)
              · rfl
      · rfl
  · rfl

theorem run_handler_flags (drv : ofono_radio_settings_driver) (rs : ofono_radio_settings)
    (req : Request) : (run_handler drv rs req).rs.flags = rs.flags := by
  cases req with
  | get_properties =>
    simp only [run_handler, radio_get_properties_handler]
    split
    · rfl
    · split <;> rfl
  | set_property msg => exact set_property_handler_flags drv rs msg

theorem queue_serve_flags (drv : ofono_radio_settings_driver) (q : List Request)
    (rs : ofono_radio_settings) (log : List Output) :
    (queue_serve drv q rs log).rs.flags = rs.flags := by
  induction q generalizing rs log with
  | nil => rfl
  | cons req rest ih =>
    simp only [queue_serve]
    split
    · rw [ih]; exact run_handler_flags drv rs req
    · exact run_handler_flags drv rs req

theorem is_cached_of_flags (a b : ofono_radio_settings)
    (h : b.flags = a.flags ∨ b.flags = a.flags ||| RADIO_SETTINGS_FLAG_CACHED)
    (ha : is_cached a = true) : is_cached b = true := by
  unfold is_cached at ha ⊢
  rcases h with h | h
  · rw [h]; exact ha
  · rw [h]; simpa using cached_after_set a.flags

theorem driver_completion_flags (drv : ofono_radio_settings_driver) (c : DriverCall)
    (res : DriverResult) (rs : ofono_radio_settings) :
    (driver_completion drv c res rs).1.flags = rs.flags ∨
    (driver_completion drv c res rs).1.flags = rs.flags ||| RADIO_SETTINGS_FLAG_CACHED := by
  by_cases hstage : 0 < pipeline_stage c
  · by_cases hres : early_failure (some c) res = false
    · obtain ⟨pre, rs1, tail, _, hflags, htail, hcomp⟩ :=
        pipeline_completion_shape drv c res rs hstage hres
      rw [hcomp]
      rcases htail with ⟨d, hd, _⟩ | ⟨rep, hrep⟩
      · left; rw [hd]; exact hflags
      · right; rw [hrep]; simp only; rw [hflags]
    · left
      have herr : res.error = true := by
        cases he : res.error
        · simp [early_failure, he] at hres
        · rfl
      cases c with
      | query_rat_mode => simp [driver_completion, radio_rat_mode_query_callback, herr]
      | query_band => simp [driver_completion, radio_band_query_callback, herr]
      | query_fast_dormancy =>
        simp [driver_completion, radio_fast_dormancy_query_callback, herr]
      | query_available_rats => simp [early_failure] at hres
      | query_available_rat_modes => simp [early_failure] at hres
      | set_rat_mode m => simp [pipeline_stage] at hstage
      | set_band g u => simp [pipeline_stage] at hstage
      | set_fast_dormancy e => simp [pipeline_stage] at hstage
  · left
    cases c with
    | query_rat_mode => simp [pipeline_stage] at hstage
    | query_band => simp [pipeline_stage] at hstage
    | query_fast_dormancy => simp [pipeline_stage] at hstage
    | query_available_rats => simp [pipeline_stage] at hstage
    | query_available_rat_modes => simp [pipeline_stage] at hstage
    | set_rat_mode m =>
      simp only [driver_completion, radio_mode_set_callback]
      split
      · rfl
      · exact (set_rat_mode_quiet rs _).2
    | set_band g u =>
      simp only [driver_completion, radio_band_set_callback]
      split
      · rfl
      · exact (set_band_quiet rs).2
    | set_fast_dormancy e =>
      simp only [driver_completion, radio_fast_dormancy_set_callback]
      split
      · rfl
      · exact (set_fast_dormancy_quiet rs _).2

theorem instance_step_cached (drv : ofono_radio_settings_driver) (s : Instance) (i : Input)
    (h : is_cached s.rs = true) : is_cached (instance_step drv s i).rs = true := by
  cases i with
  | request req =>
    simp only [instance_step, queue_request]
    split
    · exact is_cached_of_flags s.rs _ (Or.inl (queue_serve_flags drv _ _ _)) h
    · exact h
  | completion res =>
    simp only [instance_step, driver_completes]
    split
    · exact h
    · rename_i c _
      have hc := is_cached_of_flags s.rs _ (driver_completion_flags drv c res s.rs) h
      split
      · exact hc
      · exact is_cached_of_flags _ _ (Or.inl (queue_serve_flags drv _ _ _)) hc

theorem instance_run_cached (drv : ofono_radio_settings_driver) (s : Instance)
    (inputs : List Input) (h : is_cached s.rs = true) :
    is_cached (instance_run drv s inputs).rs = true := by
  induction inputs generalizing s with
  | nil => exact h
  | cons i rest ih =>
    simp only [instance_run, List.foldl_cons]
    exact ih _ (instance_step_cached drv s i h)

theorem pipeline_invariant_run (drv : ofono_radio_settings_driver) (s : Instance)
    (inputs : List Input) (hinv : pipeline_invariant s)
    (hin : pipeline_inputs drv s inputs = true) :
    pipeline_invariant (instance_run drv s inputs) := by
  induction inputs generalizing s with
  | nil => exact hinv
  | cons i rest ih =>
    simp only [instance_run, List.foldl_cons]
    cases i with
    | request req =>
      cases req with
      | get_properties =>
        simp only [pipeline_inputs] at hin
        exact ih _ (pipeline_invariant_request drv s hinv) hin
      | set_property msg => simp [pipeline_inputs] at hin
    | completion res =>
      simp only [pipeline_inputs, Bool.and_eq_true, Bool.not_eq_true'] at hin
      exact ih _ (pipeline_invariant_completion drv s res hinv hin.1) hin.2

theorem pipeline_invariant_new (rs : ofono_radio_settings) :
    pipeline_invariant (instance_new rs) := by
  refine ⟨by simp [instance_new], ?_, ?_, ?_⟩
  · intro c _; simp [instance_new, call_count]
  · simp [instance_new, call_count]
  · simp only [instance_new]
    exact ⟨trivial, Or.inr (fun c => by simp [call_count])⟩

/-- Counterexample to C8 as stated: when the RAT-mode query of a first `GetProperties` fails, a
second `GetProperties` starts the pipeline again, so `query_rat_mode` is invoked twice in the
life of the instance. -/
theorem cache_once_counterexample :
    call_count DriverCall.query_rat_mode
      (instance_run example_legacy_driver (instance_new ofono_radio_settings_create)
        [Input.request Request.get_properties, Input.completion driver_failure,
         Input.request Request.get_properties]).log = 2 := by
  decide

/-- C8 (amended): for any sequence of `GetProperties` requests and driver completions in which
no RAT-mode, band or fast-dormancy query fails, each pipeline query of the driver is invoked at
most once over the life of the instance (the two available-technology queries together at most
once). For any sequence of inputs whatever, once the cached flag is set it is never cleared, and
on a cached record `GetProperties` is answered from the state at once, without a driver
operation. -/
theorem cache_once (drv : ofono_radio_settings_driver) (rs0 : ofono_radio_settings)
    (inputs : List Input)
    (hin : pipeline_inputs drv (instance_new rs0) inputs = true) :
    (∀ c, 0 < pipeline_stage c →
      call_count c (instance_run drv (instance_new rs0) inputs).log ≤ 1) ∧
    (call_count DriverCall.query_available_rats
        (instance_run drv (instance_new rs0) inputs).log +
      call_count DriverCall.query_available_rat_modes
        (instance_run drv (instance_new rs0) inputs).log ≤ 1) ∧
    (∀ (s : Instance) (more : List Input), is_cached s.rs = true →
      is_cached (instance_run drv s more).rs = true) ∧
    (∀ rs : ofono_radio_settings, is_cached rs = true →
      radio_get_properties_handler drv rs
        = handler_reply rs (radio_get_properties_reply drv rs)) ∧
    (∀ s : Instance, is_cached s.rs = true → s.queue = [] →
      instance_step drv s (Input.request Request.get_properties)
        = { rs := s.rs, queue := [], waiting := none,
            log := s.log ++
              [Output.replied Request.get_properties (radio_get_properties_reply drv s.rs)] }) := by
  have hinv := pipeline_invariant_run drv (instance_new rs0) inputs
    (pipeline_invariant_new rs0) hin
  have hget : ∀ rs : ofono_radio_settings, is_cached rs = true →
      radio_get_properties_handler drv rs
        = handler_reply rs (radio_get_properties_reply drv rs) := by
    intro rs hc
    unfold is_cached at hc
    simp [radio_get_properties_handler, handler_reply, hc]
  refine ⟨hinv.2.1, hinv.2.2.1, fun s more h => instance_run_cached drv s more h, hget, ?_⟩
  intro s hc hq
  simp [instance_step, queue_request, hq, queue_serve, run_handler, hget s.rs hc, handler_reply]

/-- Witness of `cache_once`: two `GetProperties` requests and the four successful completions of
a full pipeline on `example_legacy_driver`, then a third request. -/
theorem cache_once_witness :
    pipeline_inputs example_legacy_driver (instance_new ofono_radio_settings_create)
      [Input.request Request.get_properties, Input.request Request.get_properties,
       Input.completion driver_success, Input.completion driver_success,
       Input.completion driver_success, Input.completion driver_success,
       Input.request Request.get_properties] = true ∧
    (∀ c, 0 < pipeline_stage c →
      call_count c (instance_run example_legacy_driver (instance_new ofono_radio_settings_create)
        [Input.request Request.get_properties, Input.request Request.get_properties,
         Input.completion driver_success, Input.completion driver_success,
         Input.completion driver_success, Input.completion driver_success,
         Input.request Request.get_properties]).log ≤ 1) :=
  ⟨by decide,
    (cache_once example_legacy_driver ofono_radio_settings_create
      [Input.request Request.get_properties, Input.request Request.get_properties,
       Input.completion driver_success, Input.completion driver_success,
       Input.completion driver_success, Input.completion driver_success,
       Input.request Request.get_properties] (by decide)).1⟩

/-- C11: when the driver does not implement the set operation of a field (`set_rat_mode` for
`TechnologyPreference`, `set_band` for `GsmBand` and `UmtsBand`, `set_fast_dormancy` for
`FastDormancy`), `SetProperty` on that field is answered with the not-implemented error whatever
the value, no driver operation is invoked and the state is unchanged. -/
theorem missing_set_operation (drv : ofono_radio_settings_driver) (rs : ofono_radio_settings)
    (var : DBusArg) :
    (drv.set_rat_mode = false →
      radio_set_property_handler drv rs (set_property_message "TechnologyPreference" var)
        = handler_reply rs (DBusReply.error DBusError.not_implemented)) ∧
    (drv.set_band = false →
      radio_set_property_handler drv rs (set_property_message "GsmBand" var)
        = handler_reply rs (DBusReply.error DBusError.not_implemented) ∧
      radio_set_property_handler drv rs (set_property_message "UmtsBand" var)
        = handler_reply rs (DBusReply.error DBusError.not_implemented)) ∧
    (drv.set_fast_dormancy = false →
      radio_set_property_handler drv rs (set_property_message "FastDormancy" var)
        = handler_reply rs (DBusReply.error DBusError.not_implemented)) ∧
    (handler_reply rs (DBusReply.error DBusError.not_implemented)).rs = rs ∧
    (handler_reply rs (DBusReply.error DBusError.not_implemented)).events = [] := by
  refine ⟨?_, ?_, ?_, rfl, rfl⟩
  · intro h
    rw [set_property_message_dispatch]
    simp [radio_set_technology_preference, h]
  · intro h
    rw [set_property_message_gsm, set_property_message_umts]
    simp [radio_set_gsm_band, radio_set_umts_band, h]
  · intro h
    rw [set_property_message_fast_dormancy]
    simp [radio_set_fast_dormancy_property, h]

/-- Witness of `missing_set_operation`: the RIL driver has neither `set_band` nor
`set_fast_dormancy`. -/
theorem missing_set_operation_witness :
    (radio_set_property_handler (ril_radio_settings_driver (ril_radio_settings_new [1, 2, 3]))
        ofono_radio_settings_create (set_property_message "GsmBand" (DBusArg.string "900P"))
      = handler_reply ofono_radio_settings_create (DBusReply.error DBusError.not_implemented) ∧
    radio_set_property_handler (ril_radio_settings_driver (ril_radio_settings_new [1, 2, 3]))
        ofono_radio_settings_create (set_property_message "UmtsBand" (DBusArg.string "900P"))
      = handler_reply ofono_radio_settings_create (DBusReply.error DBusError.not_implemented)) ∧
    radio_set_property_handler (ril_radio_settings_driver (ril_radio_settings_new [1, 2, 3]))
        ofono_radio_settings_create (set_property_message "FastDormancy" (DBusArg.string "900P"))
      = handler_reply ofono_radio_settings_create (DBusReply.error DBusError.not_implemented) :=
  ⟨(missing_set_operation (ril_radio_settings_driver (ril_radio_settings_new [1, 2, 3]))
      ofono_radio_settings_create (DBusArg.string "900P")).2.1 rfl,
    (missing_set_operation (ril_radio_settings_driver (ril_radio_settings_new [1, 2, 3]))
      ofono_radio_settings_create (DBusArg.string "900P")).2.2.1 rfl⟩

theorem requested_mode_roundtrip_all :
    ∀ m ∈ [(-4 : Int), -2, -1, 0, 1, 2, 3, 4, 5, 6, 7],
      (radio_access_mode_to_string m).bind requested_mode = some m := by
  decide

theorem mode_strings_distinct :
    ∀ m ∈ [(-4 : Int), -2, -1, 0, 1, 2, 3, 4, 5, 6, 7],
      ∀ n ∈ [(-4 : Int), -2, -1, 0, 1, 2, 3, 4, 5, 6, 7],
        radio_access_mode_to_string m = radio_access_mode_to_string n → m = n := by
  decide

/-- C12: for every mode among -4 (lte), -2 (umts), -1 (gsm), 0 (any) and 1..7, the mode has a
string, and reading that string the way `SetProperty` and the settings loader do (legacy tag
first and negated, `+`-joined combination second) yields the same mode; so distinct modes have
distinct strings, and `"+lte+umts+gsm"` differs from `"+umts+gsm"`. -/
theorem technology_string_roundtrip (m : Int)
    (hm : m ∈ [(-4 : Int), -2, -1, 0, 1, 2, 3, 4, 5, 6, 7]) :
    (∃ s, radio_access_mode_to_string m = some s ∧ requested_mode s = some m) ∧
    (∀ n ∈ [(-4 : Int), -2, -1, 0, 1, 2, 3, 4, 5, 6, 7],
      radio_access_mode_to_string m = radio_access_mode_to_string n → m = n) ∧
    radio_access_mode_to_string 7 = some "+lte+umts+gsm" ∧
    radio_access_mode_to_string 3 = some "+umts+gsm" ∧
    radio_access_mode_to_string 7 ≠ radio_access_mode_to_string 3 := by
  refine ⟨?_, mode_strings_distinct m hm, by decide, by decide, by decide⟩
  have h := requested_mode_roundtrip_all m hm
  cases hs : radio_access_mode_to_string m with
  | none => rw [hs] at h; simp at h
  | some s => rw [hs] at h; exact ⟨s, rfl, by simpa using h⟩

/-- Witness of `technology_string_roundtrip`: the legacy tag LTE. -/
theorem technology_string_roundtrip_witness :
    (-4 : Int) ∈ [(-4 : Int), -2, -1, 0, 1, 2, 3, 4, 5, 6, 7] ∧
    ∃ s, radio_access_mode_to_string (-4) = some s ∧ requested_mode s = some (-4) :=
  ⟨by decide, (technology_string_roundtrip (-4) (by decide)).1⟩

theorem band_gsm_from_string_cases (s : String) (b : Int)
    (h : radio_band_gsm_from_string s = some b) : radio_band_gsm_to_string b = some s := by
  unfold radio_band_gsm_from_string at h
  repeat' split at h
  all_goals first
    | (simp at h; subst h; subst_vars; decide)
    | (simp at h)

theorem band_umts_from_string_cases (s : String) (b : Int)
    (h : radio_band_umts_from_string s = some b) : radio_band_umts_to_string b = some s := by
  unfold radio_band_umts_from_string at h
  repeat' split at h
  all_goals first
    | (simp at h; subst h; subst_vars; decide)
    | (simp at h)

/-- C20: band strings round-trip in both directions. For each of the six GSM bands the string of
the band reads back as the band, and every string that `radio_band_gsm_from_string` accepts is
the string of its result; a string it rejects makes `SetProperty("GsmBand", s)` answer
invalid-arguments with no driver operation and no state change (on a driver that implements
`set_band`). The same holds for the UMTS band pair. -/
theorem band_string_roundtrip (drv : ofono_radio_settings_driver) (rs : ofono_radio_settings)
    (s : String) (b : Int) (hset : drv.set_band = true) :
    (b ∈ [(0 : Int), 1, 2, 3, 4, 5] →
      (radio_band_gsm_to_string b).bind radio_band_gsm_from_string = some b ∧
      (radio_band_umts_to_string b).bind radio_band_umts_from_string = some b) ∧
    (radio_band_gsm_from_string s = some b → radio_band_gsm_to_string b = some s) ∧
    (radio_band_umts_from_string s = some b → radio_band_umts_to_string b = some s) ∧
    (radio_band_gsm_from_string s = none →
      radio_set_property_handler drv rs (set_property_message "GsmBand" (DBusArg.string s))
        = handler_reply rs (DBusReply.error DBusError.invalid_args)) ∧
    (radio_band_umts_from_string s = none →
      radio_set_property_handler drv rs (set_property_message "UmtsBand" (DBusArg.string s))
        = handler_reply rs (DBusReply.error DBusError.invalid_args)) := by
  refine ⟨?_, band_gsm_from_string_cases s b, band_umts_from_string_cases s b, ?_, ?_⟩
  · intro hb
    have hall : ∀ x ∈ [(0 : Int), 1, 2, 3, 4, 5],
        (radio_band_gsm_to_string x).bind radio_band_gsm_from_string = some x ∧
        (radio_band_umts_to_string x).bind radio_band_umts_from_string = some x := by
      decide
    exact hall b hb
  · intro h
    rw [set_property_message_gsm]
    simp [radio_set_gsm_band, hset, h]
  · intro h
    rw [set_property_message_umts]
    simp [radio_set_umts_band, hset, h]

/-- Witness of `band_string_roundtrip`: the string `"1700AWS"` is a UMTS band and no GSM band. -/
theorem band_string_roundtrip_witness :
    radio_band_umts_to_string 3 = some "1700AWS" ∧
    radio_set_property_handler example_legacy_driver ofono_radio_settings_create
        (set_property_message "GsmBand" (DBusArg.string "1700AWS"))
      = handler_reply ofono_radio_settings_create (DBusReply.error DBusError.invalid_args) :=
  ⟨(band_string_roundtrip example_legacy_driver ofono_radio_settings_create "1700AWS" 3
      rfl).2.2.1 (by decide),
    (band_string_roundtrip example_legacy_driver ofono_radio_settings_create "1700AWS" 3
      rfl).2.2.2.1 (by decide)⟩

theorem band_gsm_valid_iff (b : Int) :
    (radio_band_gsm_to_string b).isSome = true ↔ b ∈ [(0 : Int), 1, 2, 3, 4, 5] := by
  unfold radio_band_gsm_to_string OFONO_RADIO_BAND_GSM_ANY OFONO_RADIO_BAND_GSM_850
    OFONO_RADIO_BAND_GSM_900P OFONO_RADIO_BAND_GSM_900E OFONO_RADIO_BAND_GSM_1800
    OFONO_RADIO_BAND_GSM_1900
  constructor
  · intro h
    repeat' split at h
    all_goals first
      | (subst_vars; decide)
      | (simp at h)
  · intro h
    simp only [List.mem_cons, List.mem_singleton, List.not_mem_nil, or_false] at h
    rcases h with rfl | rfl | rfl | rfl | rfl | rfl <;> decide

theorem band_umts_valid_iff (b : Int) :
    (radio_band_umts_to_string b).isSome = true ↔ b ∈ [(0 : Int), 1, 2, 3, 4, 5] := by
  unfold radio_band_umts_to_string OFONO_RADIO_BAND_UMTS_ANY OFONO_RADIO_BAND_UMTS_850
    OFONO_RADIO_BAND_UMTS_900 OFONO_RADIO_BAND_UMTS_1700AWS OFONO_RADIO_BAND_UMTS_1900
    OFONO_RADIO_BAND_UMTS_2100
  constructor
  · intro h
    repeat' split at h
    all_goals first
      | (subst_vars; decide)
      | (simp at h)
  · intro h
    simp only [List.mem_cons, List.mem_singleton, List.not_mem_nil, or_false] at h
    rcases h with rfl | rfl | rfl | rfl | rfl | rfl <;> decide

/-- The confirmed GSM band that `radio_load_settings` reads from an opened key file. -/
theorem load_settings_band_gsm (drv : ofono_radio_settings_driver) (rs : ofono_radio_settings)
    (kf : GKeyFile) (imsi : String) :
    (radio_load_settings drv rs (some kf) imsi).band_gsm =
      (match kf.GsmBand with
       | some b => if b ∈ [(0 : Int), 1, 2, 3, 4, 5] then b else OFONO_RADIO_BAND_GSM_ANY
       | none => OFONO_RADIO_BAND_GSM_ANY) := by
  simp only [radio_load_settings]
  cases h : kf.GsmBand with
  | none => simp
  | some b =>
    by_cases hb : b ∈ [(0 : Int), 1, 2, 3, 4, 5]
    · have := (band_gsm_valid_iff b).mpr hb
      simp [this, hb]
    · have : (radio_band_gsm_to_string b).isSome = false := by
        cases hv : (radio_band_gsm_to_string b).isSome
        · rfl
        · exact absurd ((band_gsm_valid_iff b).mp hv) hb
      simp [this, hb]

/-- The confirmed UMTS band that `radio_load_settings` reads from an opened key file. -/
theorem load_settings_band_umts (drv : ofono_radio_settings_driver) (rs : ofono_radio_settings)
    (kf : GKeyFile) (imsi : String) :
    (radio_load_settings drv rs (some kf) imsi).band_umts =
      (match kf.UmtsBand with
       | some b => if b ∈ [(0 : Int), 1, 2, 3, 4, 5] then b else OFONO_RADIO_BAND_UMTS_ANY
       | none => OFONO_RADIO_BAND_UMTS_ANY) := by
  have hkf : ∀ k1 : GKeyFile, k1.UmtsBand = kf.UmtsBand →
      (match k1.UmtsBand with
        | some b => (radio_band_umts_to_string b).isSome
        | none => false) =
      (match kf.UmtsBand with
        | some b => (radio_band_umts_to_string b).isSome
        | none => false) := by
    intro k1 h; rw [h]
  simp only [radio_load_settings]
  have hsame : (if (match kf.GsmBand with
        | some b => (radio_band_gsm_to_string b).isSome
        | none => false) = true then kf
      else { kf with GsmBand := some (if (match kf.GsmBand with
        | some b => (radio_band_gsm_to_string b).isSome
        | none => false) = true then kf.GsmBand.getD 0 else OFONO_RADIO_BAND_GSM_ANY) }).UmtsBand
      = kf.UmtsBand := by
    split <;> rfl
  rw [hsame]
  cases h : kf.UmtsBand with
  | none => simp
  | some b =>
    by_cases hb : b ∈ [(0 : Int), 1, 2, 3, 4, 5]
    · have := (band_umts_valid_iff b).mpr hb
      simp [this, hb]
    · have : (radio_band_umts_to_string b).isSome = false := by
        cases hv : (radio_band_umts_to_string b).isSome
        · rfl
        · exact absurd ((band_umts_valid_iff b).mp hv) hb
      simp [this, hb]

theorem load_settings_mode_absent (drv : ofono_radio_settings_driver) (rs : ofono_radio_settings)
    (kf : GKeyFile) (imsi : String) (h : kf.TechnologyPreference = none) :
    (radio_load_settings drv rs (some kf) imsi).mode = OFONO_RADIO_ACCESS_MODE_ANY := by
  simp only [radio_load_settings]
  have hsame : ∀ (c1 c2 : Bool) (g u : Int),
      (if c2 = true then (if c1 = true then kf else { kf with GsmBand := some g })
        else { (if c1 = true then kf else { kf with GsmBand := some g }) with
          UmtsBand := some u }).TechnologyPreference = none := by
    intro c1 c2 g u
    cases c1 <;> cases c2 <;> simp [h]
  rw [hsame]
  rfl

/-- C16: after `radio_load_settings` on the created record, when the storage cannot be opened
the technology mode and both bands are ANY; when it is opened, a band key that is absent or
unreadable, or whose integer is not one of the six defined band values, gives ANY, a defined
value is taken as it is, and an absent or unreadable `TechnologyPreference` gives mode ANY. In
every case the confirmed bands are defined band values and the pending bands equal them. -/
theorem load_settings_defaults (drv : ofono_radio_settings_driver) (kf : GKeyFile)
    (store : Option GKeyFile) (imsi : String) :
    ((radio_load_settings drv ofono_radio_settings_create none imsi).mode
        = OFONO_RADIO_ACCESS_MODE_ANY ∧
      (radio_load_settings drv ofono_radio_settings_create none imsi).band_gsm
        = OFONO_RADIO_BAND_GSM_ANY ∧
      (radio_load_settings drv ofono_radio_settings_create none imsi).band_umts
        = OFONO_RADIO_BAND_UMTS_ANY) ∧
    ((radio_load_settings drv ofono_radio_settings_create (some kf) imsi).band_gsm =
      (match kf.GsmBand with
       | some b => if b ∈ [(0 : Int), 1, 2, 3, 4, 5] then b else OFONO_RADIO_BAND_GSM_ANY
       | none => OFONO_RADIO_BAND_GSM_ANY)) ∧
    ((radio_load_settings drv ofono_radio_settings_create (some kf) imsi).band_umts =
      (match kf.UmtsBand with
       | some b => if b ∈ [(0 : Int), 1, 2, 3, 4, 5] then b else OFONO_RADIO_BAND_UMTS_ANY
       | none => OFONO_RADIO_BAND_UMTS_ANY)) ∧
    (kf.TechnologyPreference = none →
      (radio_load_settings drv ofono_radio_settings_create (some kf) imsi).mode
        = OFONO_RADIO_ACCESS_MODE_ANY) ∧
    ((radio_band_gsm_to_string
        (radio_load_settings drv ofono_radio_settings_create store imsi).band_gsm).isSome = true ∧
      (radio_band_umts_to_string
        (radio_load_settings drv ofono_radio_settings_create store imsi).band_umts).isSome = true ∧
      (radio_load_settings drv ofono_radio_settings_create store imsi).pending_band_gsm
        = (radio_load_settings drv ofono_radio_settings_create store imsi).band_gsm ∧
      (radio_load_settings drv ofono_radio_settings_create store imsi).pending_band_umts
        = (radio_load_settings drv ofono_radio_settings_create store imsi).band_umts) := by
  refine ⟨⟨rfl, rfl, rfl⟩, load_settings_band_gsm drv _ kf imsi,
    load_settings_band_umts drv _ kf imsi, load_settings_mode_absent drv _ kf imsi, ?_⟩
  cases store with
  | none =>
    have hg : (radio_band_gsm_to_string OFONO_RADIO_BAND_GSM_ANY).isSome = true := by decide
    have hu : (radio_band_umts_to_string OFONO_RADIO_BAND_UMTS_ANY).isSome = true := by decide
    exact ⟨hg, hu, rfl, rfl⟩
  | some k =>
    refine ⟨?_, ?_, rfl, rfl⟩
    · rw [load_settings_band_gsm, band_gsm_valid_iff]
      cases k.GsmBand with
      | none => decide
      | some b =>
        simp only
        split
        · assumption
        · decide
    · rw [load_settings_band_umts, band_umts_valid_iff]
      cases k.UmtsBand with
      | none => decide
      | some b =>
        simp only
        split
        · assumption
        · decide

/-- Witness of `load_settings_defaults`: a key file with the undefined GSM band 9 and no
technology preference. -/
theorem load_settings_defaults_witness :
    (radio_load_settings example_legacy_driver ofono_radio_settings_create
        (some { GsmBand := some 9, UmtsBand := none, TechnologyPreference := none }) "imsi").mode
      = OFONO_RADIO_ACCESS_MODE_ANY :=
  (load_settings_defaults example_legacy_driver
    { GsmBand := some 9, UmtsBand := none, TechnologyPreference := none } none "imsi").2.2.2.1 rfl

theorem extract_bits_cases :
    ∀ x ∈ [(0 : Nat), 1, 2, 3, 4, 5, 6, 7],
      radio_extract_bits 32 x = available_bits_spec x ∧
      (radio_extract_bits 32 x).length = popcount3 x ∧
      (∀ e ∈ radio_extract_bits 32 x, e = 1 ∨ e = 2 ∨ e = 4) ∧
      (radio_extract_bits 32 x).Pairwise (fun a b => a < b) ∧
      ((radio_extract_bits 32 x).map Int.toNat).foldl (fun a b => a ||| b) 0 = x := by
  decide

theorem and_seven_mem (b : Nat) :
    (b % GUINT_MOD) &&& OFONO_RADIO_ACCESS_MODE_ALL ∈ [(0 : Nat), 1, 2, 3, 4, 5, 6, 7] := by
  have h : (b % GUINT_MOD) &&& OFONO_RADIO_ACCESS_MODE_ALL ≤ 7 := Nat.and_le_right
  generalize (b % GUINT_MOD) &&& OFONO_RADIO_ACCESS_MODE_ALL = x at h
  interval_cases x <;> decide

/-- C18: when both `query_available_rat_modes` and `query_available_rats` are implemented only
the former is invoked. When the legacy `query_available_rats` answers with the bitmask `b`, the
available modes become the set bits of `b & 7` in strictly increasing order: the list of those
among 1, 2, 4 that are set in `b & 7`, its length is the population count of `b & 7`, every entry
is a power of two and the bitwise OR of the entries is `b & 7`. -/
theorem available_rats_bits (drv : ofono_radio_settings_driver) (rs : ofono_radio_settings)
    (b : Nat) :
    (drv.query_available_rat_modes = true →
      ¬ DriverCall.query_available_rats ∈ driver_calls (radio_query_available_rats drv rs).2 ∧
      (rs.available_modes = none →
        driver_calls (radio_query_available_rats drv rs).2
          = [DriverCall.query_available_rat_modes])) ∧
    (radio_available_rats_query_callback drv false b rs).1.available_modes
      = some (available_bits_spec ((b % GUINT_MOD) &&& OFONO_RADIO_ACCESS_MODE_ALL)) ∧
    (available_bits_spec ((b % GUINT_MOD) &&& OFONO_RADIO_ACCESS_MODE_ALL)).length
      = popcount3 ((b % GUINT_MOD) &&& OFONO_RADIO_ACCESS_MODE_ALL) ∧
    (∀ e ∈ available_bits_spec ((b % GUINT_MOD) &&& OFONO_RADIO_ACCESS_MODE_ALL),
      e = 1 ∨ e = 2 ∨ e = 4) ∧
    (available_bits_spec ((b % GUINT_MOD) &&& OFONO_RADIO_ACCESS_MODE_ALL)).Pairwise
      (fun x y => x < y) ∧
    ((available_bits_spec ((b % GUINT_MOD) &&& OFONO_RADIO_ACCESS_MODE_ALL)).map Int.toNat).foldl
      (fun x y => x ||| y) 0 = (b % GUINT_MOD) &&& OFONO_RADIO_ACCESS_MODE_ALL := by
  have hx := extract_bits_cases _ (and_seven_mem b)
  refine ⟨?_, ?_, ?_, ?_, ?_, ?_⟩
  · intro hm
    constructor
    · unfold radio_query_available_rats
      split
      · simp [radio_send_properties_reply, driver_calls]
      · simp [hm, driver_calls]
    · intro hnone
      simp [radio_query_available_rats, hnone, hm, driver_calls]
  · simp only [radio_available_rats_query_callback, Bool.not_false, if_true,
      radio_send_properties_reply]
    rw [hx.1]
  · rw [← hx.1]; exact hx.2.1
  · rw [← hx.1]; exact hx.2.2.1
  · rw [← hx.1]; exact hx.2.2.2.1
  · rw [← hx.1]; exact hx.2.2.2.2

/-- Witness of `available_rats_bits`: the RIL driver implements both queries. -/
theorem available_rats_bits_witness :
    driver_calls (radio_query_available_rats
        (ril_radio_settings_driver (ril_radio_settings_new [1, 2, 3]))
        ofono_radio_settings_create).2 = [DriverCall.query_available_rat_modes] :=
  ((available_rats_bits (ril_radio_settings_driver (ril_radio_settings_new [1, 2, 3]))
    ofono_radio_settings_create 0).1 rfl).2 rfl

theorem available_technologies_eq (drv : ofono_radio_settings_driver) (m : List Int) :
    radio_available_technologies drv m = available_technologies_spec drv m := by
  unfold radio_available_technologies available_technologies_spec radio_legacy_rat_driver
  cases hq : drv.query_available_rat_modes
  · simp
  · simp only [Bool.not_true, Bool.false_eq_true, if_false, if_true, legacy_modes,
      OFONO_RADIO_ACCESS_MODE_GSM, OFONO_RADIO_ACCESS_MODE_UMTS, OFONO_RADIO_ACCESS_MODE_LTE]
    by_cases h1 : radio_map_legacy_rat drv 1 = 0 <;>
      by_cases h2 : radio_map_legacy_rat drv 2 = 0 <;>
      by_cases h4 : radio_map_legacy_rat drv 4 = 0 <;>
      simp +decide [List.filter_cons, h1, h2, h4, radio_legacy_mode_to_string,
        OFONO_RADIO_ACCESS_MODE_ANY, OFONO_RADIO_ACCESS_MODE_GSM, OFONO_RADIO_ACCESS_MODE_UMTS,
        OFONO_RADIO_ACCESS_MODE_LTE]

/-- C13: when the available modes are set, the `AvailableTechnologies` entry of the
`GetProperties` dictionary is, on a bitmask-capable driver, the legacy tags gsm, umts, lte (in
that order) for exactly those tags whose legacy-to-modern mapping is non-zero, followed by the
rendering of every available mode in its original order, and on a legacy-only driver the legacy
tag string of every available mode in order; the rendering of a mode 1..7 is its `+`-joined
decomposition. -/
theorem available_technologies_list (drv : ofono_radio_settings_driver)
    (rs : ofono_radio_settings) (m : List Int) (hm : rs.available_modes = some m) :
    dict_value "AvailableTechnologies" (radio_get_properties_dict drv rs)
      = some (PropertyValue.string_array (available_technologies_spec drv m)) ∧
    (∀ e ∈ [(1 : Nat), 2, 3, 4, 5, 6, 7],
      radio_access_modes_to_string (e : Int) = some (plus_joined e)) ∧
    (radio_legacy_mode_to_string 1 = some "gsm" ∧ radio_legacy_mode_to_string 2 = some "umts" ∧
      radio_legacy_mode_to_string 4 = some "lte") := by
  refine ⟨?_, by decide, by decide⟩
  rw [← available_technologies_eq]
  unfold radio_get_properties_dict dict_value
  rw [hm]
  cases drv.query_band <;> cases drv.query_fast_dormancy <;> simp +decide

/-- Witness of `available_technologies_list`: the RIL driver with supported modes 1, 2, 3 lists
all three legacy tags (LTE maps to 3) and the three combinations. -/
theorem available_technologies_list_witness :
    dict_value "AvailableTechnologies"
        (radio_get_properties_dict (ril_radio_settings_driver (ril_radio_settings_new [1, 2, 3]))
          { ofono_radio_settings_create with available_modes := some [1, 2, 3] })
      = some (PropertyValue.string_array (available_technologies_spec
          (ril_radio_settings_driver (ril_radio_settings_new [1, 2, 3])) [1, 2, 3])) ∧
    available_technologies_spec (ril_radio_settings_driver (ril_radio_settings_new [1, 2, 3]))
        [1, 2, 3]
      = [some "gsm", some "umts", some "lte", some "+gsm", some "+umts", some "+umts+gsm"] :=
  ⟨(available_technologies_list (ril_radio_settings_driver (ril_radio_settings_new [1, 2, 3]))
      { ofono_radio_settings_create with available_modes := some [1, 2, 3] } [1, 2, 3] rfl).1,
    by decide⟩

theorem legacy_mode_from_string_token (s : String) :
    (technology_token s = true →
      ∃ m, radio_legacy_mode_from_string s = some m ∧
        ((s = "any" ∧ m = 0) ∨ (s = "gsm" ∧ m = 1) ∨ (s = "umts" ∧ m = 2) ∨
          (s = "lte" ∧ m = 4))) ∧
    (technology_token s = false → radio_legacy_mode_from_string s = none) := by
  unfold technology_token radio_legacy_mode_from_string
  by_cases h1 : s = "any"
  · subst h1; simp +decide [OFONO_RADIO_ACCESS_MODE_ANY]
  · by_cases h2 : s = "gsm"
    · subst h2; simp +decide [OFONO_RADIO_ACCESS_MODE_GSM]
    · by_cases h3 : s = "umts"
      · subst h3; simp +decide [OFONO_RADIO_ACCESS_MODE_UMTS]
      · by_cases h4 : s = "lte"
        · subst h4; simp +decide [OFONO_RADIO_ACCESS_MODE_LTE]
        · simp [h1, h2, h3, h4]

theorem token_bits_snoc (seen : List String) (s : String) (m : Int)
    (h : (s = "gsm" ∧ m = 1) ∨ (s = "umts" ∧ m = 2) ∨ (s = "lte" ∧ m = 4)) :
    token_bits seen ||| m.toNat = token_bits (seen ++ [s]) := by
  unfold token_bits
  rcases h with ⟨rfl, rfl⟩ | ⟨rfl, rfl⟩ | ⟨rfl, rfl⟩ <;>
    by_cases hg : "gsm" ∈ seen <;> by_cases hu : "umts" ∈ seen <;>
    by_cases hl : "lte" ∈ seen <;> simp +decide [hg, hu, hl]

theorem token_bits_snoc_any (seen : List String) :
    token_bits seen = token_bits (seen ++ ["any"]) := by
  unfold token_bits
  by_cases hg : "gsm" ∈ seen <;> by_cases hu : "umts" ∈ seen <;>
    by_cases hl : "lte" ∈ seen <;> simp +decide [hg, hu, hl]

theorem access_modes_loop_spec (tokens seen : List String) (any : Bool) :
    radio_access_modes_loop tokens any (token_bits seen) =
      if tokens.all technology_token then
        some (any || decide ("any" ∈ tokens), token_bits (seen ++ tokens))
      else none := by
  induction tokens generalizing seen any with
  | nil => simp [radio_access_modes_loop]
  | cons s rest ih =>
    simp only [radio_access_modes_loop, List.all_cons]
    by_cases ht : technology_token s = true
    swap
    · have ht2 : technology_token s = false := by simpa using ht
      rw [(legacy_mode_from_string_token s).2 ht2]
      simp [ht2]
    · obtain ⟨m, hm, hcase⟩ := (legacy_mode_from_string_token s).1 ht
      rw [hm]
      simp only [ht, Bool.true_and]
      rcases hcase with ⟨rfl, rfl⟩ | hbits
      · simp only [OFONO_RADIO_ACCESS_MODE_ANY, if_true]
        rw [token_bits_snoc_any seen, ih]
        simp
      · have hne : m ≠ OFONO_RADIO_ACCESS_MODE_ANY := by
          unfold OFONO_RADIO_ACCESS_MODE_ANY
          rcases hbits with ⟨_, rfl⟩ | ⟨_, rfl⟩ | ⟨_, rfl⟩ <;> decide
        have hs : s ≠ "any" := by
          rcases hbits with ⟨rfl, _⟩ | ⟨rfl, _⟩ | ⟨rfl, _⟩ <;> decide
        rw [if_neg hne, token_bits_snoc seen s m hbits, ih]
        have hs2 : ¬ "any" = s := fun e => hs e.symm
        simp [hs2]

theorem token_bits_nil_append (tokens : List String) :
    token_bits ([] ++ tokens) = token_bits tokens := rfl

theorem access_modes_from_string_plus (str : String) (rest : List Char)
    (h : str.toList = '+' :: rest) :
    radio_access_modes_from_string str =
      if (g_strsplit rest '+').all technology_token then
        some (combination_value (g_strsplit rest '+'))
      else none := by
  have h0 : token_bits [] = 0 := by decide
  have hloop := access_modes_loop_spec (g_strsplit rest '+') [] false
  rw [h0, token_bits_nil_append] at hloop
  simp only [radio_access_modes_from_string, h, hloop]
  by_cases hall : (g_strsplit rest '+').all technology_token = true
  · simp only [hall, if_true, Bool.false_or, combination_value]
    by_cases hany : "any" ∈ g_strsplit rest '+' <;> simp [hany]
  · simp [hall]

/-- C19: `radio_access_modes_from_string` accepts a string exactly when it starts with `+` and
every `+`-separated token after the first character is one of `any`, `gsm`, `umts`, `lte` (the
bare string `"+"` has no tokens and is accepted). On acceptance the result is ANY when some token
is `any` and otherwise the bitwise OR of the bits of the tokens, so it depends neither on the
order of the tokens nor on their repetition: `"+gsm+lte"` and `"+lte+gsm+gsm"` both give 5. -/
theorem access_modes_from_string_spec (str : String) (v : Int) :
    (radio_access_modes_from_string str = some v ↔
      ∃ rest, str.toList = '+' :: rest ∧ (g_strsplit rest '+').all technology_token = true ∧
        v = combination_value (g_strsplit rest '+')) ∧
    (∀ t1 t2 : List String, (∀ s, s ∈ t1 ↔ s ∈ t2) →
      combination_value t1 = combination_value t2) ∧
    (g_strsplit [] '+' = [] ∧ radio_access_modes_from_string "+" = some 0) ∧
    (radio_access_modes_from_string "+gsm+lte" = some 5 ∧
      radio_access_modes_from_string "+lte+gsm+gsm" = some 5) := by
  refine ⟨⟨?_, ?_⟩, ?_, by decide, by decide⟩
  · intro h
    cases hl : str.toList with
    | nil =>
      unfold radio_access_modes_from_string at h
      rw [hl] at h
      simp at h
    | cons c rest =>
      by_cases hc : c = '+'
      · subst hc
        rw [access_modes_from_string_plus str rest hl] at h
        by_cases hall : (g_strsplit rest '+').all technology_token = true
        · rw [if_pos hall] at h
          exact ⟨rest, rfl, hall, by simpa using h.symm⟩
        · rw [if_neg hall] at h
          simp at h
      · exfalso
        unfold radio_access_modes_from_string at h
        rw [hl] at h
        split at h
        · rename_i heq
          simp at heq
          exact hc heq.1
        · simp at h
  · rintro ⟨rest, hl, hall, hv⟩
    rw [access_modes_from_string_plus str rest hl, if_pos hall, hv]
  · intro t1 t2 hmem
    unfold combination_value token_bits
    simp only [hmem]

/-- Witness of `access_modes_from_string_spec`: the string `"+umts+any"` is accepted with the
value ANY. -/
theorem access_modes_from_string_spec_witness :
    radio_access_modes_from_string "+umts+any" = some 0 :=
  (access_modes_from_string_spec "+umts+any" 0).1.mpr ⟨"umts+any".toList, by decide, by decide,
    by decide⟩

/-- C14: `ril_radio_settings_set_rat_mode` queues a success completion and records the mode as
the preferred mode if and only if the requested mode is ANY or a member of the supported modes;
otherwise it queues a failure completion and leaves the preferred mode alone. In both cases the
call itself only puts an item tagged `RADIO_SETTINGS_SET_RAT_MODE` at the end of the idle queue:
the completion is delivered when the idle queue runs that item. -/
theorem ril_set_rat_mode_completion (d : ril_driver_state) (mode : Int) :
    ((mode = OFONO_RADIO_ACCESS_MODE_ANY ∨ mode ∈ d.rsd.supported_modes) →
      ril_radio_settings_set_rat_mode d mode =
        { d with
          pref_mode := mode
          iq := d.iq.filter
              (fun i => i.tag != ril_radio_settings_cb_tag.RADIO_SETTINGS_SET_RAT_MODE) ++
            [{ tag := ril_radio_settings_cb_tag.RADIO_SETTINGS_SET_RAT_MODE,
               fn := ril_idle_func.ril_radio_settings_set_rat_mode_cb }] } ∧
      (ril_idle_invoke (ril_radio_settings_set_rat_mode d mode)
        ril_idle_func.ril_radio_settings_set_rat_mode_cb).error = false) ∧
    (¬ (mode = OFONO_RADIO_ACCESS_MODE_ANY ∨ mode ∈ d.rsd.supported_modes) →
      ril_radio_settings_set_rat_mode d mode =
        { d with
          iq := d.iq.filter
              (fun i => i.tag != ril_radio_settings_cb_tag.RADIO_SETTINGS_SET_RAT_MODE) ++
            [{ tag := ril_radio_settings_cb_tag.RADIO_SETTINGS_SET_RAT_MODE,
               fn := ril_idle_func.ril_radio_settings_set_rat_mode_error_cb }] } ∧
      (ril_idle_invoke (ril_radio_settings_set_rat_mode d mode)
        ril_idle_func.ril_radio_settings_set_rat_mode_error_cb).error = true) ∧
    (d.iq = [] →
      ∃ d1 res, ril_idle_run (ril_radio_settings_set_rat_mode d mode) = some (d1, res) ∧
        d1.iq = [] ∧
        (res.error = false ↔
          (mode = OFONO_RADIO_ACCESS_MODE_ANY ∨ mode ∈ d.rsd.supported_modes))) := by
  by_cases h : mode = OFONO_RADIO_ACCESS_MODE_ANY ∨ mode ∈ d.rsd.supported_modes
  · have hc : (decide (mode = OFONO_RADIO_ACCESS_MODE_ANY) ||
        d.rsd.supported_modes.contains mode) = true := by
      rcases h with h | h
      · simp [h]
      · simp [h]
    have heq : ril_radio_settings_set_rat_mode d mode =
        { d with
          pref_mode := mode
          iq := d.iq.filter
              (fun i => i.tag != ril_radio_settings_cb_tag.RADIO_SETTINGS_SET_RAT_MODE) ++
            [{ tag := ril_radio_settings_cb_tag.RADIO_SETTINGS_SET_RAT_MODE,
               fn := ril_idle_func.ril_radio_settings_set_rat_mode_cb }] } := by
      simp only [ril_radio_settings_set_rat_mode, hc, if_true, ril_radio_settings_later,
        ril_sim_settings_set_pref_mode]
    refine ⟨fun _ => ⟨heq, rfl⟩, fun hn => absurd h hn, ?_⟩
    intro hq
    rw [heq]
    refine ⟨_, _, by simp [ril_idle_run, hq]; exact ⟨rfl, rfl⟩, rfl, ?_⟩
    simp [ril_idle_invoke, driver_success, h]
  · have hc : (decide (mode = OFONO_RADIO_ACCESS_MODE_ANY) ||
        d.rsd.supported_modes.contains mode) = false := by
      simp only [not_or] at h
      simp [h.1, h.2]
    have heq : ril_radio_settings_set_rat_mode d mode =
        { d with
          iq := d.iq.filter
              (fun i => i.tag != ril_radio_settings_cb_tag.RADIO_SETTINGS_SET_RAT_MODE) ++
            [{ tag := ril_radio_settings_cb_tag.RADIO_SETTINGS_SET_RAT_MODE,
               fn := ril_idle_func.ril_radio_settings_set_rat_mode_error_cb }] } := by
      simp only [ril_radio_settings_set_rat_mode, hc, ril_radio_settings_later]
      rfl
    refine ⟨fun hy => absurd hy h, fun _ => ⟨heq, rfl⟩, ?_⟩
    intro hq
    rw [heq]
    refine ⟨_, _, by simp [ril_idle_run, hq]; exact ⟨rfl, rfl⟩, rfl, ?_⟩
    simp [ril_idle_invoke, driver_failure, h]

/-- Witness of `ril_set_rat_mode_completion`: with supported modes 1, 2, 3 the mode 4 is refused
and the preferred mode stays 3. -/
theorem ril_set_rat_mode_completion_witness :
    ril_radio_settings_set_rat_mode (ril_driver_new [1, 2, 3] 3 3) 4 =
      { ril_driver_new [1, 2, 3] 3 3 with
        iq := (ril_driver_new [1, 2, 3] 3 3).iq.filter
            (fun i => i.tag != ril_radio_settings_cb_tag.RADIO_SETTINGS_SET_RAT_MODE) ++
          [{ tag := ril_radio_settings_cb_tag.RADIO_SETTINGS_SET_RAT_MODE,
             fn := ril_idle_func.ril_radio_settings_set_rat_mode_error_cb }] } :=
  ((ril_set_rat_mode_completion (ril_driver_new [1, 2, 3] 3 3) 4).2.1 (by decide)).1

/-- What a handler does: it answers at once and leaves the record alone, or it stages one
pending value, invokes exactly one driver operation and waits. -/
theorem run_handler_cases (drv : ofono_radio_settings_driver) (rs : ofono_radio_settings)
    (req : Request) :
    (∃ r, run_handler drv rs req = { rs := rs, reply := some r, events := [] }) ∨
    (run_handler drv rs req
        = { rs := rs, reply := none, events := [Event.driver DriverCall.query_rat_mode] }) ∨
    (∃ mode am, rs.mode ≠ mode ∧ run_handler drv rs req
        = { rs := { rs with pending_mode := mode }, reply := none,
            events := [Event.driver (DriverCall.set_rat_mode am)] }) ∨
    (∃ band, rs.band_gsm ≠ band ∧ run_handler drv rs req
        = { rs := { rs with pending_band_gsm := band }, reply := none,
            events := [Event.driver (DriverCall.set_band band rs.band_umts)] }) ∨
    (∃ band, rs.band_umts ≠ band ∧ run_handler drv rs req
        = { rs := { rs with pending_band_umts := band }, reply := none,
            events := [Event.driver (DriverCall.set_band rs.band_gsm band)] }) ∨
    (∃ target, rs.fast_dormancy_pending ≠ target ∧ run_handler drv rs req
        = { rs := { rs with fast_dormancy_pending := target }, reply := none,
            events := [Event.driver (DriverCall.set_fast_dormancy target)] }) := by
  cases req with
  | get_properties =>
    simp only [run_handler, radio_get_properties_handler]
    split
    · exact Or.inl ⟨_, rfl⟩
    · split
      · exact Or.inl ⟨_, rfl⟩
      · exact Or.inr (Or.inl rfl)
  | set_property msg =>
    simp only [run_handler, radio_set_property_handler]
    split
    · split
      · exact Or.inl ⟨_, rfl⟩
      · split
        · split
          · rcases set_technology_preference_cases drv rs ‹_› with
              ⟨r, h⟩ | ⟨_, mode, am, _, _, hne, _, h⟩
            · exact Or.inl ⟨r, h⟩
            · exact Or.inr (Or.inr (Or.inl ⟨mode, am, hne, h⟩))
          · split
            · rcases set_gsm_band_cases drv rs ‹_› with ⟨r, h⟩ | ⟨_, band, _, _, hne, _, h⟩
              · exact Or.inl ⟨r, h⟩
              · exact Or.inr (Or.inr (Or.inr (Or.inl ⟨band, hne, h⟩)))
            · split
              · rcases set_umts_band_cases drv rs ‹_› with ⟨r, h⟩ | ⟨_, band, _, _, hne, _, h⟩
                · exact Or.inl ⟨r, h⟩
                · exact Or.inr (Or.inr (Or.inr (Or.inr (Or.inl ⟨band, hne, h⟩))))
              · split
                · rcases set_fast_dormancy_property_cases drv rs ‹_› with
                    ⟨r, h⟩ | ⟨target, _, hne, _, h⟩
                  · exact Or.inl ⟨r, h⟩
                  · exact Or.inr (Or.inr (Or.inr (Or.inr (Or.inr ⟨target, hne, h⟩))))
                · exact Or.inl ⟨_, rfl⟩
        · exact Or.inl ⟨_, rfl⟩
    · exact Or.inl ⟨_, rfl⟩

theorem set_band_settled (rs : ofono_radio_settings) : bands_settled (radio_set_band rs).1 := by
  unfold bands_settled radio_set_band radio_set_band_gsm radio_set_band_umts
  by_cases hg : rs.band_gsm = rs.pending_band_gsm <;>
    by_cases hu : rs.band_umts = rs.pending_band_umts <;>
    cases hs : rs.settings <;> simp [hg, hu, hs]

theorem set_rat_mode_bands (rs : ofono_radio_settings) (mode : Int) :
    (radio_set_rat_mode rs mode).1.band_gsm = rs.band_gsm ∧
    (radio_set_rat_mode rs mode).1.band_umts = rs.band_umts ∧
    (radio_set_rat_mode rs mode).1.pending_band_gsm = rs.pending_band_gsm ∧
    (radio_set_rat_mode rs mode).1.pending_band_umts = rs.pending_band_umts ∧
    (radio_set_rat_mode rs mode).1.fast_dormancy = rs.fast_dormancy := by
  unfold radio_set_rat_mode
  split
  · simp
  · cases rs.settings <;> simp

theorem set_fast_dormancy_bands (rs : ofono_radio_settings) (enable : Bool) :
    (radio_set_fast_dormancy rs enable).1.band_gsm = rs.band_gsm ∧
    (radio_set_fast_dormancy rs enable).1.band_umts = rs.band_umts ∧
    (radio_set_fast_dormancy rs enable).1.pending_band_gsm = rs.pending_band_gsm ∧
    (radio_set_fast_dormancy rs enable).1.pending_band_umts = rs.pending_band_umts ∧
    (radio_set_fast_dormancy rs enable).1.mode = rs.mode := by
  unfold radio_set_fast_dormancy
  split <;> simp

theorem bands_settled_congr (a b : ofono_radio_settings) (h1 : b.band_gsm = a.band_gsm)
    (h2 : b.band_umts = a.band_umts) (h3 : b.pending_band_gsm = a.pending_band_gsm)
    (h4 : b.pending_band_umts = a.pending_band_umts) (h : bands_settled a) :
    bands_settled b := by
  unfold bands_settled at h ⊢
  rw [h1, h2, h3, h4]
  exact h

theorem query_available_rats_settled (drv : ofono_radio_settings_driver)
    (rs : ofono_radio_settings) (h : bands_settled rs) :
    bands_settled (radio_query_available_rats drv rs).1 := by
  rcases query_available_rats_state drv rs with e | e <;> rw [e] <;> exact h

theorem query_fast_dormancy_settled (drv : ofono_radio_settings_driver)
    (rs : ofono_radio_settings) (h : bands_settled rs) :
    bands_settled (radio_query_fast_dormancy drv rs).1 := by
  rcases query_fast_dormancy_state drv rs with e | e <;> rw [e] <;> exact h

theorem query_band_settled (drv : ofono_radio_settings_driver)
    (rs : ofono_radio_settings) (h : bands_settled rs) :
    bands_settled (radio_query_band drv rs).1 := by
  rcases query_band_state drv rs with e | e <;> rw [e] <;> exact h

/-- After the completion of any driver operation the bands are settled, provided they were
before or the operation is `set_band`. -/
theorem driver_completion_settled (drv : ofono_radio_settings_driver) (c : DriverCall)
    (res : DriverResult) (rs : ofono_radio_settings)
    (h : is_set_band (some c) = false → bands_settled rs) :
    bands_settled (driver_completion drv c res rs).1 := by
  cases c with
  | query_rat_mode =>
    have hs := h rfl
    simp only [driver_completion, radio_rat_mode_query_callback]
    split
    · exact hs
    · apply query_band_settled
      obtain ⟨b1, b2, b3, b4, _⟩ := set_rat_mode_bands rs
        (if radio_legacy_rat_driver drv = true then -res.rat
          else if (decide (rs.mode < 0) && radio_map_legacy_rat drv (-rs.mode) == res.rat) = true
            then rs.mode else res.rat)
      exact bands_settled_congr rs _ b1 b2 b3 b4 hs
  | set_rat_mode m =>
    have hs := h rfl
    simp only [driver_completion, radio_mode_set_callback]
    split
    · exact hs
    · obtain ⟨b1, b2, b3, b4, _⟩ := set_rat_mode_bands rs rs.pending_mode
      exact bands_settled_congr rs _ b1 b2 b3 b4 hs
  | query_band =>
    have hs := h rfl
    simp only [driver_completion, radio_band_query_callback]
    split
    · exact hs
    · exact query_fast_dormancy_settled drv _ (set_band_settled _)
  | set_band g u =>
    simp only [driver_completion, radio_band_set_callback]
    split
    · exact ⟨rfl, rfl⟩
    · exact set_band_settled rs
  | query_fast_dormancy =>
    have hs := h rfl
    simp only [driver_completion, radio_fast_dormancy_query_callback]
    split
    · exact hs
    · apply query_available_rats_settled
      obtain ⟨b1, b2, b3, b4, _⟩ := set_fast_dormancy_bands rs res.enable
      exact bands_settled_congr rs _ b1 b2 b3 b4 hs
  | set_fast_dormancy e =>
    have hs := h rfl
    simp only [driver_completion, radio_fast_dormancy_set_callback]
    split
    · exact hs
    · obtain ⟨b1, b2, b3, b4, _⟩ := set_fast_dormancy_bands rs rs.fast_dormancy_pending
      exact bands_settled_congr rs _ b1 b2 b3 b4 hs
  | query_available_rats =>
    have hs := h rfl
    simp only [driver_completion, radio_available_rats_query_callback]
    split <;> exact hs
  | query_available_rat_modes =>
    have hs := h rfl
    simp only [driver_completion, radio_available_modes_query_callback]
    split <;> exact hs

/-- The events of a completion callback: either it answers no request and invokes exactly one
driver operation (the next query of the pipeline), or it answers and invokes none. -/
theorem driver_completion_events (drv : ofono_radio_settings_driver) (c : DriverCall)
    (res : DriverResult) (rs : ofono_radio_settings) :
    (queue_replies (driver_completion drv c res rs).2 = [] ∧
      ∃ d, driver_calls (driver_completion drv c res rs).2 = [d]) ∨
    (queue_replies (driver_completion drv c res rs).2 ≠ [] ∧
      driver_calls (driver_completion drv c res rs).2 = []) := by
  by_cases hstage : 0 < pipeline_stage c
  · by_cases hres : early_failure (some c) res = false
    · obtain ⟨pre, rs1, tail, ⟨hp1, hp2⟩, _, htail, hcomp⟩ :=
        pipeline_completion_shape drv c res rs hstage hres
      rw [hcomp]
      simp only [queue_replies_append, driver_calls_append, hp1, hp2, List.nil_append]
      rcases htail with ⟨d, hd, _⟩ | ⟨rep, hrep⟩
      · left; rw [hd]; exact ⟨rfl, d, rfl⟩
      · right; rw [hrep]; exact ⟨by simp [queue_replies], rfl⟩
    · right
      have herr : res.error = true := by
        cases he : res.error
        · simp [early_failure, he] at hres
        · rfl
      cases c with
      | query_rat_mode =>
        simp [driver_completion, radio_rat_mode_query_callback, herr, queue_replies,
          driver_calls]
      | query_band =>
        simp [driver_completion, radio_band_query_callback, herr, queue_replies, driver_calls]
      | query_fast_dormancy =>
        simp [driver_completion, radio_fast_dormancy_query_callback, herr, queue_replies,
          driver_calls]
      | query_available_rats => simp [early_failure] at hres
      | query_available_rat_modes => simp [early_failure] at hres
      | set_rat_mode m => simp [pipeline_stage] at hstage
      | set_band g u => simp [pipeline_stage] at hstage
      | set_fast_dormancy e => simp [pipeline_stage] at hstage
  · right
    cases c with
    | query_rat_mode => simp [pipeline_stage] at hstage
    | query_band => simp [pipeline_stage] at hstage
    | query_fast_dormancy => simp [pipeline_stage] at hstage
    | query_available_rats => simp [pipeline_stage] at hstage
    | query_available_rat_modes => simp [pipeline_stage] at hstage
    | set_rat_mode m =>
      simp only [driver_completion, radio_mode_set_callback]
      split
      · simp [queue_replies, driver_calls]
      · have hq := (set_rat_mode_quiet rs rs.pending_mode).1
        simp [queue_replies, driver_calls, hq.1]
    | set_band g u =>
      simp only [driver_completion, radio_band_set_callback]
      split
      · simp [queue_replies, driver_calls]
      · have hq := (set_band_quiet rs).1
        simp [queue_replies, driver_calls, hq.1]
    | set_fast_dormancy e =>
      simp only [driver_completion, radio_fast_dormancy_set_callback]
      split
      · simp [queue_replies, driver_calls]
      · have hq := (set_fast_dormancy_quiet rs rs.fast_dormancy_pending).1
        simp [queue_replies, driver_calls, hq.1]

theorem calls_issued_append (a b : List Output) :
    calls_issued (a ++ b) = calls_issued a + calls_issued b := by
  simp [calls_issued, List.filter_append]

theorem calls_issued_replied (req : Request) (r : DBusReply) :
    calls_issued [Output.replied req r] = 0 := by
  simp [calls_issued]

theorem calls_issued_replied_map (l : List Request) (r : DBusReply) :
    calls_issued (l.map (fun x => Output.replied x r)) = 0 := by
  induction l with
  | nil => rfl
  | cons x xs ih =>
    rw [List.map_cons, show Output.replied x r :: xs.map (fun x => Output.replied x r)
      = [Output.replied x r] ++ xs.map (fun x => Output.replied x r) from rfl,
      calls_issued_append, ih, calls_issued_replied]

theorem calls_issued_emitted (e : Event) :
    calls_issued [Output.emitted e] = (driver_calls [e]).length := by
  cases e <;> simp [calls_issued, driver_calls]

theorem queue_event_issued (q : List Request) (log : List Output) (e : Event) :
    calls_issued (queue_event q log e).2 = calls_issued log + (driver_calls [e]).length := by
  cases e with
  | driver d =>
    simp only [queue_event]
    rw [calls_issued_append, calls_issued_emitted]
  | queue_reply r =>
    cases q with
    | nil => simp [queue_event, driver_calls]
    | cons req rest =>
      simp only [queue_event]
      rw [calls_issued_append, calls_issued_replied]
      simp [driver_calls]
  | queue_reply_all r =>
    cases q with
    | nil => simp [queue_event, driver_calls]
    | cons req rest =>
      simp only [queue_event]
      rw [calls_issued_append, calls_issued_append, calls_issued_replied,
        calls_issued_replied_map]
      simp [driver_calls]
  | property_changed n v =>
    simp only [queue_event]
    rw [calls_issued_append, calls_issued_emitted]
  | storage_sync i k =>
    simp only [queue_event]
    rw [calls_issued_append, calls_issued_emitted]

theorem queue_events_issued (q : List Request) (log : List Output) (es : List Event) :
    calls_issued (queue_events q log es).2 = calls_issued log + (driver_calls es).length := by
  induction es generalizing q log with
  | nil => simp [queue_events, driver_calls]
  | cons e es ih =>
    simp only [queue_events]
    rw [ih, queue_event_issued, show e :: es = [e] ++ es from rfl, driver_calls_append,
      List.length_append]
    omega

/-- Serving the queue keeps the instance well formed, and the number of driver operations
invoked grows by one exactly when the instance ends up waiting. -/
theorem queue_serve_issued (drv : ofono_radio_settings_driver) (q : List Request)
    (rs : ofono_radio_settings) (log : List Output) :
    instance_wf (queue_serve drv q rs log) ∧
    calls_issued (queue_serve drv q rs log).log
      = calls_issued log + in_flight (queue_serve drv q rs log) := by
  induction q generalizing rs log with
  | nil => exact ⟨⟨fun _ => rfl, fun h => absurd rfl h⟩, rfl⟩
  | cons req rest ih =>
    have hwait : ∀ (rs1 : ofono_radio_settings) (c : DriverCall),
        run_handler drv rs req = { rs := rs1, reply := none, events := [Event.driver c] } →
        instance_wf (queue_serve drv (req :: rest) rs log) ∧
        calls_issued (queue_serve drv (req :: rest) rs log).log
          = calls_issued log + in_flight (queue_serve drv (req :: rest) rs log) := by
      intro rs1 c h
      simp only [queue_serve, h, driver_calls, List.head?_cons, List.map_cons, List.map_nil]
      refine ⟨⟨fun hn => by simp at hn, fun _ => by simp⟩, ?_⟩
      rw [calls_issued_append, calls_issued_emitted]
      simp [in_flight, driver_calls]
    rcases run_handler_cases drv rs req with
      ⟨r, h⟩ | h | ⟨_, _, _, h⟩ | ⟨_, _, h⟩ | ⟨_, _, h⟩ | ⟨_, _, h⟩
    · simp only [queue_serve, h, List.map_nil, List.append_nil]
      obtain ⟨h1, h2⟩ := ih rs (log ++ [Output.replied req r])
      refine ⟨h1, ?_⟩
      rw [h2, calls_issued_append, calls_issued_replied]
      rfl
    · exact hwait _ _ h
    · exact hwait _ _ h
    · exact hwait _ _ h
    · exact hwait _ _ h
    · exact hwait _ _ h

/-- Serving the queue from a record whose bands are settled ends in a record whose bands are
settled, unless a `set_band` is then awaited. -/
theorem queue_serve_settled (drv : ofono_radio_settings_driver) (q : List Request)
    (rs : ofono_radio_settings) (log : List Output) (hs : bands_settled rs) :
    is_set_band (queue_serve drv q rs log).waiting = false →
      bands_settled (queue_serve drv q rs log).rs := by
  induction q generalizing log with
  | nil => exact fun _ => hs
  | cons req rest ih =>
    rcases run_handler_cases drv rs req with
      ⟨r, h⟩ | h | ⟨_, _, _, h⟩ | ⟨_, _, h⟩ | ⟨_, _, h⟩ | ⟨_, _, h⟩
    · simp only [queue_serve, h]
      exact ih _
    · simp only [queue_serve, h]
      exact fun _ => hs
    · simp only [queue_serve, h]
      exact fun _ => hs
    · simp only [queue_serve, h, driver_calls, List.head?_cons, is_set_band]
      intro hf; simp at hf
    · simp only [queue_serve, h, driver_calls, List.head?_cons, is_set_band]
      intro hf; simp at hf
    · simp only [queue_serve, h]
      exact fun _ => hs

/-- The completions an input delivers to the instance. -/
theorem instance_step_issued (drv : ofono_radio_settings_driver) (s : Instance) (i : Input)
    (hwf : instance_wf s) :
    instance_wf (instance_step drv s i) ∧
    calls_issued (instance_step drv s i).log + in_flight s
      = calls_issued s.log + in_flight (instance_step drv s i) +
          completions_delivered drv s [i] := by
  cases i with
  | request req =>
    simp only [instance_step, queue_request, completions_delivered]
    by_cases hempty : s.queue.isEmpty = true
    · rw [if_pos hempty]
      have hq : s.queue = [] := by simpa using hempty
      have hw : s.waiting = none := by
        by_contra hne
        exact hwf.2 hne hq
      obtain ⟨h1, h2⟩ := queue_serve_issued drv [req] s.rs s.log
      refine ⟨h1, ?_⟩
      rw [h2]
      simp [in_flight, hw]
    · rw [if_neg hempty]
      have hq : s.queue ≠ [] := by simpa using hempty
      refine ⟨⟨fun hn => absurd (hwf.1 hn) hq, fun _ => by simp⟩, ?_⟩
      simp [in_flight]
  | completion res =>
    simp only [instance_step, driver_completes, completions_delivered]
    cases hw : s.waiting with
    | none => simp [in_flight, hw, hwf]
    | some c =>
      simp only
      have hqne : s.queue ≠ [] := hwf.2 (by simp [hw])
      rcases driver_completion_events drv c res s.rs with ⟨hr, d, hd⟩ | ⟨hr, hd⟩
      · simp only [hr, hd, List.isEmpty_nil, if_true, List.head?_cons]
        refine ⟨⟨fun hn => by simp at hn, fun _ => ?_⟩, ?_⟩
        · simp only
          rw [queue_events_no_reply _ _ _ hr]
          exact hqne
        · rw [queue_events_issued, hd]
          simp [in_flight, hw]
      · have hne : (queue_replies (driver_completion drv c res s.rs).2).isEmpty = false := by
          cases hl : queue_replies (driver_completion drv c res s.rs).2 with
          | nil => exact absurd hl hr
          | cons a l => rfl
        simp only [hne, Bool.false_eq_true, if_false]
        obtain ⟨h1, h2⟩ := queue_serve_issued drv
          (queue_events s.queue s.log (driver_completion drv c res s.rs).2).1
          (driver_completion drv c res s.rs).1
          (queue_events s.queue s.log (driver_completion drv c res s.rs).2).2
        refine ⟨h1, ?_⟩
        rw [h2, queue_events_issued, hd]
        simp [in_flight, hw]

theorem instance_step_settled (drv : ofono_radio_settings_driver) (s : Instance) (i : Input)
    (hwf : instance_wf s) (hs : is_set_band s.waiting = false → bands_settled s.rs) :
    is_set_band (instance_step drv s i).waiting = false →
      bands_settled (instance_step drv s i).rs := by
  cases i with
  | request req =>
    simp only [instance_step, queue_request]
    by_cases hempty : s.queue.isEmpty = true
    · rw [if_pos hempty]
      have hq : s.queue = [] := by simpa using hempty
      have hw : s.waiting = none := by
        by_contra hne
        exact hwf.2 hne hq
      exact queue_serve_settled drv [req] s.rs s.log (hs (by simp [hw, is_set_band]))
    · rw [if_neg hempty]
      exact hs
  | completion res =>
    simp only [instance_step, driver_completes]
    cases hw : s.waiting with
    | none =>
      simp only
      exact hs
    | some c =>
      simp only
      rw [hw] at hs
      have hset := driver_completion_settled drv c res s.rs hs
      split
      · exact fun _ => hset
      · exact queue_serve_settled drv _ _ _ hset

theorem instance_run_issued (drv : ofono_radio_settings_driver) (s : Instance)
    (inputs : List Input) (hwf : instance_wf s) :
    instance_wf (instance_run drv s inputs) ∧
    calls_issued (instance_run drv s inputs).log + in_flight s
      = calls_issued s.log + in_flight (instance_run drv s inputs) +
          completions_delivered drv s inputs := by
  induction inputs generalizing s with
  | nil => exact ⟨hwf, by simp [instance_run, completions_delivered]⟩
  | cons i rest ih =>
    obtain ⟨h1, h2⟩ := instance_step_issued drv s i hwf
    obtain ⟨h3, h4⟩ := ih (instance_step drv s i) h1
    refine ⟨by simpa [instance_run] using h3, ?_⟩
    have hd : completions_delivered drv s (i :: rest)
        = completions_delivered drv s [i]
          + completions_delivered drv (instance_step drv s i) rest := by
      cases i <;> simp [completions_delivered]
    have hrun : instance_run drv s (i :: rest) = instance_run drv (instance_step drv s i) rest :=
      rfl
    rw [hrun, hd]
    omega

theorem instance_run_settled (drv : ofono_radio_settings_driver) (s : Instance)
    (inputs : List Input) (hwf : instance_wf s)
    (hs : is_set_band s.waiting = false → bands_settled s.rs) :
    is_set_band (instance_run drv s inputs).waiting = false →
      bands_settled (instance_run drv s inputs).rs := by
  induction inputs generalizing s with
  | nil => exact hs
  | cons i rest ih =>
    have hrun : instance_run drv s (i :: rest) = instance_run drv (instance_step drv s i) rest :=
      rfl
    rw [hrun]
    exact ih _ (instance_step_issued drv s i hwf).1 (instance_step_settled drv s i hwf hs)

theorem instance_new_wf (rs : ofono_radio_settings) : instance_wf (instance_new rs) :=
  ⟨fun _ => rfl, fun h => absurd rfl h⟩

theorem set_band_others (rs : ofono_radio_settings) :
    (radio_set_band rs).1.mode = rs.mode ∧
    (radio_set_band rs).1.fast_dormancy = rs.fast_dormancy ∧
    (radio_set_band rs).1.band_gsm = rs.pending_band_gsm ∧
    (radio_set_band rs).1.band_umts = rs.pending_band_umts := by
  unfold radio_set_band radio_set_band_gsm radio_set_band_umts
  by_cases hg : rs.band_gsm = rs.pending_band_gsm <;>
    by_cases hu : rs.band_umts = rs.pending_band_umts <;>
    cases hs : rs.settings <;> simp [hg, hu, hs]

theorem band_set_callback_others (error : Bool) (rs : ofono_radio_settings) :
    (radio_band_set_callback error rs).1.mode = rs.mode ∧
    (radio_band_set_callback error rs).1.fast_dormancy = rs.fast_dormancy ∧
    (radio_band_set_callback error rs).1.band_gsm
      = (if error then rs.band_gsm else rs.pending_band_gsm) ∧
    (radio_band_set_callback error rs).1.band_umts
      = (if error then rs.band_umts else rs.pending_band_umts) := by
  obtain ⟨h1, h2, h3, h4⟩ := set_band_others rs
  cases error
  · simp only [radio_band_set_callback, Bool.false_eq_true, if_false]
    exact ⟨h1, h2, h3, h4⟩
  · simp [radio_band_set_callback]

theorem registered_settled (drv : ofono_radio_settings_driver) (imsi : Option String)
    (store : Option GKeyFile) :
    bands_settled
      (ofono_radio_settings_register drv ofono_radio_settings_create imsi store).1 := by
  cases imsi with
  | none => exact ⟨rfl, rfl⟩
  | some i =>
    cases store with
    | none => exact ⟨rfl, rfl⟩
    | some kf => exact ⟨rfl, rfl⟩

/-- C15: a `SetProperty` on one band never disturbs another field. In a state whose pending bands
equal the confirmed bands, a `GsmBand` set that reaches the driver passes the confirmed UMTS band
to it, and after the completion, successful or failed, the confirmed UMTS band, the technology
mode and the fast-dormancy value are unchanged; symmetrically for a `UmtsBand` set and the GSM
band. Such are all reachable states in which no `set_band` is awaited: the created record, the
record after registration, and every state an instance reaches from them. -/
theorem band_set_frame (drv : ofono_radio_settings_driver) (rs : ofono_radio_settings)
    (var : DBusArg) (res : DriverResult) (hs : bands_settled rs) :
    ((radio_set_property_handler drv rs (set_property_message "GsmBand" var)).reply = none →
      (∃ band, (radio_set_property_handler drv rs (set_property_message "GsmBand" var)).events
        = [Event.driver (DriverCall.set_band band rs.band_umts)]) ∧
      (complete_handler drv
        (radio_set_property_handler drv rs (set_property_message "GsmBand" var)) res).1.band_umts
        = rs.band_umts ∧
      (complete_handler drv
        (radio_set_property_handler drv rs (set_property_message "GsmBand" var)) res).1.mode
        = rs.mode ∧
      (complete_handler drv
        (radio_set_property_handler drv rs (set_property_message "GsmBand" var))
        res).1.fast_dormancy = rs.fast_dormancy) ∧
    ((radio_set_property_handler drv rs (set_property_message "UmtsBand" var)).reply = none →
      (∃ band, (radio_set_property_handler drv rs (set_property_message "UmtsBand" var)).events
        = [Event.driver (DriverCall.set_band rs.band_gsm band)]) ∧
      (complete_handler drv
        (radio_set_property_handler drv rs (set_property_message "UmtsBand" var)) res).1.band_gsm
        = rs.band_gsm ∧
      (complete_handler drv
        (radio_set_property_handler drv rs (set_property_message "UmtsBand" var)) res).1.mode
        = rs.mode ∧
      (complete_handler drv
        (radio_set_property_handler drv rs (set_property_message "UmtsBand" var))
        res).1.fast_dormancy = rs.fast_dormancy) ∧
    (∀ inputs : List Input,
      is_set_band (instance_run drv (instance_new rs) inputs).waiting = false →
        bands_settled (instance_run drv (instance_new rs) inputs).rs) ∧
    (∀ (imsi : Option String) (store : Option GKeyFile),
      bands_settled
        (ofono_radio_settings_register drv ofono_radio_settings_create imsi store).1) := by
  obtain ⟨hg, hu⟩ := hs
  refine ⟨?_, ?_, ?_, registered_settled drv⟩
  · rw [set_property_message_gsm]
    intro hwait
    rcases set_gsm_band_cases drv rs var with ⟨r, hr⟩ | ⟨v, band, _, _, _, _, hst⟩
    · rw [hr] at hwait; exact absurd hwait (handler_reply_reply rs r)
    · rw [hst]
      obtain ⟨h1, h2, _, h4⟩ :=
        band_set_callback_others res.error { rs with pending_band_gsm := band }
      simp only [complete_handler, driver_calls, driver_completion]
      refine ⟨⟨band, rfl⟩, ?_, h1, h2⟩
      rw [h4]
      split
      · rfl
      · exact hu
  · rw [set_property_message_umts]
    intro hwait
    rcases set_umts_band_cases drv rs var with ⟨r, hr⟩ | ⟨v, band, _, _, _, _, hst⟩
    · rw [hr] at hwait; exact absurd hwait (handler_reply_reply rs r)
    · rw [hst]
      obtain ⟨h1, h2, h3, _⟩ :=
        band_set_callback_others res.error { rs with pending_band_umts := band }
      simp only [complete_handler, driver_calls, driver_completion]
      refine ⟨⟨band, rfl⟩, ?_, h1, h2⟩
      rw [h3]
      split
      · rfl
      · exact hg
  · intro inputs
    exact instance_run_settled drv (instance_new rs) inputs (instance_new_wf rs)
      (fun _ => ⟨hg, hu⟩)

/-- Witness of `band_set_frame`: on the created record `SetProperty("GsmBand", "900P")` reaches
the driver with the confirmed UMTS band, and a successful completion leaves the UMTS band. -/
theorem band_set_frame_witness :
    bands_settled ofono_radio_settings_create ∧
    (radio_set_property_handler example_legacy_driver ofono_radio_settings_create
        (set_property_message "GsmBand" (DBusArg.string "900P"))).reply = none ∧
    (complete_handler example_legacy_driver
        (radio_set_property_handler example_legacy_driver ofono_radio_settings_create
          (set_property_message "GsmBand" (DBusArg.string "900P"))) driver_success).1.band_umts
      = ofono_radio_settings_create.band_umts :=
  ⟨⟨rfl, rfl⟩, by decide,
    ((band_set_frame example_legacy_driver ofono_radio_settings_create (DBusArg.string "900P")
      driver_success ⟨rfl, rfl⟩).1 (by decide)).2.1⟩

theorem queue_serve_sublist (drv : ofono_radio_settings_driver) (q : List Request)
    (rs : ofono_radio_settings) (log : List Output) :
    List.Sublist (queue_serve drv q rs log).queue q := by
  induction q generalizing rs log with
  | nil => exact List.Sublist.refl _
  | cons req rest ih =>
    simp only [queue_serve]
    split
    · exact List.Sublist.trans (ih _ _) (List.sublist_cons_self _ _)
    · exact List.Sublist.refl _

theorem queue_event_sublist (q : List Request) (log : List Output) (e : Event) :
    List.Sublist (queue_event q log e).1 q := by
  cases e with
  | driver d => exact List.Sublist.refl _
  | queue_reply r =>
    cases q with
    | nil => exact List.Sublist.refl _
    | cons req rest => exact List.sublist_cons_self _ _
  | queue_reply_all r =>
    cases q with
    | nil => exact List.Sublist.refl _
    | cons req rest =>
      exact List.Sublist.trans (List.filter_sublist _) (List.sublist_cons_self _ _)
  | property_changed n v => exact List.Sublist.refl _
  | storage_sync i k => exact List.Sublist.refl _

theorem queue_events_sublist (q : List Request) (log : List Output) (es : List Event) :
    List.Sublist (queue_events q log es).1 q := by
  induction es generalizing q log with
  | nil => exact List.Sublist.refl _
  | cons e es ih =>
    simp only [queue_events]
    exact List.Sublist.trans (ih _ _) (queue_event_sublist q log e)

theorem instance_step_queue (drv : ofono_radio_settings_driver) (s : Instance) (i : Input) :
    List.Sublist (instance_step drv s i).queue (s.queue ++ arrivals [i]) := by
  cases i with
  | request req =>
    simp only [instance_step, queue_request, arrivals]
    split
    · rename_i hempty
      have hq : s.queue = [] := by simpa using hempty
      rw [hq]
      exact queue_serve_sublist drv [req] s.rs s.log
    · exact List.Sublist.refl _
  | completion res =>
    simp only [instance_step, driver_completes, arrivals, List.append_nil]
    split
    · exact List.Sublist.refl _
    · split
      · exact queue_events_sublist _ _ _
      · exact List.Sublist.trans (queue_serve_sublist drv _ _ _) (queue_events_sublist _ _ _)

theorem arrivals_cons (i : Input) (rest : List Input) :
    arrivals (i :: rest) = arrivals [i] ++ arrivals rest := by
  cases i <;> simp [arrivals]

theorem instance_run_queue (drv : ofono_radio_settings_driver) (s : Instance)
    (inputs : List Input) :
    List.Sublist (instance_run drv s inputs).queue (s.queue ++ arrivals inputs) := by
  induction inputs generalizing s with
  | nil => simp [instance_run, arrivals]
  | cons i rest ih =>
    have hrun : instance_run drv s (i :: rest) = instance_run drv (instance_step drv s i) rest :=
      rfl
    rw [hrun, arrivals_cons, ← List.append_assoc]
    exact List.Sublist.trans (ih _)
      (List.Sublist.append (instance_step_queue drv s i) (List.Sublist.refl _))

theorem set_callbacks_settle (error : Bool) (rs : ofono_radio_settings) :
    (radio_mode_set_callback error rs).1.pending_mode
      = (radio_mode_set_callback error rs).1.mode ∧
    bands_settled (radio_band_set_callback error rs).1 ∧
    (radio_fast_dormancy_set_callback error rs).1.fast_dormancy_pending
      = (radio_fast_dormancy_set_callback error rs).1.fast_dormancy := by
  refine ⟨?_, ?_, ?_⟩
  · unfold radio_mode_set_callback radio_set_rat_mode
    cases error
    · by_cases h : rs.mode = rs.pending_mode
      · simp [h]
      · cases hs : rs.settings <;> simp [h, hs]
    · simp
  · cases error
    · simp only [radio_band_set_callback, Bool.false_eq_true, if_false]
      exact set_band_settled rs
    · exact ⟨rfl, rfl⟩
  · unfold radio_fast_dormancy_set_callback radio_set_fast_dormancy
    cases error
    · by_cases h : rs.fast_dormancy = rs.fast_dormancy_pending <;> simp [h]
    · simp

/-- C17: for any sequence of requests and driver completions on one instance, the number of
driver operations invoked equals the number of completions delivered plus the operations in
flight, of which there is at most one; the queue keeps the arrival order; a request that arrives
while another one is served joins the end of the queue without running a handler or a driver
operation; and when a completion answers the request at the head, the next requests are served
from the record that the completion callback left, in which a set callback has committed or
rolled back its pending value. -/
theorem one_request_at_a_time (drv : ofono_radio_settings_driver) (rs0 : ofono_radio_settings)
    (inputs : List Input) :
    (calls_issued (instance_run drv (instance_new rs0) inputs).log
        = completions_delivered drv (instance_new rs0) inputs
          + in_flight (instance_run drv (instance_new rs0) inputs) ∧
      in_flight (instance_run drv (instance_new rs0) inputs) ≤ 1) ∧
    List.Sublist (instance_run drv (instance_new rs0) inputs).queue (arrivals inputs) ∧
    (∀ (t : Instance) (req : Request), t.queue ≠ [] →
      instance_step drv t (Input.request req) = { t with queue := t.queue ++ [req] }) ∧
    (∀ (t : Instance) (c : DriverCall) (res : DriverResult), t.waiting = some c →
      queue_replies (driver_completion drv c res t.rs).2 ≠ [] →
      instance_step drv t (Input.completion res)
        = queue_serve drv
            (queue_events t.queue t.log (driver_completion drv c res t.rs).2).1
            (driver_completion drv c res t.rs).1
            (queue_events t.queue t.log (driver_completion drv c res t.rs).2).2) ∧
    (∀ (error : Bool) (rs : ofono_radio_settings),
      (radio_mode_set_callback error rs).1.pending_mode
        = (radio_mode_set_callback error rs).1.mode ∧
      bands_settled (radio_band_set_callback error rs).1 ∧
      (radio_fast_dormancy_set_callback error rs).1.fast_dormancy_pending
        = (radio_fast_dormancy_set_callback error rs).1.fast_dormancy) := by
  refine ⟨⟨?_, ?_⟩, ?_, ?_, ?_, set_callbacks_settle⟩
  · have h := (instance_run_issued drv (instance_new rs0) inputs (instance_new_wf rs0)).2
    have h0 : calls_issued (instance_new rs0).log = 0 := rfl
    have h1 : in_flight (instance_new rs0) = 0 := rfl
    omega
  · unfold in_flight
    split <;> omega
  · have h := instance_run_queue drv (instance_new rs0) inputs
    simpa [instance_new] using h
  · intro t req hq
    have hne : t.queue.isEmpty = false := by
      cases hl : t.queue with
      | nil => exact absurd hl hq
      | cons a l => rfl
    simp [instance_step, queue_request, hne]
  · intro t c res hw hr
    have hne : (queue_replies (driver_completion drv c res t.rs).2).isEmpty = false := by
      cases hl : queue_replies (driver_completion drv c res t.rs).2 with
      | nil => exact absurd hl hr
      | cons a l => rfl
    simp [instance_step, driver_completes, hw, hne]

/-- Witness of `one_request_at_a_time`: two band requests arrive back to back on
`example_legacy_driver`; the second waits until the first has completed, then reaches the
driver. -/
theorem one_request_at_a_time_witness :
    calls_issued (instance_run example_legacy_driver (instance_new ofono_radio_settings_create)
        [Input.request (Request.set_property
            (set_property_message "GsmBand" (DBusArg.string "900P"))),
         Input.request (Request.set_property
            (set_property_message "UmtsBand" (DBusArg.string "2100"))),
         Input.completion driver_success]).log
      = completions_delivered example_legacy_driver (instance_new ofono_radio_settings_create)
          [Input.request (Request.set_property
              (set_property_message "GsmBand" (DBusArg.string "900P"))),
           Input.request (Request.set_property
              (set_property_message "UmtsBand" (DBusArg.string "2100"))),
           Input.completion driver_success]
        + in_flight (instance_run example_legacy_driver
            (instance_new ofono_radio_settings_create)
            [Input.request (Request.set_property
                (set_property_message "GsmBand" (DBusArg.string "900P"))),
             Input.request (Request.set_property
                (set_property_message "UmtsBand" (DBusArg.string "2100"))),
             Input.completion driver_success]) ∧
    (instance_run example_legacy_driver (instance_new ofono_radio_settings_create)
        [Input.request (Request.set_property
            (set_property_message "GsmBand" (DBusArg.string "900P"))),
         Input.request (Request.set_property
            (set_property_message "UmtsBand" (DBusArg.string "2100"))),
         Input.completion driver_success]).waiting = some (DriverCall.set_band 2 5) :=
  ⟨(one_request_at_a_time example_legacy_driver ofono_radio_settings_create
      [Input.request (Request.set_property
          (set_property_message "GsmBand" (DBusArg.string "900P"))),
       Input.request (Request.set_property
          (set_property_message "UmtsBand" (DBusArg.string "2100"))),
       Input.completion driver_success]).1.1,
    by decide⟩

theorem probe_lookup_key (val : List Int) (k : Int) :
    g_hash_table_lookup (ril_radio_settings_probe val) k =
      if k = 4 then (if probe_max 4 val = 0 then none else some (probe_max 4 val))
      else if k = 2 then (if probe_max 2 val = 0 then none else some (probe_max 2 val))
      else if k = 1 then (if probe_max 1 val = 0 then none else some (probe_max 1 val))
      else none := by
  have e1 : (1 : Nat) &&& 7 = 1 := by decide
  have e2 : (2 : Nat) &&& 7 = 2 := by decide
  have e4 : (4 : Nat) &&& 7 = 4 := by decide
  have e8 : (8 : Nat) &&& 7 = 0 := by decide
  have s1 : (1 <<< 1) % 4294967296 = 2 := by decide
  have s2 : (2 <<< 1) % 4294967296 = 4 := by decide
  have s4 : (4 <<< 1) % 4294967296 = 8 := by decide
  unfold ril_radio_settings_probe
  simp only [probe_fill, OFONO_RADIO_ACCESS_MODE_ALL, GUINT_MOD, e1, e2, e4, e8, s1, s2, s4]
  by_cases k4 : k = 4
  · subst k4
    by_cases h1 : probe_max 1 val = 0 <;> by_cases h2 : probe_max 2 val = 0 <;>
      by_cases h4 : probe_max 4 val = 0 <;>
      simp [h1, h2, h4, g_hash_table_insert, g_hash_table_lookup, List.filter, List.find?]
  · by_cases k2 : k = 2
    · subst k2
      by_cases h1 : probe_max 1 val = 0 <;> by_cases h2 : probe_max 2 val = 0 <;>
        by_cases h4 : probe_max 4 val = 0 <;>
        simp [h1, h2, h4, g_hash_table_insert, g_hash_table_lookup, List.filter, List.find?]
    · by_cases k1 : k = 1
      · subst k1
        by_cases h1 : probe_max 1 val = 0 <;> by_cases h2 : probe_max 2 val = 0 <;>
          by_cases h4 : probe_max 4 val = 0 <;>
          simp [h1, h2, h4, g_hash_table_insert, g_hash_table_lookup, List.filter, List.find?]
      · have n4 : ¬ (4 : Int) = k := fun e => k4 e.symm
        have n2 : ¬ (2 : Int) = k := fun e => k2 e.symm
        have n1 : ¬ (1 : Int) = k := fun e => k1 e.symm
        have b4 : ((4 : Int) == k) = false := by simpa using n4
        have b2 : ((2 : Int) == k) = false := by simpa using n2
        have b1 : ((1 : Int) == k) = false := by simpa using n1
        by_cases h1 : probe_max 1 val = 0 <;> by_cases h2 : probe_max 2 val = 0 <;>
          by_cases h4 : probe_max 4 val = 0 <;>
          simp [h1, h2, h4, k1, k2, k4, n1, n2, n4, b1, b2, b4, g_hash_table_insert, g_hash_table_lookup,
            List.filter, List.find?]

/-- The maximum found by the inner loop for a tier: zero, or a positive supported mode below
twice the tier, and no supported mode in that range is larger. -/
theorem probe_max_spec (val : List Int) (hval : ∀ m ∈ val, is_c_int m) (r : Nat)
    (hr : r = 1 ∨ r = 2 ∨ r = 4) :
    (probe_max r val = 0 ∨
      ∃ m ∈ val, 0 < m ∧ m < 2 * (r : Int) ∧ ((probe_max r val : Nat) : Int) = m) ∧
    (∀ m ∈ val, 0 ≤ m → m < 2 * (r : Int) → m ≤ ((probe_max r val : Nat) : Int)) := by
  constructor
  · rcases probe_fold_mem r val 0 with h | ⟨m, hm, hoff, hv⟩
    · exact Or.inl h
    · have hb := (probe_bits_off_iff r hr m (hval m hm)).mp hoff
      have hn := int_to_guint_of_nonneg m hb.1 (hval m hm).2
      by_cases h0 : probe_max r val = 0
      · exact Or.inl h0
      · right
        refine ⟨m, hm, ?_, hb.2, ?_⟩
        · have : int_to_guint m ≠ 0 := by rw [hv]; exact h0
          omega
        · show ((List.foldl (probe_step r) 0 val : Nat) : Int) = m
          rw [← hv]; exact hn
  · intro m hm h0 h1
    have hoff := (probe_bits_off_iff r hr m (hval m hm)).mpr ⟨h0, h1⟩
    have hup := probe_fold_upper r val 0 m hm hoff
    have hn := int_to_guint_of_nonneg m h0 (hval m hm).2
    have : int_to_guint m ≤ probe_max r val := hup
    omega

/-- A looked-up entry of the table is the non-zero maximum found for that tier. -/
theorem probe_lookup_some (val : List Int) (r : Nat) (hr : r = 1 ∨ r = 2 ∨ r = 4) (v : Nat)
    (h : g_hash_table_lookup (ril_radio_settings_probe val) (r : Int) = some v) :
    probe_max r val = v ∧ v ≠ 0 := by
  rw [probe_lookup val r hr] at h
  by_cases h0 : probe_max r val = 0
  · rw [if_pos h0] at h; exact absurd h (by simp)
  · rw [if_neg h0] at h
    have hv : probe_max r val = v := Option.some.inj h
    exact ⟨hv, fun e => h0 (hv.trans e)⟩

/-- Below twice a tier, a value contains the tier bit exactly when it reaches the tier. -/
theorem tier_bit_iff (r v : Nat) (hr : r = 1 ∨ r = 2 ∨ r = 4) (hv : v < 2 * r) :
    v &&& r ≠ 0 ↔ r ≤ v := by
  rcases hr with rfl | rfl | rfl <;> interval_cases v <;> decide

/-- C23 (counterexample): with supported modes {1, 2, 3} the table does have an entry for the
tag LTE = 4, namely 3 (GSM + UMTS), and that entry does not contain the bit 4. -/
theorem table_entry_tier_bit_counterexample :
    g_hash_table_lookup (ril_radio_settings_probe [1, 2, 3]) 4 = some 3 ∧
    (3 : Nat) &&& 4 = 0 ∧
    ril_radio_settings_map_legacy_rat_mode (ril_radio_settings_probe [1, 2, 3]) 4 = 3 := by
  decide

/-- C23 (amended): every entry of the table built by `ril_radio_settings_probe` for a tier `r`
is a supported mode, is positive and has no bit above the tier (it is below `2 * r`); it
contains the bit `r` itself exactly when some supported mode lies in `r .. 2 * r - 1`. -/
theorem table_entry_tier_bit (val : List Int) (hval : ∀ m ∈ val, is_c_int m) (r : Nat)
    (hr : r = 1 ∨ r = 2 ∨ r = 4) (v : Nat)
    (h : g_hash_table_lookup (ril_radio_settings_probe val) (r : Int) = some v) :
    (v : Int) ∈ val ∧ 0 < v ∧ v < 2 * r ∧
    (v &&& r ≠ 0 ↔ ∃ m ∈ val, (r : Int) ≤ m ∧ m < 2 * (r : Int)) := by
  obtain ⟨hmax, hne⟩ := probe_lookup_some val r hr v h
  obtain ⟨hshape, hupper⟩ := probe_max_spec val hval r hr
  rw [hmax] at hshape hupper
  rcases hshape with h0 | ⟨m, hm, hpos, hlt, hvm⟩
  · exact absurd h0 hne
  · have hvlt : v < 2 * r := by omega
    refine ⟨by rw [hvm]; exact hm, by omega, hvlt, ?_⟩
    rw [tier_bit_iff r v hr hvlt]
    constructor
    · intro hrv
      exact ⟨m, hm, by omega, hlt⟩
    · rintro ⟨m2, hm2, hlo, hhi⟩
      have := hupper m2 hm2 (by omega) hhi
      omega

/-- C23 (witness): with supported modes {1, 2, 3} the entry for UMTS = 2 is 3, which holds
the bit 2. -/
theorem table_entry_tier_bit_witness :
    g_hash_table_lookup (ril_radio_settings_probe [1, 2, 3]) ((2 : Nat) : Int) = some 3 ∧
    ((3 : Int) ∈ [1, 2, 3] ∧ 0 < 3 ∧ 3 < 2 * 2 ∧
      ((3 : Nat) &&& 2 ≠ 0 ↔ ∃ m ∈ ([1, 2, 3] : List Int), ((2 : Nat) : Int) ≤ m ∧
        m < 2 * ((2 : Nat) : Int))) :=
  ⟨by decide, table_entry_tier_bit [1, 2, 3] (by decide) 2 (by decide) 3 (by decide)⟩

/-- C24: for every list of supported modes (C `int` values) the table built by
`ril_radio_settings_probe` is monotone across the tiers GSM = 1, UMTS = 2, LTE = 4: a tier
with an entry makes every higher tier have an entry at least as large, and every entry for a
tier `r` lies in `1 .. 2 * r - 1`. -/
theorem table_monotone (val : List Int) (hval : ∀ m ∈ val, is_c_int m) :
    (∀ r s : Nat, (r = 1 ∨ r = 2 ∨ r = 4) → (s = 1 ∨ s = 2 ∨ s = 4) → r ≤ s →
      ∀ v, g_hash_table_lookup (ril_radio_settings_probe val) (r : Int) = some v →
        ∃ w, g_hash_table_lookup (ril_radio_settings_probe val) (s : Int) = some w ∧ v ≤ w) ∧
    (∀ r : Nat, (r = 1 ∨ r = 2 ∨ r = 4) →
      ∀ v, g_hash_table_lookup (ril_radio_settings_probe val) (r : Int) = some v →
        1 ≤ v ∧ v ≤ 2 * r - 1) := by
  constructor
  · intro r s hr hs hrs v h
    obtain ⟨hmax, hne⟩ := probe_lookup_some val r hr v h
    obtain ⟨hshape, _⟩ := probe_max_spec val hval r hr
    obtain ⟨_, hupper⟩ := probe_max_spec val hval s hs
    rw [hmax] at hshape
    rcases hshape with h0 | ⟨m, hm, hpos, hlt, hvm⟩
    · exact absurd h0 hne
    · have hle := hupper m hm (by omega) (by omega)
      have hvw : v ≤ probe_max s val := by omega
      refine ⟨probe_max s val, ?_, hvw⟩
      rw [probe_lookup val s hs, if_neg (by omega)]
  · intro r hr v h
    obtain ⟨hmax, hne⟩ := probe_lookup_some val r hr v h
    obtain ⟨hshape, _⟩ := probe_max_spec val hval r hr
    rw [hmax] at hshape
    rcases hshape with h0 | ⟨m, hm, hpos, hlt, hvm⟩
    · exact absurd h0 hne
    · omega

/-- C24 (witness): with supported modes {1, 2, 3} the entries are 1, 3 and 3. -/
theorem table_monotone_witness :
    g_hash_table_lookup (ril_radio_settings_probe [1, 2, 3]) ((1 : Nat) : Int) = some 1 ∧
    (∃ w, g_hash_table_lookup (ril_radio_settings_probe [1, 2, 3]) ((4 : Nat) : Int) = some w ∧
      1 ≤ w) :=
  ⟨by decide,
    (table_monotone [1, 2, 3] (by decide)).1 1 4 (by decide) (by decide) (by decide) 1
      (by decide)⟩

/-- A value of the table lookup is zero or one of the supported modes. -/
theorem map_legacy_rat_mode_mem (modes : List Int) (hmodes : ∀ m ∈ modes, is_c_int m)
    (rat : Int) :
    ril_radio_settings_map_legacy_rat_mode (ril_radio_settings_probe modes) rat = 0 ∨
    ril_radio_settings_map_legacy_rat_mode (ril_radio_settings_probe modes) rat ∈ modes := by
  have key : ∀ r : Nat, (r = 1 ∨ r = 2 ∨ r = 4) →
      probe_max r modes ≠ 0 → guint_to_int (probe_max r modes) ∈ modes := by
    intro r hr hne
    rcases (probe_max_spec modes hmodes r hr).1 with h0 | ⟨m, hm, hpos, hlt, hvm⟩
    · exact absurd h0 hne
    · have hsmall : probe_max r modes < 8 := by rcases hr with rfl | rfl | rfl <;> omega
      have hg : guint_to_int (probe_max r modes) = ((probe_max r modes : Nat) : Int) := by
        unfold guint_to_int GUINT_MOD
        rw [Nat.mod_eq_of_lt (by omega), if_pos (by omega)]
      rw [hg, hvm]; exact hm
  unfold ril_radio_settings_map_legacy_rat_mode
  rw [probe_lookup_key modes rat]
  by_cases k4 : rat = 4
  · rw [if_pos k4]
    by_cases h : probe_max 4 modes = 0
    · left; rw [if_pos h]
    · right; rw [if_neg h]; exact key 4 (by decide) h
  · rw [if_neg k4]
    by_cases k2 : rat = 2
    · rw [if_pos k2]
      by_cases h : probe_max 2 modes = 0
      · left; rw [if_pos h]
      · right; rw [if_neg h]; exact key 2 (by decide) h
    · rw [if_neg k2]
      by_cases k1 : rat = 1
      · rw [if_pos k1]
        by_cases h : probe_max 1 modes = 0
        · left; rw [if_pos h]
        · right; rw [if_neg h]; exact key 1 (by decide) h
      · left; rw [if_neg k1]

/-- C25: for every list of supported modes (C `int` values), every non-zero value returned by
`ril_radio_settings_map_legacy_rat_mode` is one of the supported modes; and whenever
`SetProperty("TechnologyPreference", legacy tag)` on the RIL driver leads the core to call
`set_rat_mode(am)`, the mode `am` is ANY or a supported mode, so that
`ril_radio_settings_set_rat_mode` records it as the preferred mode and queues the success
completion `ril_radio_settings_set_rat_mode_cb`, which reports success to the core. -/
theorem legacy_mapping_accepted (modes : List Int) (hmodes : ∀ m ∈ modes, is_c_int m) :
    (∀ rat : Int,
      ril_radio_settings_map_legacy_rat_mode (ril_radio_settings_probe modes) rat ≠ 0 →
      ril_radio_settings_map_legacy_rat_mode (ril_radio_settings_probe modes) rat ∈ modes) ∧
    (∀ (rs : ofono_radio_settings) (value : String) (tag am : Int) (d : ril_driver_state),
      d.rsd = ril_radio_settings_new modes →
      radio_legacy_mode_from_string value = some tag →
      (radio_set_property_handler (ril_radio_settings_driver d.rsd) rs
        (set_property_message "TechnologyPreference" (DBusArg.string value))).events
          = [Event.driver (DriverCall.set_rat_mode am)] →
      (am = OFONO_RADIO_ACCESS_MODE_ANY ∨ am ∈ modes) ∧
      ril_radio_settings_set_rat_mode d am =
        ril_radio_settings_later (ril_sim_settings_set_pref_mode d am)
          ril_radio_settings_cb_tag.RADIO_SETTINGS_SET_RAT_MODE
          ril_idle_func.ril_radio_settings_set_rat_mode_cb ∧
      (ril_radio_settings_set_rat_mode d am).pref_mode = am ∧
      (ril_idle_invoke (ril_radio_settings_set_rat_mode d am)
        ril_idle_func.ril_radio_settings_set_rat_mode_cb).error = false) := by
  constructor
  · intro rat hne
    rcases map_legacy_rat_mode_mem modes hmodes rat with h | h
    · exact absurd h hne
    · exact h
  · intro rs value tag am d hd hparse hcall
    have ham : am = OFONO_RADIO_ACCESS_MODE_ANY ∨ am ∈ modes := by
      rw [set_property_message_dispatch, hd] at hcall
      have hset : (ril_radio_settings_driver (ril_radio_settings_new modes)).set_rat_mode
          = true := rfl
      have hleg : radio_legacy_rat_driver
          (ril_radio_settings_driver (ril_radio_settings_new modes)) = false := rfl
      simp only [radio_set_technology_preference, hset, hleg, hparse,
        Bool.not_true, Bool.false_eq_true, if_false] at hcall
      by_cases hany : (-tag != OFONO_RADIO_ACCESS_MODE_ANY) = true
      · have htag : ¬ tag = OFONO_RADIO_ACCESS_MODE_ANY := by
          intro e; rw [e] at hany; revert hany; decide
        have hmap : radio_map_legacy_rat
            (ril_radio_settings_driver (ril_radio_settings_new modes)) tag =
            ril_radio_settings_map_legacy_rat_mode (ril_radio_settings_probe modes) tag := by
          simp [radio_map_legacy_rat, htag, radio_legacy_rat_driver, ril_radio_settings_driver,
            ril_radio_settings_new]
        rw [if_pos hany, hmap] at hcall
        by_cases hz : ril_radio_settings_map_legacy_rat_mode (ril_radio_settings_probe modes)
            tag = 0
        · rw [if_pos hz] at hcall
          simp [handler_reply] at hcall
        · rw [if_neg hz] at hcall
          by_cases hm : rs.mode = -tag
          · rw [if_pos hm] at hcall
            simp [handler_reply] at hcall
          · rw [if_neg hm] at hcall
            have he : ril_radio_settings_map_legacy_rat_mode (ril_radio_settings_probe modes)
                tag = am := by simpa using hcall
            rcases map_legacy_rat_mode_mem modes hmodes tag with h | h
            · exact absurd h hz
            · right; rw [← he]; exact h
      · have htag : tag = OFONO_RADIO_ACCESS_MODE_ANY := by
          have : -tag = OFONO_RADIO_ACCESS_MODE_ANY := by simpa using hany
          unfold OFONO_RADIO_ACCESS_MODE_ANY at this ⊢
          omega
        rw [if_neg hany] at hcall
        by_cases hm : rs.mode = -tag
        · rw [if_pos hm] at hcall
          simp [handler_reply] at hcall
        · rw [if_neg hm] at hcall
          have he : tag = am := by simpa using hcall
          left; rw [← he]; exact htag
    have hacc : (am = OFONO_RADIO_ACCESS_MODE_ANY || d.rsd.supported_modes.contains am) = true := by
      rcases ham with h | h
      · simp [h]
      · have : d.rsd.supported_modes.contains am = true := by
          rw [hd]; simpa [ril_radio_settings_new] using h
        rw [this, Bool.or_true]
    have hset : ril_radio_settings_set_rat_mode d am =
        ril_radio_settings_later (ril_sim_settings_set_pref_mode d am)
          ril_radio_settings_cb_tag.RADIO_SETTINGS_SET_RAT_MODE
          ril_idle_func.ril_radio_settings_set_rat_mode_cb := by
      unfold ril_radio_settings_set_rat_mode
      rw [if_pos hacc]
    refine ⟨ham, hset, ?_, rfl⟩
    rw [hset]; rfl

/-- C25 (witness): supported modes {1, 2, 3} and the tag `"lte"` in the state after creation:
the core calls `set_rat_mode(3)` and the driver accepts it. -/
theorem legacy_mapping_accepted_witness :
    ((3 : Int) = OFONO_RADIO_ACCESS_MODE_ANY ∨ (3 : Int) ∈ [1, 2, 3]) ∧
    (ril_radio_settings_set_rat_mode (ril_driver_new [1, 2, 3] 0 7) 3).pref_mode = 3 :=
  have h := (legacy_mapping_accepted [1, 2, 3] (by decide)).2 ofono_radio_settings_create "lte"
    4 3 (ril_driver_new [1, 2, 3] 0 7) rfl (by decide) (by decide)
  ⟨h.1, h.2.2.1⟩

/-- The value of `radio_map_legacy_rat` on a bitmask-capable driver without
`map_legacy_rat_mode`. -/
theorem map_legacy_rat_fallback (drv : ofono_radio_settings_driver)
    (hq : drv.query_available_rat_modes = true) (hmap : drv.map_legacy_rat_mode = none)
    (rat : Int) :
    radio_map_legacy_rat drv rat =
      if rat = OFONO_RADIO_ACCESS_MODE_ANY then rat
      else (((int_to_guint rat ||| int_to_guint (rat - 1)) &&& OFONO_RADIO_ACCESS_MODE_ALL : Nat)
        : Int) := by
  unfold radio_map_legacy_rat radio_legacy_rat_driver
  rw [hq, hmap]
  by_cases h : rat = OFONO_RADIO_ACCESS_MODE_ANY <;> simp [h]

/-- C26: on a bitmask-capable driver without `map_legacy_rat_mode` the core maps the legacy
tags 1, 2 and 4 to `(rat | (rat - 1)) & 7`, that is to 1, 3 and 7; the table of the RIL driver
gives the same values whenever the supported modes (C `int` values) include all of 1 .. 7; and
the fallback is non-zero for every single-bit tag. -/
theorem fallback_agrees_with_table (drv : ofono_radio_settings_driver)
    (hq : drv.query_available_rat_modes = true) (hmap : drv.map_legacy_rat_mode = none)
    (val : List Int) (hval : ∀ m ∈ val, is_c_int m)
    (hall : ∀ m : Int, 1 ≤ m → m ≤ 7 → m ∈ val) :
    radio_map_legacy_rat drv 1 = 1 ∧ radio_map_legacy_rat drv 2 = 3 ∧
    radio_map_legacy_rat drv 4 = 7 ∧
    (∀ tag : Int, tag = 1 ∨ tag = 2 ∨ tag = 4 →
      radio_map_legacy_rat drv tag =
        ril_radio_settings_map_legacy_rat_mode (ril_radio_settings_probe val) tag ∧
      radio_map_legacy_rat drv tag =
        radio_map_legacy_rat (ril_radio_settings_driver (ril_radio_settings_new val)) tag) ∧
    (∀ k : Nat, k < 32 → radio_map_legacy_rat drv ((2 : Int) ^ k) ≠ 0) := by
  have f1 : radio_map_legacy_rat drv 1 = 1 := by
    rw [map_legacy_rat_fallback drv hq hmap]; decide
  have f2 : radio_map_legacy_rat drv 2 = 3 := by
    rw [map_legacy_rat_fallback drv hq hmap]; decide
  have f4 : radio_map_legacy_rat drv 4 = 7 := by
    rw [map_legacy_rat_fallback drv hq hmap]; decide
  have top : ∀ r : Nat, (r = 1 ∨ r = 2 ∨ r = 4) → probe_max r val = 2 * r - 1 := by
    intro r hr
    obtain ⟨hshape, hupper⟩ := probe_max_spec val hval r hr
    have hin : ((2 * r - 1 : Nat) : Int) ∈ val := by
      rcases hr with rfl | rfl | rfl <;> exact hall _ (by decide) (by decide)
    have hle := hupper _ hin (by omega) (by rcases hr with rfl | rfl | rfl <;> omega)
    rcases hshape with h0 | ⟨m, _, _, hlt, hvm⟩
    · rw [h0] at hle; rcases hr with rfl | rfl | rfl <;> omega
    · omega
  have table : ∀ r : Nat, (r = 1 ∨ r = 2 ∨ r = 4) →
      ril_radio_settings_map_legacy_rat_mode (ril_radio_settings_probe val) (r : Int)
        = ((2 * r - 1 : Nat) : Int) := by
    intro r hr
    unfold ril_radio_settings_map_legacy_rat_mode
    rw [probe_lookup val r hr, top r hr, if_neg (by rcases hr with rfl | rfl | rfl <;> decide)]
    rcases hr with rfl | rfl | rfl <;> decide
  have ril : ∀ tag : Int, tag = 1 ∨ tag = 2 ∨ tag = 4 →
      radio_map_legacy_rat (ril_radio_settings_driver (ril_radio_settings_new val)) tag =
        ril_radio_settings_map_legacy_rat_mode (ril_radio_settings_probe val) tag := by
    intro tag htag
    have hne : ¬ tag = OFONO_RADIO_ACCESS_MODE_ANY := by
      rcases htag with rfl | rfl | rfl <;> decide
    simp [radio_map_legacy_rat, hne, radio_legacy_rat_driver, ril_radio_settings_driver,
      ril_radio_settings_new]
  refine ⟨f1, f2, f4, ?_, ?_⟩
  · intro tag htag
    have ht : radio_map_legacy_rat drv tag =
        ril_radio_settings_map_legacy_rat_mode (ril_radio_settings_probe val) tag := by
      rcases htag with rfl | rfl | rfl
      · rw [f1]; exact (table 1 (by decide)).symm
      · rw [f2]; exact (table 2 (by decide)).symm
      · rw [f4]; exact (table 4 (by decide)).symm
    exact ⟨ht, by rw [ril tag htag]; exact ht⟩
  · intro k hk
    rw [map_legacy_rat_fallback drv hq hmap]
    interval_cases k <;> decide

/-- C26 (witness): a driver with every operation but `map_legacy_rat_mode`, against the RIL
table for the supported modes 1 .. 7. -/
theorem fallback_agrees_with_table_witness :
    radio_map_legacy_rat { example_legacy_driver with query_available_rat_modes := true } 4 = 7 ∧
    ril_radio_settings_map_legacy_rat_mode (ril_radio_settings_probe [1, 2, 3, 4, 5, 6, 7]) 4
      = 7 :=
  have h := fallback_agrees_with_table
    { example_legacy_driver with query_available_rat_modes := true } rfl rfl
    [1, 2, 3, 4, 5, 6, 7] (by decide)
    (by intro m h1 h7; interval_cases m <;> decide)
  ⟨h.2.2.1, by decide⟩

/-- C21 (the code at the failing input): on a driver with every legacy operation a first
`GetProperties` runs the query pipeline, in which the driver reports fast dormancy enabled;
the confirmed value is then `true` while `fast_dormancy_pending` is still `false`. The request
`SetProperty("FastDormancy", false)` that follows is answered with success at once, no driver
operation is invoked, and the confirmed value is still `true`. -/
theorem fast_dormancy_success_not_confirmed :
    example_state_fast_dormancy.fast_dormancy = true ∧
    example_state_fast_dormancy.fast_dormancy_pending = false ∧
    (instance_run example_legacy_driver (instance_new ofono_radio_settings_create)
      [Input.request Request.get_properties,
       Input.completion driver_success,
       Input.completion driver_success,
       Input.completion { driver_success with enable := true },
       Input.completion { driver_success with available_rats := 7 }]).rs
      = example_state_fast_dormancy ∧
    radio_set_property_handler example_legacy_driver example_state_fast_dormancy
        (set_property_message "FastDormancy" (DBusArg.boolean false))
      = handler_reply example_state_fast_dormancy DBusReply.method_return ∧
    (radio_set_property_handler example_legacy_driver example_state_fast_dormancy
        (set_property_message "FastDormancy" (DBusArg.boolean false))).rs.fast_dormancy
      = true ∧
    (instance_run example_legacy_driver (instance_new ofono_radio_settings_create)
      [Input.request Request.get_properties,
       Input.completion driver_success,
       Input.completion driver_success,
       Input.completion { driver_success with enable := true },
       Input.completion { driver_success with available_rats := 7 },
       Input.request (Request.set_property
         (set_property_message "FastDormancy" (DBusArg.boolean false)))]).log.getLast?
      = some (Output.replied
          (Request.set_property (set_property_message "FastDormancy" (DBusArg.boolean false)))
          DBusReply.method_return) := by
  decide

/-- C22 (counterexample): two reachable states in which no request is queued and no driver
completion is awaited, and the pending mode differs from the confirmed mode. After registration
with the stored preference `"+umts+gsm"` the confirmed mode is 3 and the pending mode is still
0; after a complete query pipeline in which a legacy-only driver reported GSM the confirmed
mode is the legacy tag -1 and the pending mode is still 0. -/
theorem pending_equals_confirmed_counterexample :
    (example_state_registered.mode = 3 ∧ example_state_registered.pending_mode = 0) ∧
    ((instance_run example_legacy_driver (instance_new ofono_radio_settings_create)
        [Input.request Request.get_properties,
         Input.completion { driver_success with rat := 1 },
         Input.completion driver_success,
         Input.completion driver_success,
         Input.completion { driver_success with available_rats := 7 }]).waiting = none ∧
      (instance_run example_legacy_driver (instance_new ofono_radio_settings_create)
        [Input.request Request.get_properties,
         Input.completion { driver_success with rat := 1 },
         Input.completion driver_success,
         Input.completion driver_success,
         Input.completion { driver_success with available_rats := 7 }]).queue = [] ∧
      (instance_run example_legacy_driver (instance_new ofono_radio_settings_create)
        [Input.request Request.get_properties,
         Input.completion { driver_success with rat := 1 },
         Input.completion driver_success,
         Input.completion driver_success,
         Input.completion { driver_success with available_rats := 7 }]).rs.mode = -1 ∧
      (instance_run example_legacy_driver (instance_new ofono_radio_settings_create)
        [Input.request Request.get_properties,
         Input.completion { driver_success with rat := 1 },
         Input.completion driver_success,
         Input.completion driver_success,
         Input.completion { driver_success with available_rats := 7 }]).rs.pending_mode
        = 0) := by
  decide

/-- C22 (amended): after creation every pending field equals its confirmed field; after the
settings load of a registration, and in every state reached from there by requests and driver
completions in which no `set_band` is awaited, both pending bands equal the confirmed bands;
and after every set completion, successful or failed, the pending value of the field that was
set equals its confirmed value, for the mode, the bands and fast dormancy. -/
theorem pending_equals_confirmed (drv : ofono_radio_settings_driver) (imsi : Option String)
    (store : Option GKeyFile) (inputs : List Input) (error : Bool)
    (rs : ofono_radio_settings) :
    (ofono_radio_settings_create.pending_mode = ofono_radio_settings_create.mode ∧
      bands_settled ofono_radio_settings_create ∧
      ofono_radio_settings_create.fast_dormancy_pending
        = ofono_radio_settings_create.fast_dormancy) ∧
    bands_settled (ofono_radio_settings_register drv ofono_radio_settings_create imsi store).1 ∧
    (is_set_band (instance_run drv
        (instance_new (ofono_radio_settings_register drv ofono_radio_settings_create imsi
          store).1) inputs).waiting = false →
      bands_settled (instance_run drv
        (instance_new (ofono_radio_settings_register drv ofono_radio_settings_create imsi
          store).1) inputs).rs) ∧
    ((radio_mode_set_callback error rs).1.pending_mode
        = (radio_mode_set_callback error rs).1.mode ∧
      bands_settled (radio_band_set_callback error rs).1 ∧
      (radio_fast_dormancy_set_callback error rs).1.fast_dormancy_pending
        = (radio_fast_dormancy_set_callback error rs).1.fast_dormancy) := by
  refine ⟨⟨rfl, ⟨rfl, rfl⟩, rfl⟩, registered_settled drv imsi store, ?_,
    set_callbacks_settle error rs⟩
  exact instance_run_settled drv _ inputs (instance_new_wf _)
    (fun _ => registered_settled drv imsi store)

/-- C22 (witness): the legacy-only example driver registered with the stored preference
`"+umts+gsm"`, then a `GetProperties` and the completion of its first query: the query of the
bands is awaited and the pending bands equal the confirmed bands. -/
theorem pending_equals_confirmed_witness :
    bands_settled (instance_run example_legacy_driver
      (instance_new (ofono_radio_settings_register example_legacy_driver
        ofono_radio_settings_create (some "imsi") (some example_store_umts_gsm)).1)
      [Input.request Request.get_properties, Input.completion driver_success]).rs :=
  (pending_equals_confirmed example_legacy_driver (some "imsi") (some example_store_umts_gsm)
    [Input.request Request.get_properties, Input.completion driver_success] false
    ofono_radio_settings_create).2.2.1 (by decide)

/-- The string of a combination 1 .. 7 is no legacy tag and reads back as the combination. -/
theorem mask_string_reads_back (e : Int) (s : String) (h1 : 1 ≤ e) (h7 : e ≤ 7)
    (h : radio_access_modes_to_string e = some s) :
    radio_legacy_mode_from_string s = none ∧ radio_access_modes_from_string s = some e := by
  interval_cases e
  · have k : radio_access_modes_to_string 1 = some "+gsm" := by decide
    rw [k] at h; simp at h; subst h; decide
  · have k : radio_access_modes_to_string 2 = some "+umts" := by decide
    rw [k] at h; simp at h; subst h; decide
  · have k : radio_access_modes_to_string 3 = some "+umts+gsm" := by decide
    rw [k] at h; simp at h; subst h; decide
  · have k : radio_access_modes_to_string 4 = some "+lte" := by decide
    rw [k] at h; simp at h; subst h; decide
  · have k : radio_access_modes_to_string 5 = some "+lte+gsm" := by decide
    rw [k] at h; simp at h; subst h; decide
  · have k : radio_access_modes_to_string 6 = some "+lte+umts" := by decide
    rw [k] at h; simp at h; subst h; decide
  · have k : radio_access_modes_to_string 7 = some "+lte+umts+gsm" := by decide
    rw [k] at h; simp at h; subst h; decide

theorem set_technology_preference_legacy_accepted (drv : ofono_radio_settings_driver)
    (rs : ofono_radio_settings) (value : String) (am : Int) (hset : drv.set_rat_mode = true)
    (hparse : radio_legacy_mode_from_string value = some am)
    (hleg : radio_legacy_rat_driver drv = true → radio_access_mode_is_supported rs am = true)
    (hmap : radio_legacy_rat_driver drv = false → radio_map_legacy_rat drv am ≠ 0) :
    technology_request_accepted rs
      (radio_set_technology_preference drv rs (DBusArg.string value)) := by
  unfold technology_request_accepted
  simp only [radio_set_technology_preference, hset, hparse, Bool.not_true, Bool.false_eq_true,
    if_false]
  by_cases hl : radio_legacy_rat_driver drv = true
  · rw [if_pos hl, hleg hl]
    simp only [Bool.not_true, Bool.false_eq_true, if_false]
    by_cases hm : rs.mode = -am
    · left; rw [if_pos hm]
    · right; rw [if_neg hm]; exact ⟨_, _, rfl⟩
  · rw [if_neg hl]
    have hl2 : radio_legacy_rat_driver drv = false := by simpa using hl
    by_cases hany : (-am != OFONO_RADIO_ACCESS_MODE_ANY) = true
    · rw [if_pos hany]
      simp only [hmap hl2, if_false]
      by_cases hm : rs.mode = -am
      · left; rw [if_pos hm]
      · right; rw [if_neg hm]; exact ⟨_, _, rfl⟩
    · rw [if_neg hany]
      by_cases hm : rs.mode = -am
      · left; rw [if_pos hm]
      · right; rw [if_neg hm]; exact ⟨_, _, rfl⟩

theorem set_technology_preference_mask_accepted (drv : ofono_radio_settings_driver)
    (rs : ofono_radio_settings) (value : String) (am : Int) (hset : drv.set_rat_mode = true)
    (hnot : radio_legacy_mode_from_string value = none)
    (hparse : radio_access_modes_from_string value = some am)
    (hleg : radio_legacy_rat_driver drv = false)
    (hsup : radio_access_mode_is_supported rs am = true) :
    technology_request_accepted rs
      (radio_set_technology_preference drv rs (DBusArg.string value)) := by
  unfold technology_request_accepted
  simp only [radio_set_technology_preference, hset, hparse, hnot, hleg, hsup, Bool.not_true,
    Bool.false_eq_true, if_false, Bool.or_false]
  by_cases hm : rs.mode = am
  · left; rw [if_pos hm]
  · right; rw [if_neg hm]; exact ⟨_, _, rfl⟩

/-- C27: in a state whose available modes are set, with every entry within 1 .. 7 (a single
bit 1, 2 or 4 on a legacy-only driver), every string that `GetProperties` lists in
`AvailableTechnologies` is accepted by `SetProperty("TechnologyPreference", that string)`: the
answer is neither invalid-arguments nor not-supported, and on a driver that implements
`set_rat_mode` the request is answered with success at once or reaches the driver. -/
theorem listed_technology_accepted (drv : ofono_radio_settings_driver)
    (rs : ofono_radio_settings) (m : List Int) (l : List (Option String)) (s : String)
    (havail : rs.available_modes = some m)
    (hrange : ∀ e ∈ m, 1 ≤ e ∧ e ≤ 7)
    (hsingle : radio_legacy_rat_driver drv = true → ∀ e ∈ m, e = 1 ∨ e = 2 ∨ e = 4)
    (hdict : dict_value "AvailableTechnologies" (radio_get_properties_dict drv rs)
      = some (PropertyValue.string_array l))
    (hlisted : some s ∈ l) :
    (radio_set_property_handler drv rs
        (set_property_message "TechnologyPreference" (DBusArg.string s))).reply
      ≠ some (DBusReply.error DBusError.invalid_args) ∧
    (radio_set_property_handler drv rs
        (set_property_message "TechnologyPreference" (DBusArg.string s))).reply
      ≠ some (DBusReply.error DBusError.not_supported) ∧
    (drv.set_rat_mode = true →
      technology_request_accepted rs (radio_set_property_handler drv rs
        (set_property_message "TechnologyPreference" (DBusArg.string s)))) := by
  have hl : l = radio_available_technologies drv m := by
    have hd : dict_value "AvailableTechnologies" (radio_get_properties_dict drv rs)
        = some (PropertyValue.string_array (radio_available_technologies drv m)) := by
      unfold radio_get_properties_dict dict_value
      rw [havail]
      cases drv.query_band <;> cases drv.query_fast_dormancy <;> simp +decide
    rw [hd] at hdict
    simpa using hdict.symm
  subst hl
  rw [set_property_message_dispatch]
  by_cases hset : drv.set_rat_mode = true
  swap
  · have hni : radio_set_technology_preference drv rs (DBusArg.string s)
        = handler_reply rs (DBusReply.error DBusError.not_implemented) := by
      unfold radio_set_technology_preference
      rw [if_pos (by simp [hset])]
    rw [hni]
    exact ⟨by simp [handler_reply], by simp [handler_reply], fun h => absurd h hset⟩
  have hacc : technology_request_accepted rs
      (radio_set_technology_preference drv rs (DBusArg.string s)) := by
    have hmem : ∀ e ∈ m, radio_access_mode_is_supported rs e = true := by
      intro e he
      unfold radio_access_mode_is_supported
      rw [havail]
      by_cases h0 : e = OFONO_RADIO_ACCESS_MODE_ANY
      · rw [if_pos h0]
      · rw [if_neg h0]; simpa using he
    unfold radio_available_technologies at hlisted
    by_cases hleg : radio_legacy_rat_driver drv = true
    · rw [if_pos hleg] at hlisted
      obtain ⟨e, he, hes⟩ := List.mem_map.mp hlisted
      have hparse := legacy_tag_string e s (hsingle hleg e he) hes
      exact set_technology_preference_legacy_accepted drv rs s e hset hparse
        (fun _ => hmem e he) (fun h => by rw [hleg] at h; exact absurd h (by decide))
    · rw [if_neg hleg] at hlisted
      have hleg2 : radio_legacy_rat_driver drv = false := by simpa using hleg
      rcases List.mem_append.mp hlisted with h | h
      · obtain ⟨t, ht, hts⟩ := List.mem_map.mp h
        obtain ⟨htag, hmap⟩ := List.mem_filter.mp ht
        have htag2 : t = 1 ∨ t = 2 ∨ t = 4 := by
          simpa [legacy_modes, OFONO_RADIO_ACCESS_MODE_GSM, OFONO_RADIO_ACCESS_MODE_UMTS,
            OFONO_RADIO_ACCESS_MODE_LTE] using htag
        have hparse := legacy_tag_string t s htag2 hts
        exact set_technology_preference_legacy_accepted drv rs s t hset hparse
          (fun h => absurd h hleg) (fun _ => by simpa using hmap)
      · obtain ⟨e, he, hes⟩ := List.mem_map.mp h
        obtain ⟨hnot, hparse⟩ := mask_string_reads_back e s (hrange e he).1 (hrange e he).2 hes
        exact set_technology_preference_mask_accepted drv rs s e hset hnot hparse hleg2
          (hmem e he)
  refine ⟨?_, ?_, fun _ => hacc⟩
  · rcases hacc with h | ⟨mode, am, h⟩ <;> rw [h] <;> simp [handler_reply]
  · rcases hacc with h | ⟨mode, am, h⟩ <;> rw [h] <;> simp [handler_reply]

/-- C27 (witness): the RIL driver with supported modes 1, 2, 3 in a state whose available
modes are these: the listed tag `"lte"` is accepted. -/
theorem listed_technology_accepted_witness :
    (radio_set_property_handler (ril_radio_settings_driver (ril_radio_settings_new [1, 2, 3]))
        { ofono_radio_settings_create with available_modes := some [1, 2, 3] }
        (set_property_message "TechnologyPreference" (DBusArg.string "lte"))).reply
      ≠ some (DBusReply.error DBusError.not_supported) :=
  (listed_technology_accepted (ril_radio_settings_driver (ril_radio_settings_new [1, 2, 3]))
    { ofono_radio_settings_create with available_modes := some [1, 2, 3] } [1, 2, 3]
    [some "gsm", some "umts", some "lte", some "+gsm", some "+umts", some "+umts+gsm"] "lte"
    rfl (by decide) (by decide) (by decide) (by decide)).2.1

/-- C28 (the code at the failing input): the stored key file holds the old-format preference
`"3"` and the band values 9. `radio_load_settings` reads both bands as ANY, since 9 has no band
string, but takes the preference as `-atoi("3")`: the confirmed mode is -3, which is none of
-4, -2, -1, 0 .. 7 and has no string, so the `TechnologyPreference` entry of `GetProperties`
has no value and the migrated entry of the key file is not written. -/
theorem old_format_mode_without_string :
    (radio_load_settings example_legacy_driver ofono_radio_settings_create
      (some { GsmBand := some 9, UmtsBand := some 9, TechnologyPreference := some "3" })
      "imsi").mode = -3 ∧
    radio_access_mode_to_string (-3) = none ∧
    (radio_load_settings example_legacy_driver ofono_radio_settings_create
      (some { GsmBand := some 9, UmtsBand := some 9, TechnologyPreference := some "3" })
      "imsi").band_gsm = OFONO_RADIO_BAND_GSM_ANY ∧
    (radio_load_settings example_legacy_driver ofono_radio_settings_create
      (some { GsmBand := some 9, UmtsBand := some 9, TechnologyPreference := some "3" })
      "imsi").band_umts = OFONO_RADIO_BAND_UMTS_ANY ∧
    dict_value "TechnologyPreference" (radio_get_properties_dict example_legacy_driver
      (ofono_radio_settings_register example_legacy_driver ofono_radio_settings_create
        (some "imsi")
        (some { GsmBand := some 9, UmtsBand := some 9, TechnologyPreference := some "3" })).1)
      = some (PropertyValue.string none) ∧
    (radio_load_settings example_legacy_driver ofono_radio_settings_create
      (some { GsmBand := some 9, UmtsBand := some 9, TechnologyPreference := some "3" })
      "imsi").settings
      = some { GsmBand := some 0, UmtsBand := some 0, TechnologyPreference := some "3" } ∧
    (radio_load_settings (ril_radio_settings_driver (ril_radio_settings_new [1, 2, 3, 4, 5, 6, 7]))
      ofono_radio_settings_create
      (some { GsmBand := none, UmtsBand := none, TechnologyPreference := some "3" })
      "imsi").mode = -3 := by
  decide

end RadioSettings
